import Mathlib

/-!
# Verification of `Parse` (go-jwt, `src/parse_token.go`)

A shallow embedding of the method `(t *jwt) Parse` and of the parts of the Go
standard library it calls, followed by theorems about the decode / verify /
validate pipeline.

Conventions of the embedding

* A Go `string` is a Lean `String`; one character stands for one byte (the
  tokens of interest are ASCII).  A `[]byte` is a `List Nat` of values below 256.
* A Go `int64` is `GoInt64`, an integer in the two's complement range.
* A Go `error` is `Option GoError` (`none` is `nil`); a `GoError` carries the text
  that `Error()` returns.
* `time.Now().UTC().Unix()` is the argument `now`.
* `Parse` is embedded statement by statement; lines 77-121, which follow the
  signature block on both of its branches, are the definition `Parse.validate`.
* The functions of the repository that `Parse` calls but that are not part of
  `parse_token.go` (`makeHeaderPart`, `makeClaimsPart`, `makeSignature`), the
  package variable `errTokenIsInvalid` and the two uses of `json.Unmarshal` are
  the fields of `Collaborators`; every theorem holds for all of them.
-/

namespace Jwt

/-! ## Go values -/

/-- A Go `int64`. -/
abbrev GoInt64 : Type :=
  { x : Int // -9223372036854775808 ≤ x ∧ x < 9223372036854775808 }

/-- Wrap-around of an integer into the `int64` range (Go's overflow behaviour). -/
def wrap64 (x : Int) : Int :=
  (x + 9223372036854775808) % 18446744073709551616 - 9223372036854775808

/-- The constant `unixToInternal` of package `time`: seconds from year 1 to 1970. -/
def unixToInternal : Int := (1969 * 365 + 1969 / 4 - 1969 / 100 + 1969 / 400) * 86400

/-- The constant `internalToUnix` of package `time`. -/
def internalToUnix : Int := -unixToInternal

/-- The expression `time.Unix(sec, 0).UTC().Unix()`: `time.Unix` stores
`sec + unixToInternal`, `UTC` only changes the location, and `Unix` adds
`internalToUnix`; both additions are `int64` additions. -/
def timeUnixUTCUnix (sec : GoInt64) : Int :=
  wrap64 (wrap64 (sec.val + unixToInternal) + internalToUnix)

/-- A Go `error` value that is not `nil`, with the text of its `Error()` method. -/
structure GoError where
  msg : String
deriving DecidableEq, Repr

/-- The call `fmt.Errorf("%s: failed to split the token values", kind)`. -/
def errorfSplit (kind : String) : GoError :=
  ⟨kind ++ ": failed to split the token values"⟩

/-- The call `fmt.Errorf("failed to make the headersPart: %s", err)`. -/
def errorfHeadersPart (err : GoError) : GoError :=
  ⟨"failed to make the headersPart: " ++ err.msg⟩

/-- The call `fmt.Errorf("failed to make the claimsPart: %s", err)`. -/
def errorfClaimsPart (err : GoError) : GoError :=
  ⟨"failed to make the claimsPart: " ++ err.msg⟩

/-- The call `fmt.Errorf("failed to make the signature: %s", err)`. -/
def errorfSignature (err : GoError) : GoError :=
  ⟨"failed to make the signature: " ++ err.msg⟩

/-- The call `fmt.Errorf("failed to validate signature: jwtSample %s, jwt %s", sample, jwt)`. -/
def errorfValidate (sample jwtStr : String) : GoError :=
  ⟨"failed to validate signature: jwtSample " ++ sample ++ ", jwt " ++ jwtStr⟩

/-! ## `strings.Split(s, ".")` -/

/-- Splitting of a character list at every occurrence of `sep`; the result is
never empty and has one more element than there are separators. -/
def splitChars (sep : Char) : List Char → List (List Char)
  | [] => [[]]
  | c :: cs =>
    if c = sep then [] :: splitChars sep cs
    else
      match splitChars sep cs with
      | [] => [[c]]
      | p :: ps => (c :: p) :: ps

/-- The call `strings.Split(s, sep)` for a separator of one byte. -/
def stringsSplit (s : String) (sep : Char) : List String :=
  (splitChars sep s.data).map String.mk

/-! ## `base64.URLEncoding.WithPadding(NoPadding).DecodeString` -/

/-- The alphabet `encodeURL` of package `encoding/base64`. -/
def encodeURL : String :=
  "ABCDEFGHIJKLMNOPQRSTUVWXYZabcdefghijklmnopqrstuvwxyz0123456789-_"

/-- The table `decodeMap` of the encoding: the index of a character in the alphabet,
`none` where Go stores `0xff`. -/
def decodeMap (c : Char) : Option Nat :=
  if encodeURL.data.indexOf c < 64 then some (encodeURL.data.indexOf c) else none

/-- The error `base64.CorruptInputError(n)`. -/
def CorruptInputError (n : Nat) : GoError :=
  ⟨"illegal base64 data at input byte " ++ toString n⟩

/-- The bytes that `decodeQuantum` writes for a quantum of `dbuf.length` six-bit
values: `val := dbuf[0]<<18 | dbuf[1]<<12 | dbuf[2]<<6 | dbuf[3]`, of which the
first `dlen - 1` bytes are kept. -/
def quantumBytes (dbuf : List Nat) : List Nat :=
  let val := (dbuf.getD 0 0 <<< 18) ||| (dbuf.getD 1 0 <<< 12) |||
    (dbuf.getD 2 0 <<< 6) ||| dbuf.getD 3 0
  ([val >>> 16 % 256, val >>> 8 % 256, val >>> 0 % 256]).take (dbuf.length - 1)

/-- The decoding loop of `Encoding.Decode` without padding and without strict mode.
`si` is the index of the next input byte, `dbuf` the six-bit values of the
current quantum and `dst` the bytes written so far.  A byte of the alphabet is
added to the quantum; `'\n'` and `'\r'` are skipped; any other byte is corrupt
input at its index; at the end of the input a quantum of one value is corrupt
input at `len(src) - 1`. -/
def decodeLoop : List Char → Nat → List Nat → List Nat → Except GoError (List Nat)
  | [], si, dbuf, dst =>
    if dbuf.length = 0 then .ok dst
    else if dbuf.length = 1 then .error (CorruptInputError (si - 1))
    else .ok (dst ++ quantumBytes dbuf)
  | c :: cs, si, dbuf, dst =>
    match decodeMap c with
    | some v =>
      if dbuf.length = 3 then decodeLoop cs (si + 1) [] (dst ++ quantumBytes (dbuf ++ [v]))
      else decodeLoop cs (si + 1) (dbuf ++ [v]) dst
    | none =>
      if c = '\n' ∨ c = '\r' then decodeLoop cs (si + 1) dbuf dst
      else .error (CorruptInputError si)

/-- The call `base64.URLEncoding.WithPadding(NoPadding).DecodeString(s)`. -/
def base64DecodeString (s : String) : Except GoError (List Nat) :=
  decodeLoop s.data 0 [] []

/-! ## Data model -/

/-- The payload of the claim `Data` when it is not `nil`.  Modelled from the spec:
the Go type of the field is not declared in `parse_token.go`; `Parse` only compares
the field with `nil`, so the payload is kept as its JSON text. -/
structure DataValue where
  json : String
deriving DecidableEq, Repr

/-- The header of a token.  Modelled from the spec: the struct is not declared in
`parse_token.go`; these are the fields `Parse` reads, each compared with `""`. -/
structure Headers where
  SignatureAlgorithm : String
  ContentType : String
  KeyId : String
  Critical : String
deriving DecidableEq, Repr

/-- The claims of a token.  Modelled from the spec: the struct is not declared in
`parse_token.go`; these are the fields `Parse` reads (strings compared with `""`,
times compared with the `int64` clock, `Data` compared with `nil`). -/
structure Claims where
  Issuer : String
  Subject : String
  Audience : String
  JwtId : String
  IssuedAt : GoInt64
  NotBefore : GoInt64
  ExpirationTime : GoInt64
  Data : Option DataValue
deriving DecidableEq, Repr

/-- The parsed token. -/
structure Token where
  Headers : Headers
  Claims : Claims
  Signature : String
deriving DecidableEq, Repr

/-- The zero of `int64`. -/
def GoInt64.zero : GoInt64 := ⟨0, by decide⟩

/-- The zero value `Headers{}`. -/
def Headers.zero : Headers := ⟨"", "", "", ""⟩

/-- The zero value `Claims{}`. -/
def Claims.zero : Claims := ⟨"", "", "", "", GoInt64.zero, GoInt64.zero, GoInt64.zero, none⟩

/-- The zero value `Token{}`. -/
def Token.zero : Token := ⟨Headers.zero, Claims.zero, ""⟩

/-- The switches of a parse call.  Modelled from the spec: the struct is not declared
in `parse_token.go`; these are the fields `Parse` reads. -/
structure ParseOptions where
  SkipSignatureValidation : Bool
  SkipClaimsValidation : Bool
  RequiredHeaderContentType : Bool
  RequiredHeaderKeyId : Bool
  RequiredHeaderCritical : Bool
  RequiredClaimIssuer : Bool
  RequiredClaimSubject : Bool
  RequiredClaimAudience : Bool
  RequiredClaimJwtId : Bool
  RequiredClaimData : Bool
deriving DecidableEq, Repr

/-- The configuration held by the receiver, `t.config`.  Modelled from the spec: of
the struct only `ParseOptions` and `Key` are read by `Parse`; the key is kept as a
string. -/
structure Config where
  ParseOptions : ParseOptions
  Key : String
deriving DecidableEq, Repr

/-- The receiver type `jwt`. -/
structure jwt where
  config : Config
deriving DecidableEq, Repr

/-! ## Error kinds

Modelled from the spec: the constants `ValidationError...` are not declared in
`parse_token.go`; each is given the name the spec's taxonomy uses for it. -/

/-- Modelled from the spec: kind `Malformed`. -/
def ValidationErrorMalformed : String := "Malformed"
/-- Modelled from the spec: kind `HeadersMalformed`. -/
def ValidationErrorHeadersMalformed : String := "HeadersMalformed"
/-- Modelled from the spec: kind `ClaimsMalformed`. -/
def ValidationErrorClaimsMalformed : String := "ClaimsMalformed"
/-- Modelled from the spec: kind `Unverifiable`. -/
def ValidationErrorUnverifiable : String := "Unverifiable"
/-- Modelled from the spec: kind `SignatureInvalid`. -/
def ValidationErrorSignatureInvalid : String := "SignatureInvalid"
/-- Modelled from the spec: kind `HeadersContentType`. -/
def ValidationErrorHeadersContentType : String := "HeadersContentType"
/-- Modelled from the spec: kind `HeadersKeyId`. -/
def ValidationErrorHeadersKeyId : String := "HeadersKeyId"
/-- Modelled from the spec: kind `HeadersCritical`. -/
def ValidationErrorHeadersCritical : String := "HeadersCritical"
/-- Modelled from the spec: kind `ClaimsIssuer`. -/
def ValidationErrorClaimsIssuer : String := "ClaimsIssuer"
/-- Modelled from the spec: kind `ClaimsSubject`. -/
def ValidationErrorClaimsSubject : String := "ClaimsSubject"
/-- Modelled from the spec: kind `ClaimsAudience`. -/
def ValidationErrorClaimsAudience : String := "ClaimsAudience"
/-- Modelled from the spec: kind `ClaimsJwtId`. -/
def ValidationErrorClaimsJwtId : String := "ClaimsJwtId"
/-- Modelled from the spec: kind `ClaimsData`. -/
def ValidationErrorClaimsData : String := "ClaimsData"
/-- Modelled from the spec: kind `ClaimsExpired`. -/
def ValidationErrorClaimsExpired : String := "ClaimsExpired"
/-- Modelled from the spec: kind `ClaimsNotValidYet`. -/
def ValidationErrorClaimsNotValidYet : String := "ClaimsNotValidYet"
/-- Modelled from the spec: kind `ClaimsIssuedAt`. -/
def ValidationErrorClaimsIssuedAt : String := "ClaimsIssuedAt"

/-! ## Collaborators -/

/-- What `Parse` uses and `parse_token.go` does not define.
`jsonUnmarshalHeaders b` is `json.Unmarshal(b, &token.Headers)` on the zero header
(the header it leaves, or its error), `jsonUnmarshalClaims` likewise;
`makeSignature unsigned alg key` is the signer primitive. -/
structure Collaborators where
  jsonUnmarshalHeaders : List Nat → Except GoError Headers
  jsonUnmarshalClaims : List Nat → Except GoError Claims
  makeHeaderPart : Headers → Except GoError String
  makeClaimsPart : Claims → Except GoError String
  makeSignature : String → String → String → Except GoError String
  errTokenIsInvalid : GoError

/-! ## `Parse` -/

/-- What `Parse` returns: `(Token, string, error)`. -/
abbrev ParseResult : Type := Token × String × Option GoError

/-- Lines 77-121 of `Parse`: the required-field checks on the header and on the
claims, the checks of the three times unless `SkipClaimsValidation`, and the
final `return token, "", nil`.  `Parse` reaches them when its signature block
(lines 56-75) does not return. -/
def Parse.validate (x : Collaborators) (parseOptions : ParseOptions) (now : GoInt64)
    (token : Token) : ParseResult :=
  -- Validate Headers
  if parseOptions.RequiredHeaderContentType && token.Headers.ContentType == "" then
    (Token.zero, ValidationErrorHeadersContentType, some x.errTokenIsInvalid)
  else if parseOptions.RequiredHeaderKeyId && token.Headers.KeyId == "" then
    (Token.zero, ValidationErrorHeadersKeyId, some x.errTokenIsInvalid)
  else if parseOptions.RequiredHeaderCritical && token.Headers.Critical == "" then
    (Token.zero, ValidationErrorHeadersCritical, some x.errTokenIsInvalid)
  -- Validate Claims
  else if parseOptions.RequiredClaimIssuer && token.Claims.Issuer == "" then
    (Token.zero, ValidationErrorClaimsIssuer, some x.errTokenIsInvalid)
  else if parseOptions.RequiredClaimSubject && token.Claims.Subject == "" then
    (Token.zero, ValidationErrorClaimsSubject, some x.errTokenIsInvalid)
  else if parseOptions.RequiredClaimAudience && token.Claims.Audience == "" then
    (Token.zero, ValidationErrorClaimsAudience, some x.errTokenIsInvalid)
  else if parseOptions.RequiredClaimJwtId && token.Claims.JwtId == "" then
    (Token.zero, ValidationErrorClaimsJwtId, some x.errTokenIsInvalid)
  else if parseOptions.RequiredClaimData && token.Claims.Data == none then
    (Token.zero, ValidationErrorClaimsData, some x.errTokenIsInvalid)
  else if parseOptions.SkipClaimsValidation == false then
    -- Validate IssuedAt value (lines 115-118), then line 121
    let issuedAt : Unit → ParseResult := fun _ =>
      if now.val < token.Claims.IssuedAt.val then
        (Token.zero, ValidationErrorClaimsIssuedAt, some x.errTokenIsInvalid)
      else (token, "", none)
    -- Validate ExpirationTime value
    if now.val > timeUnixUTCUnix token.Claims.ExpirationTime then
      (Token.zero, ValidationErrorClaimsExpired, some x.errTokenIsInvalid)
    -- Validate NotBefore value
    else if token.Claims.NotBefore.val ≠ 0 then
      if now.val < token.Claims.NotBefore.val then
        (Token.zero, ValidationErrorClaimsNotValidYet, some x.errTokenIsInvalid)
      else issuedAt ()
    else issuedAt ()
  else (token, "", none)

/-- The method `func (t *jwt) Parse(jwt string, options ...ParseOptions)`, line by
line; `now` is the value read from the clock at entry. -/
def Parse (x : Collaborators) (t : jwt) (now : GoInt64) (jwtStr : String)
    (options : List ParseOptions) : ParseResult :=
  -- Init Parse Options
  let parseOptions : ParseOptions :=
    match options with
    | o :: _ => o
    | [] => t.config.ParseOptions
  -- Split Token values
  match stringsSplit jwtStr '.' with
  | [p0, p1, p2] =>
    -- Parse Headers
    match base64DecodeString p0 with
    | .error err => (Token.zero, ValidationErrorHeadersMalformed, some err)
    | .ok valueByte =>
    match x.jsonUnmarshalHeaders valueByte with
    | .error err => (Token.zero, ValidationErrorHeadersMalformed, some err)
    | .ok headers =>
    -- Parse Claims
    match base64DecodeString p1 with
    | .error err => (Token.zero, ValidationErrorClaimsMalformed, some err)
    | .ok valueByte =>
    match x.jsonUnmarshalClaims valueByte with
    | .error err => (Token.zero, ValidationErrorClaimsMalformed, some err)
    | .ok claims =>
    -- Get Signature
    let token : Token := { Headers := headers, Claims := claims, Signature := p2 }
    -- Validate Signature
    if parseOptions.SkipSignatureValidation == false then
      match x.makeHeaderPart token.Headers with
      | .error err => (Token.zero, ValidationErrorUnverifiable, some (errorfHeadersPart err))
      | .ok headersPart =>
      match x.makeClaimsPart token.Claims with
      | .error err => (Token.zero, ValidationErrorUnverifiable, some (errorfClaimsPart err))
      | .ok claimsPart =>
      let unsignedToken := headersPart ++ "." ++ claimsPart
      match x.makeSignature unsignedToken token.Headers.SignatureAlgorithm t.config.Key with
      | .error err => (Token.zero, ValidationErrorUnverifiable, some (errorfSignature err))
      | .ok signature =>
      if signature ≠ token.Signature then
        (Token.zero, ValidationErrorSignatureInvalid,
          some (errorfValidate (headersPart ++ "." ++ claimsPart ++ "." ++ signature) jwtStr))
      else Parse.validate x parseOptions now token
    else Parse.validate x parseOptions now token
  | _ =>
    (Token.zero, ValidationErrorMalformed, some (errorfSplit ValidationErrorMalformed))

deriving instance DecidableEq for Except

/-! ## `base64.RawURLEncoding.EncodeToString` -/

/-- The character of the alphabet at an index below 64. -/
def encodeChar (i : Nat) : Char := encodeURL.data.getD i 'A'

/-- The loop of `Encoding.Encode` without padding: three bytes give four characters,
a remainder of two bytes gives three and a remainder of one byte gives two. -/
def encodeChars : List Nat → List Char
  | a :: b :: c :: rest =>
    let val := (a <<< 16) ||| (b <<< 8) ||| c
    encodeChar (val >>> 18 &&& 63) :: encodeChar (val >>> 12 &&& 63) ::
      encodeChar (val >>> 6 &&& 63) :: encodeChar (val &&& 63) :: encodeChars rest
  | [a, b] =>
    let val := (a <<< 16) ||| (b <<< 8)
    [encodeChar (val >>> 18 &&& 63), encodeChar (val >>> 12 &&& 63), encodeChar (val >>> 6 &&& 63)]
  | [a] =>
    let val := a <<< 16
    [encodeChar (val >>> 18 &&& 63), encodeChar (val >>> 12 &&& 63)]
  | [] => []

/-- The call `base64.RawURLEncoding.EncodeToString(src)`. -/
def base64EncodeToString (src : List Nat) : String := String.mk (encodeChars src)

/-- The bytes of an ASCII string. -/
def stringBytes (s : String) : List Nat := s.data.map Char.toNat


/-! ## The stages of `Parse`

The same steps as in `Parse`, one definition per stage; `Parse_eq` proves that
`Parse` is their composition. -/

/-- The options of the call (lines 19-23). -/
def effectiveOptions (t : jwt) (options : List ParseOptions) : ParseOptions :=
  match options with
  | o :: _ => o
  | [] => t.config.ParseOptions

/-- Lines 33-40: the header a first segment decodes to, or the error of the codec
or of the deserialiser. -/
def decodeHeaders (x : Collaborators) (p0 : String) : Except GoError Headers :=
  match base64DecodeString p0 with
  | .error err => .error err
  | .ok valueByte => x.jsonUnmarshalHeaders valueByte

/-- Lines 43-50: the claims a second segment decodes to, or the error of the codec
or of the deserialiser. -/
def decodeClaims (x : Collaborators) (p1 : String) : Except GoError Claims :=
  match base64DecodeString p1 with
  | .error err => .error err
  | .ok valueByte => x.jsonUnmarshalClaims valueByte

/-- Lines 57-69: the signature recomputed from a decoded header and decoded claims,
`makeSignature(makeHeaderPart(h) + "." + makeClaimsPart(c), h.SignatureAlgorithm, key)`,
or the error of the first of the three calls that fails. -/
def recomputedSignature (x : Collaborators) (key : String) (h : Headers) (c : Claims) :
    Except GoError String :=
  match x.makeHeaderPart h with
  | .error err => .error (errorfHeadersPart err)
  | .ok headersPart =>
  match x.makeClaimsPart c with
  | .error err => .error (errorfClaimsPart err)
  | .ok claimsPart =>
  match x.makeSignature (headersPart ++ "." ++ claimsPart) h.SignatureAlgorithm key with
  | .error err => .error (errorfSignature err)
  | .ok signature => .ok signature

/-- Lines 57-74: the kind and error with which the signature block returns, `none`
when it falls through. -/
def signatureFailure (x : Collaborators) (t : jwt) (jwtStr : String) (token : Token) :
    Option (String × GoError) :=
  match x.makeHeaderPart token.Headers with
  | .error err => some (ValidationErrorUnverifiable, errorfHeadersPart err)
  | .ok headersPart =>
  match x.makeClaimsPart token.Claims with
  | .error err => some (ValidationErrorUnverifiable, errorfClaimsPart err)
  | .ok claimsPart =>
  match x.makeSignature (headersPart ++ "." ++ claimsPart) token.Headers.SignatureAlgorithm
      t.config.Key with
  | .error err => some (ValidationErrorUnverifiable, errorfSignature err)
  | .ok signature =>
  if signature ≠ token.Signature then
    some (ValidationErrorSignatureInvalid,
      errorfValidate (headersPart ++ "." ++ claimsPart ++ "." ++ signature) jwtStr)
  else none

/-- Lines 78-103: the kind and error of the first required-field check that fails. -/
def structuralFailure (x : Collaborators) (o : ParseOptions) (token : Token) :
    Option (String × GoError) :=
  if o.RequiredHeaderContentType = true ∧ token.Headers.ContentType = "" then
    some (ValidationErrorHeadersContentType, x.errTokenIsInvalid)
  else if o.RequiredHeaderKeyId = true ∧ token.Headers.KeyId = "" then
    some (ValidationErrorHeadersKeyId, x.errTokenIsInvalid)
  else if o.RequiredHeaderCritical = true ∧ token.Headers.Critical = "" then
    some (ValidationErrorHeadersCritical, x.errTokenIsInvalid)
  else if o.RequiredClaimIssuer = true ∧ token.Claims.Issuer = "" then
    some (ValidationErrorClaimsIssuer, x.errTokenIsInvalid)
  else if o.RequiredClaimSubject = true ∧ token.Claims.Subject = "" then
    some (ValidationErrorClaimsSubject, x.errTokenIsInvalid)
  else if o.RequiredClaimAudience = true ∧ token.Claims.Audience = "" then
    some (ValidationErrorClaimsAudience, x.errTokenIsInvalid)
  else if o.RequiredClaimJwtId = true ∧ token.Claims.JwtId = "" then
    some (ValidationErrorClaimsJwtId, x.errTokenIsInvalid)
  else if o.RequiredClaimData = true ∧ token.Claims.Data = none then
    some (ValidationErrorClaimsData, x.errTokenIsInvalid)
  else none

/-- Lines 106-118: the kind and error of the first check of a time that fails. -/
def temporalFailure (x : Collaborators) (now : GoInt64) (token : Token) :
    Option (String × GoError) :=
  if now.val > token.Claims.ExpirationTime.val then
    some (ValidationErrorClaimsExpired, x.errTokenIsInvalid)
  else if token.Claims.NotBefore.val ≠ 0 ∧ now.val < token.Claims.NotBefore.val then
    some (ValidationErrorClaimsNotValidYet, x.errTokenIsInvalid)
  else if now.val < token.Claims.IssuedAt.val then
    some (ValidationErrorClaimsIssuedAt, x.errTokenIsInvalid)
  else none

/-- Lines 56-119: the first failure of the three stages, each skipped as its switch
says. -/
def validationFailure (x : Collaborators) (t : jwt) (now : GoInt64) (jwtStr : String)
    (o : ParseOptions) (token : Token) : Option (String × GoError) :=
  match (if o.SkipSignatureValidation = false then signatureFailure x t jwtStr token else none) with
  | some f => some f
  | none =>
  match structuralFailure x o token with
  | some f => some f
  | none => if o.SkipClaimsValidation = false then temporalFailure x now token else none

/-- Lines 78-119: the first failure of the stages after the signature block. -/
def laterFailure (x : Collaborators) (now : GoInt64) (o : ParseOptions) (token : Token) :
    Option (String × GoError) :=
  match structuralFailure x o token with
  | some f => some f
  | none => if o.SkipClaimsValidation = false then temporalFailure x now token else none

/-- The return statement: `Token{}` with kind and error on a failure, the token with
`""` and `nil` otherwise. -/
def finish (token : Token) : Option (String × GoError) → ParseResult
  | some (kind, err) => (Token.zero, kind, some err)
  | none => (token, "", none)


/-! ## Vocabulary of the statements -/

/-- The bytes of a segment other than CR and LF. -/
def withoutNewlines (s : List Char) : List Char :=
  s.filter (fun c => !(c == '\n' || c == '\r'))

/-- Valid unpadded base64url, as the spec words it: every byte is in the alphabet
`encodeURL` and the length is not 1 modulo 4 (the alphabet or the length is invalid
otherwise). -/
def ValidUnpaddedBase64URL (s : List Char) : Prop :=
  (∀ c ∈ s, c ∈ encodeURL.data) ∧ s.length % 4 ≠ 1

instance (s : List Char) : Decidable (ValidUnpaddedBase64URL s) := by
  unfold ValidUnpaddedBase64URL; infer_instance

/-- The first segment does not decode: with its CR and LF bytes dropped it is not
valid unpadded base64url, or the bytes it decodes to do not deserialise into a
header. -/
def HeaderUndecodable (x : Collaborators) (p0 : String) : Prop :=
  ¬ ValidUnpaddedBase64URL (withoutNewlines p0.data) ∨
  (∃ b err, base64DecodeString p0 = .ok b ∧ x.jsonUnmarshalHeaders b = .error err)

/-- The second segment does not decode: with its CR and LF bytes dropped it is not
valid unpadded base64url, or the bytes it decodes to do not deserialise into claims. -/
def ClaimsUndecodable (x : Collaborators) (p1 : String) : Prop :=
  ¬ ValidUnpaddedBase64URL (withoutNewlines p1.data) ∨
  (∃ b err, base64DecodeString p1 = .ok b ∧ x.jsonUnmarshalClaims b = .error err)

/-- One of `makeHeaderPart`, `makeClaimsPart`, `makeSignature` returns an error. -/
def SignerFails (x : Collaborators) (key : String) (h : Headers) (c : Claims) : Prop :=
  (∃ err, x.makeHeaderPart h = .error err) ∨ (∃ err, x.makeClaimsPart c = .error err) ∨
  (∃ hp cp err, x.makeHeaderPart h = .ok hp ∧ x.makeClaimsPart c = .ok cp ∧
    x.makeSignature (hp ++ "." ++ cp) h.SignatureAlgorithm key = .error err)

/-- The three calls succeed and give the signature `sig`. -/
def SignerGives (x : Collaborators) (key : String) (h : Headers) (c : Claims) (sig : String) :
    Prop :=
  ∃ hp cp, x.makeHeaderPart h = .ok hp ∧ x.makeClaimsPart c = .ok cp ∧
    x.makeSignature (hp ++ "." ++ cp) h.SignatureAlgorithm key = .ok sig

/-- The signature stage does not fail: it is skipped, or the recomputed signature is
the third segment. -/
def SignatureStagePasses (x : Collaborators) (key : String) (o : ParseOptions) (token : Token) :
    Prop :=
  o.SkipSignatureValidation = true ∨
    recomputedSignature x key token.Headers token.Claims = .ok token.Signature

/-- The fixed list of the required-field checks: switch, whether the field is empty
(`nil` for `Data`), and the kind of the failure. -/
def structuralChecks (o : ParseOptions) (h : Headers) (c : Claims) : List (Bool × Bool × String) :=
  [(o.RequiredHeaderContentType, h.ContentType == "", ValidationErrorHeadersContentType),
   (o.RequiredHeaderKeyId, h.KeyId == "", ValidationErrorHeadersKeyId),
   (o.RequiredHeaderCritical, h.Critical == "", ValidationErrorHeadersCritical),
   (o.RequiredClaimIssuer, c.Issuer == "", ValidationErrorClaimsIssuer),
   (o.RequiredClaimSubject, c.Subject == "", ValidationErrorClaimsSubject),
   (o.RequiredClaimAudience, c.Audience == "", ValidationErrorClaimsAudience),
   (o.RequiredClaimJwtId, c.JwtId == "", ValidationErrorClaimsJwtId),
   (o.RequiredClaimData, c.Data == none, ValidationErrorClaimsData)]

/-- The kind of the first check of the list whose switch is on and whose field is
empty. -/
def firstFailingCheck (o : ParseOptions) (h : Headers) (c : Claims) : Option String :=
  ((structuralChecks o h c).find? (fun ch => ch.1 && ch.2.1)).map (fun ch => ch.2.2)

/-- The eight kinds of the required-field checks. -/
def structuralKinds : List String :=
  [ValidationErrorHeadersContentType, ValidationErrorHeadersKeyId,
   ValidationErrorHeadersCritical, ValidationErrorClaimsIssuer, ValidationErrorClaimsSubject,
   ValidationErrorClaimsAudience, ValidationErrorClaimsJwtId, ValidationErrorClaimsData]

/-- Every field whose switch is on is present. -/
def RequiredFieldsPresent (o : ParseOptions) (h : Headers) (c : Claims) : Prop :=
  (o.RequiredHeaderContentType = true → h.ContentType ≠ "") ∧
  (o.RequiredHeaderKeyId = true → h.KeyId ≠ "") ∧
  (o.RequiredHeaderCritical = true → h.Critical ≠ "") ∧
  (o.RequiredClaimIssuer = true → c.Issuer ≠ "") ∧
  (o.RequiredClaimSubject = true → c.Subject ≠ "") ∧
  (o.RequiredClaimAudience = true → c.Audience ≠ "") ∧
  (o.RequiredClaimJwtId = true → c.JwtId ≠ "") ∧
  (o.RequiredClaimData = true → c.Data ≠ none)

/-- The times of the claims admit the clock value `now`. -/
def TemporallyValid (now : GoInt64) (c : Claims) : Prop :=
  now.val ≤ c.ExpirationTime.val ∧ (c.NotBefore.val = 0 ∨ c.NotBefore.val ≤ now.val) ∧
    c.IssuedAt.val ≤ now.val

instance (o : ParseOptions) (h : Headers) (c : Claims) : Decidable (RequiredFieldsPresent o h c) := by
  unfold RequiredFieldsPresent; infer_instance

instance (now : GoInt64) (c : Claims) : Decidable (TemporallyValid now c) := by
  unfold TemporallyValid; infer_instance

instance (x : Collaborators) (key : String) (o : ParseOptions) (token : Token) :
    Decidable (SignatureStagePasses x key o token) := by
  unfold SignatureStagePasses; infer_instance

/-! ## A concrete choice of collaborators

Used only to evaluate `Parse` on examples.  JSON is handled by two finite tables of
texts; the signer is a keyed checksum that knows the algorithm name `HS256` and
fails for every other name. -/

/-- JSON texts of headers and the header each deserialises to; the first text of a
header is the one `sampleMakeHeaderPart` serialises it to. -/
def sampleHeaderTable : List (String × Headers) :=
  [("\x7b\"alg\":\"HS256\"\x7d", ⟨"HS256", "", "", ""⟩),
   ("\x7b\"alg\": \"HS256\"\x7d", ⟨"HS256", "", "", ""⟩),
   ("\x7b\"alg\":\"XS256\"\x7d", ⟨"XS256", "", "", ""⟩),
   ("\x7b\"alg\":\"HS256\",\"cty\":\"JWT\",\"kid\":\"k1\",\"crit\":\"exp\"\x7d",
     ⟨"HS256", "JWT", "k1", "exp"⟩)]

/-- JSON texts of claims and the claims each deserialises to; the first text of a
claim set is the one `sampleMakeClaimsPart` serialises it to. -/
def sampleClaimsTable : List (String × Claims) :=
  [("\x7b\"exp\":99\x7d",
     ⟨"", "", "", "", GoInt64.zero, GoInt64.zero, ⟨99, by decide⟩, none⟩),
   ("\x7b\"iat\":10,\"nbf\":20,\"exp\":99\x7d",
     ⟨"", "", "", "", ⟨10, by decide⟩, ⟨20, by decide⟩, ⟨99, by decide⟩, none⟩),
   ("\x7b\"iss\":\"issuer\",\"sub\":\"subject\",\"aud\":\"audience\",\"jti\":\"id1\"," ++
      "\"iat\":10,\"nbf\":20,\"exp\":99,\"data\":\x7b\"role\":\"admin\"\x7d\x7d",
     ⟨"issuer", "subject", "audience", "id1", ⟨10, by decide⟩, ⟨20, by decide⟩, ⟨99, by decide⟩,
       some ⟨"\x7b\"role\":\"admin\"\x7d"⟩⟩)]

/-- Deserialisation of a header by lookup in `sampleHeaderTable`. -/
def sampleJsonUnmarshalHeaders (b : List Nat) : Except GoError Headers :=
  match sampleHeaderTable.find? (fun e => stringBytes e.1 = b) with
  | some e => .ok e.2
  | none => .error ⟨"invalid character"⟩

/-- Deserialisation of claims by lookup in `sampleClaimsTable`. -/
def sampleJsonUnmarshalClaims (b : List Nat) : Except GoError Claims :=
  match sampleClaimsTable.find? (fun e => stringBytes e.1 = b) with
  | some e => .ok e.2
  | none => .error ⟨"invalid character"⟩

/-- Serialisation of a header: the base64url encoding of its first text in the table. -/
def sampleMakeHeaderPart (h : Headers) : Except GoError String :=
  match sampleHeaderTable.find? (fun e => e.2 = h) with
  | some e => .ok (base64EncodeToString (stringBytes e.1))
  | none => .error ⟨"json: unsupported value"⟩

/-- Serialisation of claims: the base64url encoding of their first text in the table. -/
def sampleMakeClaimsPart (c : Claims) : Except GoError String :=
  match sampleClaimsTable.find? (fun e => e.2 = c) with
  | some e => .ok (base64EncodeToString (stringBytes e.1))
  | none => .error ⟨"json: unsupported value"⟩

/-- A checksum of 24 bits of a string. -/
def sampleDigest (s : String) : Nat :=
  s.data.foldl (fun acc ch => (acc * 131 + ch.toNat) % 16777216) 7

/-- The sample signer: for `HS256` the base64url text of the checksum of key and
input, an error for every other algorithm name. -/
def sampleMakeSignature (unsignedToken alg key : String) : Except GoError String :=
  if alg = "HS256" then
    let d := sampleDigest (key ++ "." ++ unsignedToken)
    .ok (base64EncodeToString [d >>> 16 % 256, d >>> 8 % 256, d % 256])
  else .error ⟨"unknown algorithm"⟩

/-- The sample collaborators. -/
def sampleCollaborators : Collaborators where
  jsonUnmarshalHeaders := sampleJsonUnmarshalHeaders
  jsonUnmarshalClaims := sampleJsonUnmarshalClaims
  makeHeaderPart := sampleMakeHeaderPart
  makeClaimsPart := sampleMakeClaimsPart
  makeSignature := sampleMakeSignature
  errTokenIsInvalid := ⟨"token is invalid"⟩

/-- Options with every switch off. -/
def noOptions : ParseOptions :=
  ⟨false, false, false, false, false, false, false, false, false, false⟩

/-- A receiver with the key `secret` and every switch off. -/
def sampleJwt : jwt := ⟨⟨noOptions, "secret"⟩⟩


/-- Options that verify the signature, check the times and require every field. -/
def allRequired : ParseOptions :=
  ⟨false, false, true, true, true, true, true, true, true, true⟩

/-- The sample header with every field set. -/
def fullHeaders : Headers := ⟨"HS256", "JWT", "k1", "exp"⟩

/-- The sample claims with every field set: issued at 10, valid from 20 to 99. -/
def fullClaims : Claims :=
  ⟨"issuer", "subject", "audience", "id1", ⟨10, by decide⟩, ⟨20, by decide⟩, ⟨99, by decide⟩,
    some ⟨"\x7b\"role\":\"admin\"\x7d"⟩⟩

/-- The sample header that only names the algorithm `HS256`. -/
def plainHeaders : Headers := ⟨"HS256", "", "", ""⟩

/-- The sample claims that only carry the expiration time 99. -/
def plainClaims : Claims :=
  ⟨"", "", "", "", GoInt64.zero, GoInt64.zero, ⟨99, by decide⟩, none⟩

/-- The token of `fullHeaders` and `fullClaims`, signed by the sample signer with the
key of `sampleJwt`. -/
def fullToken : String :=
  "eyJhbGciOiJIUzI1NiIsImN0eSI6IkpXVCIsImtpZCI6ImsxIiwiY3JpdCI6ImV4cCJ9." ++
  "eyJpc3MiOiJpc3N1ZXIiLCJzdWIiOiJzdWJqZWN0IiwiYXVkIjoiYXVkaWVuY2UiLCJqdGkiOiJpZDEiLCJpYXQiOjEw" ++
  "LCJuYmYiOjIwLCJleHAiOjk5LCJkYXRhIjp7InJvbGUiOiJhZG1pbiJ9fQ.ODCc"

/-- The token of `plainHeaders` and `plainClaims`, signed likewise. -/
def plainToken : String := "eyJhbGciOiJIUzI1NiJ9.eyJleHAiOjk5fQ.q8lb"

/-- Options that verify the signature, check the times and require the key id, the
issuer and the data. -/
def someRequired : ParseOptions :=
  ⟨false, false, false, true, false, true, false, false, false, true⟩

/-- Options that verify the signature, check the times and require the issuer. -/
def issuerRequired : ParseOptions :=
  ⟨false, false, false, false, false, true, false, false, false, false⟩

/-! ## Vocabulary of the statements, continued -/

/-- The closed taxonomy: the sixteen kinds of failure. -/
def failureKinds : List String :=
  [ValidationErrorMalformed, ValidationErrorHeadersMalformed, ValidationErrorClaimsMalformed,
   ValidationErrorUnverifiable, ValidationErrorSignatureInvalid,
   ValidationErrorHeadersContentType, ValidationErrorHeadersKeyId,
   ValidationErrorHeadersCritical, ValidationErrorClaimsIssuer, ValidationErrorClaimsSubject,
   ValidationErrorClaimsAudience, ValidationErrorClaimsJwtId, ValidationErrorClaimsData,
   ValidationErrorClaimsExpired, ValidationErrorClaimsNotValidYet,
   ValidationErrorClaimsIssuedAt]

/-- The text `kind` occurs in the text of the error. -/
def KindEmbedded (kind : String) (err : GoError) : Prop :=
  List.IsInfix kind.data err.msg.data

instance (kind : String) (err : GoError) : Decidable (KindEmbedded kind err) := by
  unfold KindEmbedded; infer_instance

/-- The checks of the times with the check of `NotBefore` (lines 109-114) removed. -/
def temporalFailureWithoutNotBefore (x : Collaborators) (now : GoInt64) (token : Token) :
    Option (String × GoError) :=
  if now.val > token.Claims.ExpirationTime.val then
    some (ValidationErrorClaimsExpired, x.errTokenIsInvalid)
  else if now.val < token.Claims.IssuedAt.val then
    some (ValidationErrorClaimsIssuedAt, x.errTokenIsInvalid)
  else none

/-- The pipeline of `Parse` with the check of `NotBefore` removed and every other
step as it is: the reference against which the sentinel `NotBefore = 0` is stated. -/
def ParseWithoutNotBefore (x : Collaborators) (t : jwt) (now : GoInt64) (jwtStr : String)
    (options : List ParseOptions) : ParseResult :=
  match stringsSplit jwtStr '.' with
  | [p0, p1, p2] =>
    match decodeHeaders x p0 with
    | .error err => (Token.zero, ValidationErrorHeadersMalformed, some err)
    | .ok headers =>
    match decodeClaims x p1 with
    | .error err => (Token.zero, ValidationErrorClaimsMalformed, some err)
    | .ok claims =>
      let token : Token := ⟨headers, claims, p2⟩
      let o := effectiveOptions t options
      finish token
        (match (if o.SkipSignatureValidation = false then signatureFailure x t jwtStr token
            else none) with
          | some f => some f
          | none =>
          match structuralFailure x o token with
          | some f => some f
          | none =>
            if o.SkipClaimsValidation = false then temporalFailureWithoutNotBefore x now token
            else none)
  | _ => (Token.zero, ValidationErrorMalformed, some (errorfSplit ValidationErrorMalformed))

/-! ## More sample collaborators

The sample collaborators with two more JSON texts: the empty object, which
deserialises to the zero header and to the zero claims, and claims that are not valid
before 200 although they expire at 99. -/

/-- The header texts of `sampleHeaderTable` and the empty object. -/
def wideHeaderTable : List (String × Headers) :=
  sampleHeaderTable ++ [("\x7b\x7d", Headers.zero)]

/-- The sample claims that expire at 99 and are not valid before 200. -/
def lateClaims : Claims :=
  ⟨"", "", "", "", GoInt64.zero, ⟨200, by decide⟩, ⟨99, by decide⟩, none⟩

/-- The claims texts of `sampleClaimsTable`, the empty object and `lateClaims`. -/
def wideClaimsTable : List (String × Claims) :=
  sampleClaimsTable ++
    [("\x7b\x7d", Claims.zero), ("\x7b\"nbf\":200,\"exp\":99\x7d", lateClaims)]

/-- The sample collaborators over the wider tables. -/
def wideCollaborators : Collaborators where
  jsonUnmarshalHeaders := fun b =>
    match wideHeaderTable.find? (fun e => stringBytes e.1 = b) with
    | some e => .ok e.2
    | none => .error ⟨"invalid character"⟩
  jsonUnmarshalClaims := fun b =>
    match wideClaimsTable.find? (fun e => stringBytes e.1 = b) with
    | some e => .ok e.2
    | none => .error ⟨"invalid character"⟩
  makeHeaderPart := fun h =>
    match wideHeaderTable.find? (fun e => e.2 = h) with
    | some e => .ok (base64EncodeToString (stringBytes e.1))
    | none => .error ⟨"json: unsupported value"⟩
  makeClaimsPart := fun c =>
    match wideClaimsTable.find? (fun e => e.2 = c) with
    | some e => .ok (base64EncodeToString (stringBytes e.1))
    | none => .error ⟨"json: unsupported value"⟩
  makeSignature := sampleMakeSignature
  errTokenIsInvalid := ⟨"token is invalid"⟩

/-- Options that skip the signature and the checks of the times and require nothing. -/
def skipBoth : ParseOptions :=
  ⟨true, true, false, false, false, false, false, false, false, false⟩

/-- The token of `plainHeaders` and `lateClaims`, signed by the sample signer with the
key of `sampleJwt`. -/
def lateToken : String := "eyJhbGciOiJIUzI1NiJ9.eyJuYmYiOjIwMCwiZXhwIjo5OX0.o9st"

/-! ## Theorems -/

set_option maxRecDepth 100000

theorem unixToInternal_eq : unixToInternal = 62135596800 := by decide

theorem timeUnixUTCUnix_eq (sec : GoInt64) : timeUnixUTCUnix sec = sec.val := by
  obtain ⟨v, h1, h2⟩ := sec
  simp only [timeUnixUTCUnix, wrap64, internalToUnix, unixToInternal_eq]
  omega

theorem splitChars_length (sep : Char) (l : List Char) :
    (splitChars sep l).length = l.count sep + 1 := by
  induction l with
  | nil => simp [splitChars]
  | cons c cs ih =>
    by_cases h : c = sep
    · subst h; simp [splitChars, ih]
    · have h2 : ¬ (c == sep) = true := by simpa using h
      rw [splitChars]
      simp only [h, if_false]
      cases hs : splitChars sep cs with
      | nil => simp [hs] at ih
      | cons p ps => simp [hs] at ih ⊢; simp [List.count_cons, h2, ih]

theorem validate_eq (x : Collaborators) (o : ParseOptions) (now : GoInt64) (token : Token) :
    Parse.validate x o now token =
      finish token
        (match structuralFailure x o token with
          | some f => some f
          | none => if o.SkipClaimsValidation = false then temporalFailure x now token else none) := by
  simp only [Parse.validate, structuralFailure, temporalFailure, timeUnixUTCUnix_eq,
    Bool.and_eq_true, beq_iff_eq]
  by_cases h1 : o.RequiredHeaderContentType = true ∧ token.Headers.ContentType = ""
  · simp only [if_pos h1, finish]
  simp only [if_neg h1]
  by_cases h2 : o.RequiredHeaderKeyId = true ∧ token.Headers.KeyId = ""
  · simp only [if_pos h2, finish]
  simp only [if_neg h2]
  by_cases h3 : o.RequiredHeaderCritical = true ∧ token.Headers.Critical = ""
  · simp only [if_pos h3, finish]
  simp only [if_neg h3]
  by_cases h4 : o.RequiredClaimIssuer = true ∧ token.Claims.Issuer = ""
  · simp only [if_pos h4, finish]
  simp only [if_neg h4]
  by_cases h5 : o.RequiredClaimSubject = true ∧ token.Claims.Subject = ""
  · simp only [if_pos h5, finish]
  simp only [if_neg h5]
  by_cases h6 : o.RequiredClaimAudience = true ∧ token.Claims.Audience = ""
  · simp only [if_pos h6, finish]
  simp only [if_neg h6]
  by_cases h7 : o.RequiredClaimJwtId = true ∧ token.Claims.JwtId = ""
  · simp only [if_pos h7, finish]
  simp only [if_neg h7]
  by_cases h8 : o.RequiredClaimData = true ∧ token.Claims.Data = none
  · simp only [if_pos h8, finish]
  simp only [if_neg h8]
  by_cases h9 : o.SkipClaimsValidation = false
  · simp only [if_pos h9]
    by_cases g1 : now.val > token.Claims.ExpirationTime.val
    · simp only [if_pos g1, finish]
    simp only [if_neg g1]
    by_cases g2 : token.Claims.NotBefore.val ≠ 0
    · by_cases g3 : now.val < token.Claims.NotBefore.val
      · have g : token.Claims.NotBefore.val ≠ 0 ∧ now.val < token.Claims.NotBefore.val := ⟨g2, g3⟩
        simp only [if_pos g2, if_pos g3, if_pos g, finish]
      · have g : ¬ (token.Claims.NotBefore.val ≠ 0 ∧ now.val < token.Claims.NotBefore.val) :=
          fun hg => g3 hg.2
        simp only [if_pos g2, if_neg g3, if_neg g]
        split <;> rfl
    · have g : ¬ (token.Claims.NotBefore.val ≠ 0 ∧ now.val < token.Claims.NotBefore.val) :=
        fun hg => g2 hg.1
      simp only [if_neg g2, if_neg g]
      split <;> rfl
  · simp only [if_neg h9, finish]

theorem Parse_eq (x : Collaborators) (t : jwt) (now : GoInt64) (jwtStr : String)
    (options : List ParseOptions) :
    Parse x t now jwtStr options =
      match stringsSplit jwtStr '.' with
      | [p0, p1, p2] =>
        match decodeHeaders x p0 with
        | .error err => (Token.zero, ValidationErrorHeadersMalformed, some err)
        | .ok headers =>
        match decodeClaims x p1 with
        | .error err => (Token.zero, ValidationErrorClaimsMalformed, some err)
        | .ok claims =>
          finish ⟨headers, claims, p2⟩
            (validationFailure x t now jwtStr (effectiveOptions t options) ⟨headers, claims, p2⟩)
      | _ => (Token.zero, ValidationErrorMalformed, some (errorfSplit ValidationErrorMalformed)) := by
  unfold Parse
  rcases options with _ | ⟨o, os⟩ <;> simp only [effectiveOptions]
  on_goal 1 => generalize t.config.ParseOptions = o
  all_goals split
  case cons.h_2 => rfl
  case nil.h_2 => rfl
  all_goals
    rename_i p0 p1 p2 hs
    simp only [decodeHeaders, decodeClaims]
    cases h0 : base64DecodeString p0 with
    | error e => simp
    | ok b0 =>
      simp only []
      cases hh : x.jsonUnmarshalHeaders b0 with
      | error e => simp
      | ok h =>
        simp only []
        cases h1 : base64DecodeString p1 with
        | error e => simp
        | ok b1 =>
          simp only []
          cases hc : x.jsonUnmarshalClaims b1 with
          | error e => simp
          | ok c =>
            simp only [validationFailure, signatureFailure, validate_eq]
            cases o.SkipSignatureValidation
            · simp only [beq_self_eq_true, if_true]
              split
              · rfl
              · split
                · rfl
                · split
                  · rfl
                  · split <;> simp_all [finish]
            · simp

/-! ### Facts about the stages -/

theorem Parse_of_decoded {x : Collaborators} {t : jwt} {now : GoInt64} {jwtStr : String}
    {options : List ParseOptions} {p0 p1 p2 : String} {h : Headers} {c : Claims}
    (hs : stringsSplit jwtStr '.' = [p0, p1, p2]) (hh : decodeHeaders x p0 = .ok h)
    (hc : decodeClaims x p1 = .ok c) :
    Parse x t now jwtStr options =
      finish ⟨h, c, p2⟩ (validationFailure x t now jwtStr (effectiveOptions t options) ⟨h, c, p2⟩) := by
  rw [Parse_eq, hs]
  simp only [hh, hc]

theorem Parse_of_headers_error {x : Collaborators} {t : jwt} {now : GoInt64} {jwtStr : String}
    {options : List ParseOptions} {p0 p1 p2 : String} {err : GoError}
    (hs : stringsSplit jwtStr '.' = [p0, p1, p2]) (hh : decodeHeaders x p0 = .error err) :
    Parse x t now jwtStr options = (Token.zero, ValidationErrorHeadersMalformed, some err) := by
  rw [Parse_eq, hs]
  simp only [hh]

theorem Parse_of_claims_error {x : Collaborators} {t : jwt} {now : GoInt64} {jwtStr : String}
    {options : List ParseOptions} {p0 p1 p2 : String} {h : Headers} {err : GoError}
    (hs : stringsSplit jwtStr '.' = [p0, p1, p2]) (hh : decodeHeaders x p0 = .ok h)
    (hc : decodeClaims x p1 = .error err) :
    Parse x t now jwtStr options = (Token.zero, ValidationErrorClaimsMalformed, some err) := by
  rw [Parse_eq, hs]
  simp only [hh, hc]

theorem Parse_of_not_three {x : Collaborators} {t : jwt} {now : GoInt64} {jwtStr : String}
    {options : List ParseOptions} (hs : (stringsSplit jwtStr '.').length ≠ 3) :
    Parse x t now jwtStr options =
      (Token.zero, ValidationErrorMalformed, some (errorfSplit ValidationErrorMalformed)) := by
  rw [Parse_eq]
  split
  · rename_i p0 p1 p2 h; simp [h] at hs
  · rfl

theorem length_three {α : Type} {l : List α} (h : l.length = 3) : ∃ a b c, l = [a, b, c] := by
  match l, h with
  | [a, b, c], _ => exact ⟨a, b, c, rfl⟩

theorem encodeURL_length : encodeURL.data.length = 64 := by decide

theorem decodeMap_some_mem {c : Char} {v : Nat} (h : decodeMap c = some v) :
    c ∈ encodeURL.data := by
  unfold decodeMap at h
  split at h
  · rename_i hlt
    rw [← encodeURL_length] at hlt
    exact List.indexOf_lt_length.1 hlt
  · cases h

theorem decodeMap_none_not_mem {c : Char} (h : decodeMap c = none) : c ∉ encodeURL.data := by
  unfold decodeMap at h
  split at h
  · cases h
  · rename_i hlt
    intro hm
    apply hlt
    rw [← encodeURL_length]
    exact List.indexOf_lt_length.2 hm

theorem newline_not_in_alphabet : '\n' ∉ encodeURL.data ∧ '\r' ∉ encodeURL.data := by decide

/-- When the decoding loop fails: some byte other than CR and LF is outside the
alphabet, or the values of the alphabet that the input brings leave a quantum of
one. -/
theorem decodeLoop_error_iff (l : List Char) (si : Nat) (dbuf dst : List Nat)
    (hd : dbuf.length ≤ 3) :
    (∃ e, decodeLoop l si dbuf dst = .error e) ↔
      ¬ ((∀ c ∈ withoutNewlines l, c ∈ encodeURL.data) ∧
        (dbuf.length + (withoutNewlines l).length) % 4 ≠ 1) := by
  induction l generalizing si dbuf dst with
  | nil =>
    rw [decodeLoop]
    simp only [withoutNewlines, List.filter_nil, List.not_mem_nil, false_implies, implies_true,
      true_and, List.length_nil, Nat.add_zero, ne_eq, not_not]
    by_cases h0 : dbuf.length = 0
    · simp [h0]
    · by_cases h1 : dbuf.length = 1
      · simp [h1]
      · simp only [h0, h1, if_false]
        constructor
        · rintro ⟨e, he⟩; cases he
        · intro h; omega
  | cons c cs ih =>
    rw [decodeLoop]
    cases hm : decodeMap c with
    | some v =>
      have hc : c ∈ encodeURL.data := decodeMap_some_mem hm
      have hn : (!(c == '\n' || c == '\r')) = true := by
        have h1 : c ≠ '\n' := fun e => newline_not_in_alphabet.1 (e ▸ hc)
        have h2 : c ≠ '\r' := fun e => newline_not_in_alphabet.2 (e ▸ hc)
        simp [h1, h2]
      have hw : withoutNewlines (c :: cs) = c :: withoutNewlines cs := by
        simp only [withoutNewlines, List.filter_cons, hn, if_true]
      simp only [hw, List.mem_cons, forall_eq_or_imp, hc, true_and, List.length_cons]
      by_cases h3 : dbuf.length = 3
      · simp only [h3, if_true]
        rw [ih (si + 1) [] _ (by simp)]
        simp only [List.length_nil, Nat.zero_add]
        have : (3 + ((withoutNewlines cs).length + 1)) % 4 = (withoutNewlines cs).length % 4 := by
          omega
        rw [this]
      · simp only [h3, if_false]
        rw [ih (si + 1) (dbuf ++ [v]) dst (by simp; omega)]
        simp only [List.length_append, List.length_cons, List.length_nil]
        have : (dbuf.length + (0 + 1) + (withoutNewlines cs).length) =
            (dbuf.length + ((withoutNewlines cs).length + 1)) := by omega
        rw [this]
    | none =>
      have hc : c ∉ encodeURL.data := decodeMap_none_not_mem hm
      by_cases hnl : c = '\n' ∨ c = '\r'
      · have hn : (!(c == '\n' || c == '\r')) = false := by
          rcases hnl with h | h <;> simp [h]
        have hw : withoutNewlines (c :: cs) = withoutNewlines cs := by
          simp only [withoutNewlines, List.filter_cons, hn]
          rfl
        simp only [hnl, if_true, hw]
        exact ih (si + 1) dbuf dst hd
      · have hn : (!(c == '\n' || c == '\r')) = true := by
          have h1 : c ≠ '\n' := fun e => hnl (Or.inl e)
          have h2 : c ≠ '\r' := fun e => hnl (Or.inr e)
          simp [h1, h2]
        have hw : withoutNewlines (c :: cs) = c :: withoutNewlines cs := by
          simp only [withoutNewlines, List.filter_cons, hn, if_true]
        simp only [hnl, if_false, hw]
        constructor
        · intro _ hv
          exact hc (hv.1 c (by simp))
        · intro _; exact ⟨_, rfl⟩

/-- The codec rejects a string exactly when, CR and LF dropped, it is not valid
unpadded base64url. -/
theorem base64DecodeString_error_iff (s : String) :
    (∃ e, base64DecodeString s = .error e) ↔
      ¬ ValidUnpaddedBase64URL (withoutNewlines s.data) := by
  unfold base64DecodeString ValidUnpaddedBase64URL
  rw [decodeLoop_error_iff s.data 0 [] [] (by simp)]
  simp

theorem decodeHeaders_error_iff (x : Collaborators) (p0 : String) :
    (∃ err, decodeHeaders x p0 = .error err) ↔ HeaderUndecodable x p0 := by
  unfold decodeHeaders HeaderUndecodable
  rw [← base64DecodeString_error_iff]
  cases h : base64DecodeString p0 with
  | error e => simp
  | ok b => simp

theorem decodeClaims_error_iff (x : Collaborators) (p1 : String) :
    (∃ err, decodeClaims x p1 = .error err) ↔ ClaimsUndecodable x p1 := by
  unfold decodeClaims ClaimsUndecodable
  rw [← base64DecodeString_error_iff]
  cases h : base64DecodeString p1 with
  | error e => simp
  | ok b => simp

theorem recomputedSignature_ok_iff (x : Collaborators) (key : String) (h : Headers) (c : Claims)
    (sig : String) : recomputedSignature x key h c = .ok sig ↔ SignerGives x key h c sig := by
  unfold recomputedSignature SignerGives
  cases x.makeHeaderPart h with
  | error e => simp
  | ok hp =>
    cases x.makeClaimsPart c with
    | error e => simp
    | ok cp =>
      cases hm : x.makeSignature (hp ++ "." ++ cp) h.SignatureAlgorithm key with
      | error e => simp [hm]
      | ok sg => simp [hm]

theorem recomputedSignature_error_iff (x : Collaborators) (key : String) (h : Headers) (c : Claims) :
    (∃ err, recomputedSignature x key h c = .error err) ↔ SignerFails x key h c := by
  unfold recomputedSignature SignerFails
  cases x.makeHeaderPart h with
  | error e => simp
  | ok hp =>
    cases x.makeClaimsPart c with
    | error e => simp
    | ok cp =>
      cases hm : x.makeSignature (hp ++ "." ++ cp) h.SignatureAlgorithm key with
      | error e => simp [hm]
      | ok sg => simp [hm]

/-- The signature block in terms of the recomputed signature. -/
theorem signatureFailure_cases (x : Collaborators) (t : jwt) (jwtStr : String) (token : Token) :
    (∃ err, recomputedSignature x t.config.Key token.Headers token.Claims = .error err ∧
      signatureFailure x t jwtStr token = some (ValidationErrorUnverifiable, err)) ∨
    (∃ sg err, recomputedSignature x t.config.Key token.Headers token.Claims = .ok sg ∧
      sg ≠ token.Signature ∧
      signatureFailure x t jwtStr token = some (ValidationErrorSignatureInvalid, err)) ∨
    (recomputedSignature x t.config.Key token.Headers token.Claims = .ok token.Signature ∧
      signatureFailure x t jwtStr token = none) := by
  unfold recomputedSignature signatureFailure
  cases x.makeHeaderPart token.Headers with
  | error e => simp
  | ok hp =>
    cases x.makeClaimsPart token.Claims with
    | error e => simp
    | ok cp =>
      cases hm : x.makeSignature (hp ++ "." ++ cp) token.Headers.SignatureAlgorithm t.config.Key with
      | error e => simp [hm]
      | ok sg =>
        by_cases hsg : sg = token.Signature
        · simp [hm, hsg]
        · simp [hm, hsg]

theorem structuralFailure_eq_none_iff (x : Collaborators) (o : ParseOptions) (token : Token) :
    structuralFailure x o token = none ↔ RequiredFieldsPresent o token.Headers token.Claims := by
  unfold structuralFailure RequiredFieldsPresent
  constructor
  · intro h
    split_ifs at h
    simp_all
  · intro ⟨h1, h2, h3, h4, h5, h6, h7, h8⟩
    have n1 : ¬ (o.RequiredHeaderContentType = true ∧ token.Headers.ContentType = "") :=
      fun hh => h1 hh.1 hh.2
    have n2 : ¬ (o.RequiredHeaderKeyId = true ∧ token.Headers.KeyId = "") :=
      fun hh => h2 hh.1 hh.2
    have n3 : ¬ (o.RequiredHeaderCritical = true ∧ token.Headers.Critical = "") :=
      fun hh => h3 hh.1 hh.2
    have n4 : ¬ (o.RequiredClaimIssuer = true ∧ token.Claims.Issuer = "") :=
      fun hh => h4 hh.1 hh.2
    have n5 : ¬ (o.RequiredClaimSubject = true ∧ token.Claims.Subject = "") :=
      fun hh => h5 hh.1 hh.2
    have n6 : ¬ (o.RequiredClaimAudience = true ∧ token.Claims.Audience = "") :=
      fun hh => h6 hh.1 hh.2
    have n7 : ¬ (o.RequiredClaimJwtId = true ∧ token.Claims.JwtId = "") :=
      fun hh => h7 hh.1 hh.2
    have n8 : ¬ (o.RequiredClaimData = true ∧ token.Claims.Data = none) :=
      fun hh => h8 hh.1 hh.2
    simp only [if_neg n1, if_neg n2, if_neg n3, if_neg n4, if_neg n5, if_neg n6, if_neg n7,
      if_neg n8]

theorem structuralFailure_eq (x : Collaborators) (o : ParseOptions) (token : Token) :
    structuralFailure x o token =
      (firstFailingCheck o token.Headers token.Claims).map (fun k => (k, x.errTokenIsInvalid)) := by
  simp only [structuralFailure, firstFailingCheck, structuralChecks, List.find?_cons,
    List.find?_nil, Bool.and_eq_true, beq_iff_eq]
  by_cases h1 : o.RequiredHeaderContentType = true ∧ token.Headers.ContentType = ""
  · simp [h1]
  simp only [if_neg h1]
  have e1 : (o.RequiredHeaderContentType && token.Headers.ContentType == "") = false := by
    simpa using h1
  simp only [e1]
  by_cases h2 : o.RequiredHeaderKeyId = true ∧ token.Headers.KeyId = ""
  · simp [h2]
  simp only [if_neg h2]
  have e2 : (o.RequiredHeaderKeyId && token.Headers.KeyId == "") = false := by simpa using h2
  simp only [e2]
  by_cases h3 : o.RequiredHeaderCritical = true ∧ token.Headers.Critical = ""
  · simp [h3]
  simp only [if_neg h3]
  have e3 : (o.RequiredHeaderCritical && token.Headers.Critical == "") = false := by
    simpa using h3
  simp only [e3]
  by_cases h4 : o.RequiredClaimIssuer = true ∧ token.Claims.Issuer = ""
  · simp [h4]
  simp only [if_neg h4]
  have e4 : (o.RequiredClaimIssuer && token.Claims.Issuer == "") = false := by simpa using h4
  simp only [e4]
  by_cases h5 : o.RequiredClaimSubject = true ∧ token.Claims.Subject = ""
  · simp [h5]
  simp only [if_neg h5]
  have e5 : (o.RequiredClaimSubject && token.Claims.Subject == "") = false := by simpa using h5
  simp only [e5]
  by_cases h6 : o.RequiredClaimAudience = true ∧ token.Claims.Audience = ""
  · simp [h6]
  simp only [if_neg h6]
  have e6 : (o.RequiredClaimAudience && token.Claims.Audience == "") = false := by
    simpa using h6
  simp only [e6]
  by_cases h7 : o.RequiredClaimJwtId = true ∧ token.Claims.JwtId = ""
  · simp [h7]
  simp only [if_neg h7]
  have e7 : (o.RequiredClaimJwtId && token.Claims.JwtId == "") = false := by simpa using h7
  simp only [e7]
  by_cases h8 : o.RequiredClaimData = true ∧ token.Claims.Data = none
  · simp [h8]
  simp only [if_neg h8]
  have e8 : (o.RequiredClaimData && token.Claims.Data == none) = false := by simpa using h8
  simp only [e8]
  rfl

theorem firstFailingCheck_mem {o : ParseOptions} {h : Headers} {c : Claims} {k : String}
    (hk : firstFailingCheck o h c = some k) : k ∈ structuralKinds := by
  simp only [firstFailingCheck, Option.map_eq_some'] at hk
  obtain ⟨ch, hf, rfl⟩ := hk
  have hm := List.mem_of_find?_eq_some hf
  simp only [structuralChecks, List.mem_cons, List.mem_singleton, List.not_mem_nil, or_false] at hm
  rcases hm with rfl | rfl | rfl | rfl | rfl | rfl | rfl | rfl <;> simp [structuralKinds]

theorem temporalFailure_eq_none_iff (x : Collaborators) (now : GoInt64) (token : Token) :
    temporalFailure x now token = none ↔ TemporallyValid now token.Claims := by
  unfold temporalFailure TemporallyValid
  constructor
  · intro h
    split_ifs at h with h1 h2 h3
    refine ⟨by omega, ?_, by omega⟩
    by_cases hz : token.Claims.NotBefore.val = 0
    · exact Or.inl hz
    · right
      have := fun hlt => h2 ⟨hz, hlt⟩
      omega
  · intro ⟨h1, h2, h3⟩
    have n1 : ¬ now.val > token.Claims.ExpirationTime.val := by omega
    have n2 : ¬ (token.Claims.NotBefore.val ≠ 0 ∧ now.val < token.Claims.NotBefore.val) := by
      intro hh
      rcases h2 with h2 | h2
      · exact hh.1 h2
      · omega
    have n3 : ¬ now.val < token.Claims.IssuedAt.val := by omega
    simp only [if_neg n1, if_neg n2, if_neg n3]

/-- The three kinds of the checks of the times. -/
theorem temporalFailure_kind {x : Collaborators} {now : GoInt64} {token : Token} {k : String}
    {e : GoError} (h : temporalFailure x now token = some (k, e)) :
    (k = ValidationErrorClaimsExpired ∨ k = ValidationErrorClaimsNotValidYet ∨
      k = ValidationErrorClaimsIssuedAt) ∧ e = x.errTokenIsInvalid := by
  unfold temporalFailure at h
  split_ifs at h <;> simp_all

theorem validationFailure_eq_none_iff (x : Collaborators) (t : jwt) (now : GoInt64)
    (jwtStr : String) (o : ParseOptions) (token : Token) :
    validationFailure x t now jwtStr o token = none ↔
      SignatureStagePasses x t.config.Key o token ∧
      RequiredFieldsPresent o token.Headers token.Claims ∧
      (o.SkipClaimsValidation = true ∨ TemporallyValid now token.Claims) := by
  rw [← structuralFailure_eq_none_iff x, ← temporalFailure_eq_none_iff x]
  unfold validationFailure SignatureStagePasses
  rcases signatureFailure_cases x t jwtStr token with ⟨e, h1, h2⟩ | ⟨sg, e, h1, h2, h3⟩ | ⟨h1, h2⟩ <;>
    cases hsk : o.SkipSignatureValidation <;> cases hsc : o.SkipClaimsValidation <;>
    cases hst : structuralFailure x o token <;> simp_all

theorem validationFailure_of_signature {x : Collaborators} {t : jwt} {now : GoInt64}
    {jwtStr : String} {o : ParseOptions} {token : Token} {f : String × GoError}
    (hsk : o.SkipSignatureValidation = false) (hf : signatureFailure x t jwtStr token = some f) :
    validationFailure x t now jwtStr o token = some f := by
  simp [validationFailure, hsk, hf]

theorem validationFailure_of_passes {x : Collaborators} {t : jwt} {now : GoInt64}
    {jwtStr : String} {o : ParseOptions} {token : Token}
    (hp : SignatureStagePasses x t.config.Key o token) :
    validationFailure x t now jwtStr o token =
      match structuralFailure x o token with
      | some f => some f
      | none => if o.SkipClaimsValidation = false then temporalFailure x now token else none := by
  unfold validationFailure
  rcases hp with hp | hp
  · simp [hp]
  · rcases signatureFailure_cases x t jwtStr token with ⟨e, h1, h2⟩ | ⟨sg, e, h1, h2, h3⟩ | ⟨h1, h2⟩
    · rw [hp] at h1; cases h1
    · rw [hp] at h1; cases h1; exact absurd rfl h2
    · simp [h2]

/-! ### Every way `Parse` can end -/

theorem validationFailure_outcome (x : Collaborators) (t : jwt) (now : GoInt64) (jwtStr : String)
    (o : ParseOptions) (token : Token) :
    (o.SkipSignatureValidation = false ∧
      ∃ e, recomputedSignature x t.config.Key token.Headers token.Claims = .error e ∧
        validationFailure x t now jwtStr o token = some (ValidationErrorUnverifiable, e)) ∨
    (o.SkipSignatureValidation = false ∧
      ∃ sg e, recomputedSignature x t.config.Key token.Headers token.Claims = .ok sg ∧
        sg ≠ token.Signature ∧
        validationFailure x t now jwtStr o token = some (ValidationErrorSignatureInvalid, e)) ∨
    (SignatureStagePasses x t.config.Key o token ∧
      ∃ k, firstFailingCheck o token.Headers token.Claims = some k ∧
        validationFailure x t now jwtStr o token = some (k, x.errTokenIsInvalid)) ∨
    (SignatureStagePasses x t.config.Key o token ∧
      firstFailingCheck o token.Headers token.Claims = none ∧
      o.SkipClaimsValidation = false ∧
      ∃ k, (k = ValidationErrorClaimsExpired ∨ k = ValidationErrorClaimsNotValidYet ∨
          k = ValidationErrorClaimsIssuedAt) ∧
        temporalFailure x now token = some (k, x.errTokenIsInvalid) ∧
        validationFailure x t now jwtStr o token = some (k, x.errTokenIsInvalid)) ∨
    (SignatureStagePasses x t.config.Key o token ∧
      firstFailingCheck o token.Headers token.Claims = none ∧
      (o.SkipClaimsValidation = true ∨ TemporallyValid now token.Claims) ∧
      validationFailure x t now jwtStr o token = none) := by
  by_cases hp : SignatureStagePasses x t.config.Key o token
  · right; right
    rw [validationFailure_of_passes hp, structuralFailure_eq]
    cases hf : firstFailingCheck o token.Headers token.Claims with
    | some k => left; exact ⟨hp, k, rfl, rfl⟩
    | none =>
      right
      simp only [Option.map_none']
      cases hsc : o.SkipClaimsValidation with
      | true => right; exact ⟨hp, (by simp), Or.inl (by simp), by simp⟩
      | false =>
        simp only [if_true]
        cases ht : temporalFailure x now token with
        | none =>
          right
          exact ⟨hp, (by simp), Or.inr ((temporalFailure_eq_none_iff x now token).1 ht), (by simp)⟩
        | some f =>
          left
          obtain ⟨k, e⟩ := f
          obtain ⟨hk, rfl⟩ := temporalFailure_kind ht
          exact ⟨hp, (by simp), (by simp), k, hk, (by simp), (by simp)⟩
  · have hsk : o.SkipSignatureValidation = false := by
      cases h : o.SkipSignatureValidation with
      | false => rfl
      | true => exact absurd (Or.inl h) hp
    rcases signatureFailure_cases x t jwtStr token with ⟨e, h1, h2⟩ | ⟨sg, e, h1, h2, h3⟩ | ⟨h1, h2⟩
    · left; exact ⟨hsk, e, h1, validationFailure_of_signature hsk h2⟩
    · right; left; exact ⟨hsk, sg, e, h1, h2, validationFailure_of_signature hsk h3⟩
    · exact absurd (Or.inr h1) hp

theorem Parse_outcome (x : Collaborators) (t : jwt) (now : GoInt64) (jwtStr : String)
    (options : List ParseOptions) :
    ((stringsSplit jwtStr '.').length ≠ 3 ∧
      Parse x t now jwtStr options =
        (Token.zero, ValidationErrorMalformed, some (errorfSplit ValidationErrorMalformed))) ∨
    (∃ p0 p1 p2, stringsSplit jwtStr '.' = [p0, p1, p2] ∧
      ((∃ e, decodeHeaders x p0 = .error e ∧
          Parse x t now jwtStr options = (Token.zero, ValidationErrorHeadersMalformed, some e)) ∨
       (∃ h, decodeHeaders x p0 = .ok h ∧
          ((∃ e, decodeClaims x p1 = .error e ∧
              Parse x t now jwtStr options =
                (Token.zero, ValidationErrorClaimsMalformed, some e)) ∨
           (∃ c, decodeClaims x p1 = .ok c ∧
              Parse x t now jwtStr options =
                finish ⟨h, c, p2⟩
                  (validationFailure x t now jwtStr (effectiveOptions t options) ⟨h, c, p2⟩)))))) := by
  by_cases hl : (stringsSplit jwtStr '.').length = 3
  · right
    obtain ⟨p0, p1, p2, hs⟩ := length_three hl
    refine ⟨p0, p1, p2, hs, ?_⟩
    cases hh : decodeHeaders x p0 with
    | error e => left; exact ⟨e, rfl, Parse_of_headers_error hs hh⟩
    | ok h =>
      right
      refine ⟨h, rfl, ?_⟩
      cases hc : decodeClaims x p1 with
      | error e => left; exact ⟨e, rfl, Parse_of_claims_error hs hh hc⟩
      | ok c => right; exact ⟨c, rfl, Parse_of_decoded hs hh hc⟩
  · left; exact ⟨hl, Parse_of_not_three hl⟩

theorem structuralKinds_ne {k : String} (hk : k ∈ structuralKinds) :
    k ≠ "" ∧ k ≠ ValidationErrorMalformed ∧ k ≠ ValidationErrorHeadersMalformed ∧
    k ≠ ValidationErrorClaimsMalformed ∧ k ≠ ValidationErrorUnverifiable ∧
    k ≠ ValidationErrorSignatureInvalid ∧ k ≠ ValidationErrorClaimsExpired ∧
    k ≠ ValidationErrorClaimsNotValidYet ∧ k ≠ ValidationErrorClaimsIssuedAt := by
  simp only [structuralKinds, List.mem_cons, List.mem_singleton, List.not_mem_nil, or_false] at hk
  rcases hk with rfl | rfl | rfl | rfl | rfl | rfl | rfl | rfl <;> decide

/-! ### C1 -/

/-- C1: soundness of success.  If `Parse` returns the kind `""` and a `nil` error, then
the returned token has passed every check that the effective options enable: unless
the signature is skipped, `makeHeaderPart`, `makeClaimsPart` and `makeSignature` succeed
on the returned header and claims and give the returned signature; every required
field is non-empty (`Data` non-nil); unless the claims validation is skipped,
`now <= ExpirationTime`, `NotBefore = 0` or `now >= NotBefore`, and `now >= IssuedAt`. -/
theorem C1_success_sound (x : Collaborators) (t : jwt) (now : GoInt64) (jwtStr : String)
    (options : List ParseOptions)
    (hk : (Parse x t now jwtStr options).2.1 = "")
    (he : (Parse x t now jwtStr options).2.2 = none) :
    ((effectiveOptions t options).SkipSignatureValidation = false →
      ∃ headersPart claimsPart,
        x.makeHeaderPart (Parse x t now jwtStr options).1.Headers = .ok headersPart ∧
        x.makeClaimsPart (Parse x t now jwtStr options).1.Claims = .ok claimsPart ∧
        x.makeSignature (headersPart ++ "." ++ claimsPart)
            (Parse x t now jwtStr options).1.Headers.SignatureAlgorithm t.config.Key =
          .ok (Parse x t now jwtStr options).1.Signature) ∧
    ((effectiveOptions t options).RequiredHeaderContentType = true →
      (Parse x t now jwtStr options).1.Headers.ContentType ≠ "") ∧
    ((effectiveOptions t options).RequiredHeaderKeyId = true →
      (Parse x t now jwtStr options).1.Headers.KeyId ≠ "") ∧
    ((effectiveOptions t options).RequiredHeaderCritical = true →
      (Parse x t now jwtStr options).1.Headers.Critical ≠ "") ∧
    ((effectiveOptions t options).RequiredClaimIssuer = true →
      (Parse x t now jwtStr options).1.Claims.Issuer ≠ "") ∧
    ((effectiveOptions t options).RequiredClaimSubject = true →
      (Parse x t now jwtStr options).1.Claims.Subject ≠ "") ∧
    ((effectiveOptions t options).RequiredClaimAudience = true →
      (Parse x t now jwtStr options).1.Claims.Audience ≠ "") ∧
    ((effectiveOptions t options).RequiredClaimJwtId = true →
      (Parse x t now jwtStr options).1.Claims.JwtId ≠ "") ∧
    ((effectiveOptions t options).RequiredClaimData = true →
      (Parse x t now jwtStr options).1.Claims.Data ≠ none) ∧
    ((effectiveOptions t options).SkipClaimsValidation = false →
      now.val ≤ (Parse x t now jwtStr options).1.Claims.ExpirationTime.val ∧
      ((Parse x t now jwtStr options).1.Claims.NotBefore.val = 0 ∨
        now.val ≥ (Parse x t now jwtStr options).1.Claims.NotBefore.val) ∧
      now.val ≥ (Parse x t now jwtStr options).1.Claims.IssuedAt.val) := by
  rcases Parse_outcome x t now jwtStr options with ⟨_, hP⟩ | ⟨p0, p1, p2, hs, hP⟩
  · rw [hP] at hk; exact absurd hk (by decide)
  rcases hP with ⟨e, _, hP⟩ | ⟨h, hh, hP⟩
  · rw [hP] at he; cases he
  rcases hP with ⟨e, _, hP⟩ | ⟨c, hc, hP⟩
  · rw [hP] at he; cases he
  cases hv : validationFailure x t now jwtStr (effectiveOptions t options) ⟨h, c, p2⟩ with
  | some f => rw [hP, hv] at he; cases he
  | none =>
    rw [hP, hv]
    obtain ⟨hsig, hreq, htime⟩ := (validationFailure_eq_none_iff _ _ _ _ _ _).1 hv
    simp only [finish]
    refine ⟨?_, hreq.1, hreq.2.1, hreq.2.2.1, hreq.2.2.2.1, hreq.2.2.2.2.1, hreq.2.2.2.2.2.1,
      hreq.2.2.2.2.2.2.1, hreq.2.2.2.2.2.2.2, ?_⟩
    · intro hsk
      rcases hsig with hsig | hsig
      · rw [hsk] at hsig; cases hsig
      · exact (recomputedSignature_ok_iff _ _ _ _ _).1 hsig
    · intro hsc
      rcases htime with htime | htime
      · rw [hsc] at htime; cases htime
      · obtain ⟨h1, h2, h3⟩ := htime
        refine ⟨h1, ?_, h3⟩
        rcases h2 with h2 | h2
        · exact Or.inl h2
        · exact Or.inr h2

/-- C1 at a sample token: the token of `fullHeaders` and `fullClaims` parsed at clock 50
with every field required. -/
theorem C1_success_sound_witness :
    Parse sampleCollaborators sampleJwt ⟨50, by decide⟩ fullToken [allRequired] =
      (⟨fullHeaders, fullClaims, "ODCc"⟩, "", none) ∧
    (∃ headersPart claimsPart,
      sampleCollaborators.makeHeaderPart fullHeaders = .ok headersPart ∧
      sampleCollaborators.makeClaimsPart fullClaims = .ok claimsPart ∧
      sampleCollaborators.makeSignature (headersPart ++ "." ++ claimsPart) "HS256" "secret" =
        .ok "ODCc") := by
  have hP : Parse sampleCollaborators sampleJwt ⟨50, by decide⟩ fullToken [allRequired] =
      (⟨fullHeaders, fullClaims, "ODCc"⟩, "", none) := by decide
  have h := C1_success_sound sampleCollaborators sampleJwt ⟨50, by decide⟩ fullToken [allRequired]
    (by rw [hP]) (by rw [hP])
  rw [hP] at h
  exact ⟨hP, h.1 rfl⟩

/-- The two shapes of a result: a token with `""` and `nil`, or `Token{}` with a
non-empty kind and an error. -/
theorem Parse_shape (x : Collaborators) (t : jwt) (now : GoInt64) (jwtStr : String)
    (options : List ParseOptions) :
    (∃ token, Parse x t now jwtStr options = (token, "", none)) ∨
    (∃ k e, k ≠ "" ∧ Parse x t now jwtStr options = (Token.zero, k, some e)) := by
  rcases Parse_outcome x t now jwtStr options with ⟨hl, hP⟩ | ⟨p0, p1, p2, hs, hP⟩
  · exact Or.inr ⟨_, _, by decide, hP⟩
  rcases hP with ⟨e, hh, hP⟩ | ⟨h, hh, hP⟩
  · exact Or.inr ⟨_, _, by decide, hP⟩
  rcases hP with ⟨e, hc, hP⟩ | ⟨c, hc, hP⟩
  · exact Or.inr ⟨_, _, by decide, hP⟩
  rw [hP]
  rcases validationFailure_outcome x t now jwtStr (effectiveOptions t options) ⟨h, c, p2⟩ with
    ⟨hsk, e, hr, hv⟩ | ⟨hsk, sg, e, hr, hne, hv⟩ | ⟨hp, k, hk, hv⟩ | ⟨hp, _, _, k, hk, _, hv⟩ |
    ⟨hp, _, _, hv⟩
  · rw [hv]; exact Or.inr ⟨_, _, by decide, rfl⟩
  · rw [hv]; exact Or.inr ⟨_, _, by decide, rfl⟩
  · rw [hv]; exact Or.inr ⟨_, _, (structuralKinds_ne (firstFailingCheck_mem hk)).1, rfl⟩
  · rw [hv]
    refine Or.inr ⟨_, _, ?_, rfl⟩
    rcases hk with rfl | rfl | rfl <;> decide
  · rw [hv]; exact Or.inl ⟨_, rfl⟩

/-- When `Parse` returns the two kinds of the signature block. -/
theorem signature_kinds_iff (x : Collaborators) (t : jwt) (now : GoInt64) (jwtStr : String)
    (options : List ParseOptions) :
    ((Parse x t now jwtStr options).2.1 = ValidationErrorUnverifiable ↔
      ∃ p0 p1 p2 h c, stringsSplit jwtStr '.' = [p0, p1, p2] ∧
        decodeHeaders x p0 = .ok h ∧ decodeClaims x p1 = .ok c ∧
        (effectiveOptions t options).SkipSignatureValidation = false ∧
        SignerFails x t.config.Key h c) ∧
    ((Parse x t now jwtStr options).2.1 = ValidationErrorSignatureInvalid ↔
      ∃ p0 p1 p2 h c, stringsSplit jwtStr '.' = [p0, p1, p2] ∧
        decodeHeaders x p0 = .ok h ∧ decodeClaims x p1 = .ok c ∧
        (effectiveOptions t options).SkipSignatureValidation = false ∧
        ∃ sig, SignerGives x t.config.Key h c sig ∧ sig ≠ p2) := by
  rcases Parse_outcome x t now jwtStr options with ⟨hl, hP⟩ | ⟨p0, p1, p2, hs, hP⟩
  · rw [hP]
    constructor <;> constructor
    · intro h; simp only at h; exact absurd h (by decide)
    · rintro ⟨p0, p1, p2, h, c, hs, _⟩; simp [hs] at hl
    · intro h; simp only at h; exact absurd h (by decide)
    · rintro ⟨p0, p1, p2, h, c, hs, _⟩; simp [hs] at hl
  rcases hP with ⟨e, hh, hP⟩ | ⟨h, hh, hP⟩
  · rw [hP]
    constructor <;> constructor
    · intro h; simp only at h; exact absurd h (by decide)
    · rintro ⟨q0, q1, q2, h, c, hs', hh', _⟩
      rw [hs] at hs'; injection hs' with e0 _; subst e0; rw [hh] at hh'; cases hh'
    · intro h; simp only at h; exact absurd h (by decide)
    · rintro ⟨q0, q1, q2, h, c, hs', hh', _⟩
      rw [hs] at hs'; injection hs' with e0 _; subst e0; rw [hh] at hh'; cases hh'
  rcases hP with ⟨e, hc, hP⟩ | ⟨c, hc, hP⟩
  · rw [hP]
    constructor <;> constructor
    · intro h; simp only at h; exact absurd h (by decide)
    · rintro ⟨q0, q1, q2, h', c', hs', _, hc', _⟩
      rw [hs] at hs'; simp only [List.cons.injEq, and_true] at hs'
      obtain ⟨_, e1, _⟩ := hs'; subst e1; rw [hc] at hc'; cases hc'
    · intro h; simp only at h; exact absurd h (by decide)
    · rintro ⟨q0, q1, q2, h', c', hs', _, hc', _⟩
      rw [hs] at hs'; simp only [List.cons.injEq, and_true] at hs'
      obtain ⟨_, e1, _⟩ := hs'; subst e1; rw [hc] at hc'; cases hc'
  -- the decoded token
  have key : ∀ (P : Headers → Claims → String → Prop),
      (∃ q0 q1 q2 h' c', stringsSplit jwtStr '.' = [q0, q1, q2] ∧
        decodeHeaders x q0 = .ok h' ∧ decodeClaims x q1 = .ok c' ∧
        (effectiveOptions t options).SkipSignatureValidation = false ∧ P h' c' q2) ↔
      ((effectiveOptions t options).SkipSignatureValidation = false ∧ P h c p2) := by
    intro P
    constructor
    · rintro ⟨q0, q1, q2, h', c', hs', hh', hc', hsk, hp⟩
      rw [hs] at hs'; simp only [List.cons.injEq, and_true] at hs'
      obtain ⟨e0, e1, e2⟩ := hs'; subst e0 e1 e2
      rw [hh] at hh'; rw [hc] at hc'; cases hh'; cases hc'
      exact ⟨hsk, hp⟩
    · rintro ⟨hsk, hp⟩
      exact ⟨p0, p1, p2, h, c, hs, hh, hc, hsk, hp⟩
  rw [key (fun h c _ => SignerFails x t.config.Key h c),
    key (fun h c p2 => ∃ sig, SignerGives x t.config.Key h c sig ∧ sig ≠ p2), hP]
  simp only [← recomputedSignature_error_iff, ← recomputedSignature_ok_iff]
  rcases validationFailure_outcome x t now jwtStr (effectiveOptions t options) ⟨h, c, p2⟩ with
    ⟨hsk, e, hr, hv⟩ | ⟨hsk, sg, e, hr, hne, hv⟩ | ⟨hp, k, hk, hv⟩ | ⟨hp, _, _, k, hk, _, hv⟩ |
    ⟨hp, _, _, hv⟩
  · rw [hv]
    simp only [finish, true_iff, hsk, true_and]
    refine ⟨⟨e, hr⟩, ?_⟩
    constructor
    · intro h; simp only at h; exact absurd h (by decide)
    · rintro ⟨sig, hsig, _⟩; simp only at hr; rw [hr] at hsig; cases hsig
  · rw [hv]
    simp only [finish, true_iff, hsk, true_and]
    simp only at hr hne
    refine ⟨?_, ⟨sg, hr, hne⟩⟩
    constructor
    · intro h; simp only at h; exact absurd h (by decide)
    · rintro ⟨e', he'⟩; rw [hr] at he'; cases he'
  all_goals
    rw [hv]
    have hno : ¬ ((effectiveOptions t options).SkipSignatureValidation = false ∧
        ∃ err, recomputedSignature x t.config.Key h c = .error err) := by
      rintro ⟨hsk, e', he'⟩
      rcases hp with hp | hp
      · rw [hsk] at hp; cases hp
      · simp only at hp; rw [hp] at he'; cases he'
    have hno2 : ¬ ((effectiveOptions t options).SkipSignatureValidation = false ∧
        ∃ sig, recomputedSignature x t.config.Key h c = .ok sig ∧ sig ≠ p2) := by
      rintro ⟨hsk, sig, hsig, hne⟩
      rcases hp with hp | hp
      · rw [hsk] at hp; cases hp
      · simp only at hp; rw [hp] at hsig; cases hsig; exact hne rfl
    simp only [finish, hno, hno2, iff_false]
  · obtain ⟨_, _, _, _, h5, h6, _⟩ := structuralKinds_ne (firstFailingCheck_mem hk)
    exact ⟨h5, h6⟩
  · rcases hk with rfl | rfl | rfl <;> decide
  · decide


/-! ### C2 -/

/-- C2: the signature stage.  `Parse` returns the kind `Unverifiable` exactly when the
token has three segments, its first two segments decode, the signature is not skipped
and `makeHeaderPart`, `makeClaimsPart` or `makeSignature` returns an error; it returns
`SignatureInvalid` exactly when, in the same situation, the three calls succeed and the
signature they give is not the third segment.  Neither condition mentions the required
fields, the claims switch, the values of the claims or the clock, so these failures come
before every structural and temporal failure.  With either kind the token returned is
`Token{}` and the error is not `nil`. -/
theorem C2_signature_stage (x : Collaborators) (t : jwt) (now : GoInt64) (jwtStr : String)
    (options : List ParseOptions) :
    ((Parse x t now jwtStr options).2.1 = ValidationErrorUnverifiable ↔
      ∃ p0 p1 p2 h c, stringsSplit jwtStr '.' = [p0, p1, p2] ∧
        decodeHeaders x p0 = .ok h ∧ decodeClaims x p1 = .ok c ∧
        (effectiveOptions t options).SkipSignatureValidation = false ∧
        SignerFails x t.config.Key h c) ∧
    ((Parse x t now jwtStr options).2.1 = ValidationErrorSignatureInvalid ↔
      ∃ p0 p1 p2 h c, stringsSplit jwtStr '.' = [p0, p1, p2] ∧
        decodeHeaders x p0 = .ok h ∧ decodeClaims x p1 = .ok c ∧
        (effectiveOptions t options).SkipSignatureValidation = false ∧
        ∃ sig, SignerGives x t.config.Key h c sig ∧ sig ≠ p2) ∧
    ((Parse x t now jwtStr options).2.1 = ValidationErrorUnverifiable ∨
        (Parse x t now jwtStr options).2.1 = ValidationErrorSignatureInvalid →
      (Parse x t now jwtStr options).1 = Token.zero ∧
        (Parse x t now jwtStr options).2.2 ≠ none) := by
  refine ⟨(signature_kinds_iff x t now jwtStr options).1,
    (signature_kinds_iff x t now jwtStr options).2, ?_⟩
  rcases Parse_shape x t now jwtStr options with ⟨tok, hP⟩ | ⟨k, e, hk, hP⟩
  · rw [hP]
    rintro (h | h) <;> simp only at h <;> exact absurd h (by decide)
  · rw [hP]; intro _; exact ⟨rfl, by simp⟩

/-! ### Facts about `strings.Split` -/

theorem splitChars_ne_nil (sep : Char) (l : List Char) : splitChars sep l ≠ [] := by
  intro h
  have := splitChars_length sep l
  rw [h] at this
  simp at this

theorem splitChars_cons_sep (sep : Char) (cs : List Char) :
    splitChars sep (sep :: cs) = [] :: splitChars sep cs := by
  simp [splitChars]

theorem splitChars_cons_ne {sep c : Char} (h : c ≠ sep) (cs : List Char) :
    ∃ p ps, splitChars sep cs = p :: ps ∧ splitChars sep (c :: cs) = (c :: p) :: ps := by
  cases hs : splitChars sep cs with
  | nil => exact absurd hs (splitChars_ne_nil sep cs)
  | cons p ps =>
    refine ⟨p, ps, rfl, ?_⟩
    rw [splitChars]
    simp only [h, if_false, hs]

/-- A list without the separator is one segment. -/
theorem splitChars_of_not_mem {sep : Char} {l : List Char} (h : sep ∉ l) :
    splitChars sep l = [l] := by
  induction l with
  | nil => rfl
  | cons c cs ih =>
    have hc : c ≠ sep := fun e => h (by simp [e])
    have hcs : sep ∉ cs := fun e => h (by simp [e])
    obtain ⟨p, ps, h1, h2⟩ := splitChars_cons_ne hc cs
    rw [ih hcs] at h1
    cases h1
    exact h2

/-- The first separator ends the first segment. -/
theorem splitChars_append_sep {sep : Char} {u : List Char} (h : sep ∉ u) (v : List Char) :
    splitChars sep (u ++ sep :: v) = u :: splitChars sep v := by
  induction u with
  | nil => exact splitChars_cons_sep sep v
  | cons c cs ih =>
    have hc : c ≠ sep := fun e => h (by simp [e])
    have hcs : sep ∉ cs := fun e => h (by simp [e])
    obtain ⟨p, ps, h1, h2⟩ := splitChars_cons_ne hc (cs ++ sep :: v)
    rw [ih hcs] at h1
    cases h1
    exact h2

/-- Altering one character that is not the separator into another one that is not
the separator alters one segment, in place, and leaves the other segments as they
are; the segments after it are as many as the separators after the character. -/
theorem splitChars_alter {sep a b : Char} (ha : a ≠ sep) (hb : b ≠ sep)
    (pre post : List Char) :
    ∃ L1 u v L2, splitChars sep (pre ++ a :: post) = L1 ++ (u ++ a :: v) :: L2 ∧
      splitChars sep (pre ++ b :: post) = L1 ++ (u ++ b :: v) :: L2 ∧
      L2.length = post.count sep := by
  induction pre with
  | nil =>
    obtain ⟨p, ps, h1, h2⟩ := splitChars_cons_ne ha post
    obtain ⟨p', ps', h1', h2'⟩ := splitChars_cons_ne hb post
    rw [h1] at h1'
    cases h1'
    refine ⟨[], [], p, ps, by simpa using h2, by simpa using h2', ?_⟩
    have := splitChars_length sep post
    rw [h1] at this
    simpa using this
  | cons c cs ih =>
    obtain ⟨L1, u, v, L2, e1, e2, e3⟩ := ih
    by_cases hc : c = sep
    · subst hc
      refine ⟨[] :: L1, u, v, L2, ?_, ?_, e3⟩
      · rw [List.cons_append, splitChars_cons_sep, e1]; rfl
      · rw [List.cons_append, splitChars_cons_sep, e2]; rfl
    · obtain ⟨p, ps, h1, h2⟩ := splitChars_cons_ne hc (cs ++ a :: post)
      obtain ⟨p', ps', h1', h2'⟩ := splitChars_cons_ne hc (cs ++ b :: post)
      rw [e1] at h1
      rw [e2] at h1'
      cases L1 with
      | nil =>
        simp only [List.nil_append, List.cons.injEq] at h1 h1'
        obtain ⟨rfl, rfl⟩ := h1
        obtain ⟨rfl, rfl⟩ := h1'
        exact ⟨[], c :: u, v, L2, by simpa using h2, by simpa using h2', e3⟩
      | cons l ls =>
        simp only [List.cons_append, List.cons.injEq] at h1 h1'
        obtain ⟨rfl, rfl⟩ := h1
        obtain ⟨rfl, rfl⟩ := h1'
        exact ⟨(c :: l) :: ls, u, v, L2, by simpa using h2, by simpa using h2', e3⟩

/-- The same for the segments of strings, when there are three of them. -/
theorem stringsSplit_alter {a b : Char} (hab : a ≠ b) (ha : a ≠ '.') (hb : b ≠ '.')
    (pre post : List Char) {q0 q1 q2 : String}
    (hs : stringsSplit (String.mk (pre ++ a :: post)) '.' = [q0, q1, q2]) :
    ∃ p0 p1 p2, stringsSplit (String.mk (pre ++ b :: post)) '.' = [p0, p1, p2] ∧
      ('.' ∉ post → p0 = q0 ∧ p1 = q1 ∧ p2 ≠ q2) ∧ ('.' ∈ post → p2 = q2) := by
  obtain ⟨L1, u, v, L2, e1, e2, e3⟩ := splitChars_alter ha hb pre post
  simp only [stringsSplit] at hs ⊢
  rw [e1] at hs
  rw [e2]
  have hlen := congrArg List.length hs
  simp only [List.map_append, List.map_cons, List.length_append, List.length_map,
    List.length_cons, List.length_nil] at hlen
  have hcount : '.' ∈ post ↔ 0 < L2.length := by
    rw [e3]; exact List.count_pos_iff.symm
  rcases L2 with _ | ⟨r0, _ | ⟨r1, _ | ⟨r2, L2⟩⟩⟩
  · -- the altered segment is the last one
    rcases L1 with _ | ⟨l0, _ | ⟨l1, _ | ⟨l2, L1⟩⟩⟩
    · simp at hlen
    · simp at hlen
    · simp only [List.map_cons, List.map_nil, List.cons_append, List.nil_append,
        List.cons.injEq, and_true] at hs ⊢
      obtain ⟨rfl, rfl, rfl⟩ := hs
      refine ⟨_, _, _, ⟨rfl, rfl, rfl⟩, ?_, ?_⟩
      · intro _
        refine ⟨rfl, rfl, ?_⟩
        intro h
        have h' := congrArg String.data h
        simp only [List.append_cancel_left_eq, List.cons.injEq, and_true] at h'
        exact hab h'.symm
      · intro hm
        have := hcount.1 hm
        simp at this
    · simp at hlen
  · rcases L1 with _ | ⟨l0, _ | ⟨l1, L1⟩⟩
    · simp at hlen
    · simp only [List.map_cons, List.map_nil, List.cons_append, List.nil_append,
        List.cons.injEq, and_true] at hs ⊢
      obtain ⟨rfl, rfl, rfl⟩ := hs
      refine ⟨_, _, _, ⟨rfl, rfl, rfl⟩, ?_, ?_⟩
      · intro hm
        exact absurd (hcount.2 (by simp)) hm
      · intro _; rfl
    · simp at hlen
  · rcases L1 with _ | ⟨l0, L1⟩
    · simp only [List.map_cons, List.map_nil, List.cons_append, List.nil_append,
        List.cons.injEq, and_true] at hs ⊢
      obtain ⟨rfl, rfl, rfl⟩ := hs
      refine ⟨_, _, _, ⟨rfl, rfl, rfl⟩, ?_, ?_⟩
      · intro hm
        exact absurd (hcount.2 (by simp)) hm
      · intro _; rfl
    · simp at hlen
  · simp at hlen; omega

/-! ### C3 -/

/-- C3, as stated, fails.  `plainToken` is accepted at clock 50 with the signature
verified.  Altering the last byte of its second segment from `Q` to `R` changes only
base64 bits that the decoder drops, and the altered token is accepted with the same
result; altering the byte `I` of its first segment to `Y` turns the algorithm name into
`XS256`, which the signer does not know, and the kind is `Unverifiable`; altering the
last byte of the third segment to `.` gives four segments and the kind `Malformed`. -/
theorem C3_counterexample :
    (effectiveOptions sampleJwt []).SkipSignatureValidation = false ∧
    Parse sampleCollaborators sampleJwt ⟨50, by decide⟩
        (String.mk ("eyJhbGciOiJIUzI1NiJ9.eyJleHAiOjk5f".data ++ 'Q' :: ".q8lb".data)) [] =
      (⟨plainHeaders, plainClaims, "q8lb"⟩, "", none) ∧
    Parse sampleCollaborators sampleJwt ⟨50, by decide⟩
        (String.mk ("eyJhbGciOiJIUzI1NiJ9.eyJleHAiOjk5f".data ++ 'R' :: ".q8lb".data)) [] =
      (⟨plainHeaders, plainClaims, "q8lb"⟩, "", none) ∧
    Parse sampleCollaborators sampleJwt ⟨50, by decide⟩
        (String.mk ("eyJhbGciOiJ".data ++ 'I' :: "UzI1NiJ9.eyJleHAiOjk5fQ.q8lb".data)) [] =
      (⟨plainHeaders, plainClaims, "q8lb"⟩, "", none) ∧
    (Parse sampleCollaborators sampleJwt ⟨50, by decide⟩
        (String.mk ("eyJhbGciOiJ".data ++ 'Y' :: "UzI1NiJ9.eyJleHAiOjk5fQ.q8lb".data)) []).2.1 =
      ValidationErrorUnverifiable ∧
    Parse sampleCollaborators sampleJwt ⟨50, by decide⟩
        (String.mk ("eyJhbGciOiJIUzI1NiJ9.eyJleHAiOjk5fQ.q8l".data ++ 'b' :: [])) [] =
      (⟨plainHeaders, plainClaims, "q8lb"⟩, "", none) ∧
    (Parse sampleCollaborators sampleJwt ⟨50, by decide⟩
        (String.mk ("eyJhbGciOiJIUzI1NiJ9.eyJleHAiOjk5fQ.q8l".data ++ '.' :: [])) []).2.1 =
      ValidationErrorMalformed := by
  refine ⟨by decide, by decide, by decide, by decide, by decide, by decide, by decide⟩

/-- What acceptance gives: the three segments, what they decode to, and that no
stage fails. -/
theorem accepted_decoded {x : Collaborators} {t : jwt} {now : GoInt64} {jwtStr : String}
    {options : List ParseOptions} (hk : (Parse x t now jwtStr options).2.1 = "") :
    ∃ p0 p1 p2 h c, stringsSplit jwtStr '.' = [p0, p1, p2] ∧ decodeHeaders x p0 = .ok h ∧
      decodeClaims x p1 = .ok c ∧
      validationFailure x t now jwtStr (effectiveOptions t options) ⟨h, c, p2⟩ = none ∧
      Parse x t now jwtStr options = (⟨h, c, p2⟩, "", none) := by
  rcases Parse_outcome x t now jwtStr options with ⟨_, hP⟩ | ⟨p0, p1, p2, hs, hP⟩
  · rw [hP] at hk; exact absurd hk (by decide)
  rcases hP with ⟨e, _, hP⟩ | ⟨h, hh, hP⟩
  · rw [hP] at hk; simp only at hk; exact absurd hk (by decide)
  rcases hP with ⟨e, _, hP⟩ | ⟨c, hc, hP⟩
  · rw [hP] at hk; simp only at hk; exact absurd hk (by decide)
  rcases Parse_shape x t now jwtStr options with ⟨tok, hP'⟩ | ⟨k, e, hk', hP'⟩
  · refine ⟨p0, p1, p2, h, c, hs, hh, hc, ?_, ?_⟩
    · cases hv : validationFailure x t now jwtStr (effectiveOptions t options) ⟨h, c, p2⟩ with
      | none => rfl
      | some f =>
        rw [hP, hv] at hP'
        obtain ⟨k, e⟩ := f
        simp [finish] at hP'
    · cases hv : validationFailure x t now jwtStr (effectiveOptions t options) ⟨h, c, p2⟩ with
      | none => rw [hP, hv]; rfl
      | some f =>
        rw [hP, hv] at hP'
        obtain ⟨k, e⟩ := f
        simp [finish] at hP'
  · rw [hP'] at hk; exact absurd hk hk'

/-- C3, amended.  Let `Parse` accept a token (return the kind `""`) with the signature
verified, and let one
byte `a` of one of its segments be altered to a different byte `b` that is not `.`
(the token is `pre ++ a :: post`, the altered string `pre ++ b :: post`).  If the byte
is in the third segment (no `.` follows it), `Parse` returns `SignatureInvalid` on the
altered string.  If it is in the first or the second segment, `Parse` returns
`HeadersMalformed`, `ClaimsMalformed`, `Unverifiable` or `SignatureInvalid`, or else
the altered segments decode to a header and claims whose recomputed signature is the
unchanged third segment; and whenever the altered segments decode to the same header
and claims as before, `Parse` returns the same success as for the original token. -/
theorem C3_tamper_amended (x : Collaborators) (t : jwt) (now : GoInt64)
    (options : List ParseOptions) (pre post : List Char) (a b : Char)
    (hsk : (effectiveOptions t options).SkipSignatureValidation = false)
    (hk : (Parse x t now (String.mk (pre ++ a :: post)) options).2.1 = "")
    (hab : a ≠ b) (ha : a ≠ '.') (hb : b ≠ '.') :
    ('.' ∉ post →
      (Parse x t now (String.mk (pre ++ b :: post)) options).2.1 =
        ValidationErrorSignatureInvalid) ∧
    ('.' ∈ post →
      (Parse x t now (String.mk (pre ++ b :: post)) options).2.1 ∈
          [ValidationErrorHeadersMalformed, ValidationErrorClaimsMalformed,
            ValidationErrorUnverifiable, ValidationErrorSignatureInvalid] ∨
        ∃ p0 p1 p2 h c, stringsSplit (String.mk (pre ++ b :: post)) '.' = [p0, p1, p2] ∧
          decodeHeaders x p0 = .ok h ∧ decodeClaims x p1 = .ok c ∧
          SignerGives x t.config.Key h c p2 ∧
          p2 = (Parse x t now (String.mk (pre ++ a :: post)) options).1.Signature) ∧
    ('.' ∈ post →
      ∀ q0 q1 q2 p0 p1 p2, stringsSplit (String.mk (pre ++ a :: post)) '.' = [q0, q1, q2] →
        stringsSplit (String.mk (pre ++ b :: post)) '.' = [p0, p1, p2] →
        decodeHeaders x p0 = decodeHeaders x q0 → decodeClaims x p1 = decodeClaims x q1 →
        Parse x t now (String.mk (pre ++ b :: post)) options =
          Parse x t now (String.mk (pre ++ a :: post)) options) := by
  obtain ⟨q0, q1, q2, h, c, hs, hh, hc, hv, hP⟩ := accepted_decoded hk
  obtain ⟨p0, p1, p2, hs', hA, hB⟩ := stringsSplit_alter hab ha hb pre post hs
  obtain ⟨hsig, hreq, htime⟩ := (validationFailure_eq_none_iff _ _ _ _ _ _).1 hv
  have hrec : recomputedSignature x t.config.Key h c = .ok q2 := by
    rcases hsig with hsig | hsig
    · rw [hsk] at hsig; cases hsig
    · exact hsig
  refine ⟨?_, ?_, ?_⟩
  · intro hpost
    obtain ⟨rfl, rfl, hne⟩ := hA hpost
    rw [Parse_of_decoded hs' hh hc]
    rcases signatureFailure_cases x t (String.mk (pre ++ b :: post)) ⟨h, c, p2⟩ with
      ⟨e, h1, h2⟩ | ⟨sg, e, h1, h2, h3⟩ | ⟨h1, h2⟩
    · simp only at h1; rw [hrec] at h1; cases h1
    · rw [validationFailure_of_signature hsk h3]; rfl
    · simp only at h1; rw [hrec] at h1; cases h1; exact absurd rfl hne
  · intro hpost
    have hp2 := hB hpost
    subst hp2
    rcases Parse_outcome x t now (String.mk (pre ++ b :: post)) options with
      ⟨hl, _⟩ | ⟨r0, r1, r2, hr, hP'⟩
    · rw [hs'] at hl; exact absurd rfl hl
    rw [hs'] at hr
    simp only [List.cons.injEq, and_true] at hr
    obtain ⟨rfl, rfl, rfl⟩ := hr
    rcases hP' with ⟨e, _, hP'⟩ | ⟨h', hh', hP'⟩
    · left; rw [hP']; simp
    rcases hP' with ⟨e, _, hP'⟩ | ⟨c', hc', hP'⟩
    · left; rw [hP']; simp
    rcases validationFailure_outcome x t now (String.mk (pre ++ b :: post))
        (effectiveOptions t options) ⟨h', c', p2⟩ with
      ⟨_, e, hr, hv'⟩ | ⟨_, sg, e, hr, hne, hv'⟩ | ⟨hp, _⟩ | ⟨hp, _⟩ | ⟨hp, _⟩
    · left; rw [hP', hv']; simp [finish]
    · left; rw [hP', hv']; simp [finish]
    all_goals
      right
      refine ⟨p0, p1, p2, h', c', hs', hh', hc', ?_, by rw [hP]⟩
      rcases hp with hp | hp
      · rw [hsk] at hp; cases hp
      · exact (recomputedSignature_ok_iff _ _ _ _ _).1 hp
  · intro hpost r0 r1 r2 s0 s1 s2 hr hr' hdh hdc
    rw [hs] at hr
    rw [hs'] at hr'
    simp only [List.cons.injEq, and_true] at hr hr'
    obtain ⟨rfl, rfl, rfl⟩ := hr
    obtain ⟨rfl, rfl, rfl⟩ := hr'
    have hp2 := hB hpost
    subst hp2
    rw [hh] at hdh
    rw [hc] at hdc
    rw [Parse_of_decoded hs' hdh hdc, hP]
    have : validationFailure x t now (String.mk (pre ++ b :: post))
        (effectiveOptions t options) ⟨h, c, p2⟩ = none :=
      (validationFailure_eq_none_iff _ _ _ _ _ _).2 ⟨hsig, hreq, htime⟩
    rw [this]
    rfl

/-- C3 at the sample token: the last byte of the third segment of `plainToken`
altered from `b` to `c`. -/
theorem C3_tamper_amended_witness :
    (Parse sampleCollaborators sampleJwt ⟨50, by decide⟩
        (String.mk ("eyJhbGciOiJIUzI1NiJ9.eyJleHAiOjk5fQ.q8l".data ++ 'c' :: [])) []).2.1 =
      ValidationErrorSignatureInvalid :=
  (C3_tamper_amended sampleCollaborators sampleJwt ⟨50, by decide⟩ []
    "eyJhbGciOiJIUzI1NiJ9.eyJleHAiOjk5fQ.q8l".data [] 'b' 'c' (by decide) (by decide)
    (by decide) (by decide) (by decide)).1 (by decide)

/-! ### Encoding and decoding agree -/

theorem decodeMap_encodeChar : ∀ i, i < 64 → decodeMap (encodeChar i) = some i := by
  decide

theorem or_shift_eq_add (a b n : Nat) (hb : b < 2 ^ n) : (a <<< n) ||| b = a * 2 ^ n + b := by
  rw [Nat.shiftLeft_eq, Nat.mul_comm a, ← Nat.mul_add_lt_is_or hb]

/-- The value that three bytes are packed into. -/
theorem pack3 (a b c : Nat) (hb : b < 256) (hc : c < 256) :
    (a <<< 16) ||| (b <<< 8) ||| c = a * 65536 + b * 256 + c := by
  have h1 : (a <<< 16) ||| (b <<< 8) = (a * 256 + b) <<< 8 := by
    have : b <<< 8 < 2 ^ 16 := by rw [Nat.shiftLeft_eq]; omega
    rw [or_shift_eq_add a (b <<< 8) 16 this, Nat.shiftLeft_eq, Nat.shiftLeft_eq]
    omega
  rw [h1, or_shift_eq_add _ c 8 (by omega)]
  omega

/-- The value that four six-bit values are packed into. -/
theorem pack4 (p q r s : Nat) (hq : q < 64) (hr : r < 64) (hs : s < 64) :
    (p <<< 18) ||| (q <<< 12) ||| (r <<< 6) ||| s = p * 262144 + q * 4096 + r * 64 + s := by
  have h1 : (p <<< 18) ||| (q <<< 12) = (p * 64 + q) <<< 12 := by
    have : q <<< 12 < 2 ^ 18 := by rw [Nat.shiftLeft_eq]; omega
    rw [or_shift_eq_add p (q <<< 12) 18 this, Nat.shiftLeft_eq, Nat.shiftLeft_eq]
    omega
  have h2 : ((p * 64 + q) <<< 12) ||| (r <<< 6) = ((p * 64 + q) * 64 + r) <<< 6 := by
    have : r <<< 6 < 2 ^ 12 := by rw [Nat.shiftLeft_eq]; omega
    rw [or_shift_eq_add _ (r <<< 6) 12 this, Nat.shiftLeft_eq, Nat.shiftLeft_eq]
    omega
  rw [h1, h2, or_shift_eq_add _ s 6 (by omega)]
  omega

theorem and63 (v : Nat) : v &&& 63 = v % 64 := Nat.and_pow_two_sub_one_eq_mod v 6

theorem quantumBytes_four (a b c : Nat) (ha : a < 256) (hb : b < 256) (hc : c < 256) :
    quantumBytes [((a <<< 16) ||| (b <<< 8) ||| c) >>> 18 &&& 63,
      ((a <<< 16) ||| (b <<< 8) ||| c) >>> 12 &&& 63,
      ((a <<< 16) ||| (b <<< 8) ||| c) >>> 6 &&& 63,
      ((a <<< 16) ||| (b <<< 8) ||| c) &&& 63] = [a, b, c] := by
  simp only [quantumBytes, List.getD_cons_zero, List.getD_cons_succ, pack3 a b c hb hc, and63,
    Nat.shiftRight_eq_div_pow, List.length_cons, List.length_nil]
  rw [pack4 _ _ _ _ (Nat.mod_lt _ (by decide)) (Nat.mod_lt _ (by decide))
    (Nat.mod_lt _ (by decide))]
  simp only [Nat.reducePow, Nat.reduceAdd, Nat.reduceSub, List.take, Nat.div_one]
  refine congrArg₂ _ ?_ (congrArg₂ _ ?_ (congrArg₂ _ ?_ rfl)) <;> omega

theorem pack2 (a b : Nat) (hb : b < 256) : (a <<< 16) ||| (b <<< 8) = a * 65536 + b * 256 := by
  have : b <<< 8 < 2 ^ 16 := by rw [Nat.shiftLeft_eq]; omega
  rw [or_shift_eq_add a (b <<< 8) 16 this, Nat.shiftLeft_eq]
  omega

theorem pack4_three (p q r : Nat) (hq : q < 64) (hr : r < 64) :
    (p <<< 18) ||| (q <<< 12) ||| (r <<< 6) ||| 0 = p * 262144 + q * 4096 + r * 64 := by
  rw [pack4 p q r 0 hq hr (by decide)]
  omega

theorem pack4_two (p q : Nat) (hq : q < 64) :
    (p <<< 18) ||| (q <<< 12) ||| (0 <<< 6) ||| 0 = p * 262144 + q * 4096 := by
  have h : (0 : Nat) <<< 6 = 0 := by decide
  rw [h, Nat.or_zero, Nat.or_zero]
  have : q <<< 12 < 2 ^ 18 := by rw [Nat.shiftLeft_eq]; omega
  rw [or_shift_eq_add p (q <<< 12) 18 this, Nat.shiftLeft_eq]
  omega

theorem quantumBytes_three (a b : Nat) (ha : a < 256) (hb : b < 256) :
    quantumBytes [((a <<< 16) ||| (b <<< 8)) >>> 18 &&& 63,
      ((a <<< 16) ||| (b <<< 8)) >>> 12 &&& 63,
      ((a <<< 16) ||| (b <<< 8)) >>> 6 &&& 63] = [a, b] := by
  simp only [quantumBytes, List.getD_cons_zero, List.getD_cons_succ, List.getD_nil,
    pack2 a b hb, and63, Nat.shiftRight_eq_div_pow, List.length_cons, List.length_nil]
  rw [pack4_three _ _ _ (Nat.mod_lt _ (by decide)) (Nat.mod_lt _ (by decide))]
  simp only [Nat.reducePow, Nat.reduceAdd, Nat.reduceSub, List.take, Nat.div_one]
  refine congrArg₂ _ ?_ (congrArg₂ _ ?_ rfl) <;> omega

theorem quantumBytes_two (a : Nat) (ha : a < 256) :
    quantumBytes [(a <<< 16) >>> 18 &&& 63, (a <<< 16) >>> 12 &&& 63] = [a] := by
  simp only [quantumBytes, List.getD_cons_zero, List.getD_cons_succ, List.getD_nil,
    Nat.shiftLeft_eq a, and63, Nat.shiftRight_eq_div_pow, List.length_cons, List.length_nil]
  rw [pack4_two _ _ (Nat.mod_lt _ (by decide))]
  simp only [Nat.reducePow, Nat.reduceAdd, Nat.reduceSub, List.take, Nat.div_one]
  refine congrArg₂ _ ?_ rfl
  omega

theorem and63_lt (v : Nat) : v &&& 63 < 64 := by
  rw [and63]; exact Nat.mod_lt _ (by decide)

/-- One step of the decoding loop on a character of the alphabet. -/
theorem decodeLoop_encodeChar (i : Nat) (hi : i < 64) (cs : List Char) (si : Nat)
    (dbuf dst : List Nat) :
    decodeLoop (encodeChar i :: cs) si dbuf dst =
      if dbuf.length = 3 then decodeLoop cs (si + 1) [] (dst ++ quantumBytes (dbuf ++ [i]))
      else decodeLoop cs (si + 1) (dbuf ++ [i]) dst := by
  rw [decodeLoop, decodeMap_encodeChar i hi]

/-- Decoding after encoding gives the bytes back. -/
theorem decodeLoop_encodeChars (bs : List Nat) (hbs : ∀ b ∈ bs, b < 256) (si : Nat)
    (dst : List Nat) : decodeLoop (encodeChars bs) si [] dst = .ok (dst ++ bs) := by
  induction bs using encodeChars.induct generalizing si dst with
  | case1 a b c rest ih =>
    have ha : a < 256 := hbs a (by simp)
    have hb : b < 256 := hbs b (by simp)
    have hc : c < 256 := hbs c (by simp)
    have hrest : ∀ z ∈ rest, z < 256 := fun z hz => hbs z (by simp [hz])
    rw [encodeChars]
    simp only [decodeLoop_encodeChar _ (and63_lt _), List.length_nil, List.nil_append,
      List.length_cons, List.cons_append, Nat.reduceAdd, Nat.reduceEqDiff, if_false, if_true]
    rw [quantumBytes_four a b c ha hb hc, ih hrest]
    simp
  | case2 a b =>
    have ha : a < 256 := hbs a (by simp)
    have hb : b < 256 := hbs b (by simp)
    rw [encodeChars]
    simp only [decodeLoop_encodeChar _ (and63_lt _), List.length_nil, List.nil_append,
      List.length_cons, List.cons_append, Nat.reduceAdd, Nat.reduceEqDiff, if_false, if_true]
    rw [decodeLoop]
    simp only [List.length_cons, List.length_nil, Nat.reduceAdd, Nat.reduceEqDiff, if_false]
    rw [quantumBytes_three a b ha hb]
  | case3 a =>
    have ha : a < 256 := hbs a (by simp)
    rw [encodeChars]
    simp only [decodeLoop_encodeChar _ (and63_lt _), List.length_nil, List.nil_append,
      List.length_cons, List.cons_append, Nat.reduceAdd, Nat.reduceEqDiff, if_false, if_true]
    rw [decodeLoop]
    simp only [List.length_cons, List.length_nil, Nat.reduceAdd, Nat.reduceEqDiff, if_false]
    rw [quantumBytes_two a ha]
  | case4 =>
    rw [encodeChars, decodeLoop]
    simp

/-- The decoder inverts the encoder: `DecodeString(EncodeToString(src)) = src`. -/
theorem base64_roundtrip (src : List Nat) (hsrc : ∀ b ∈ src, b < 256) :
    base64DecodeString (base64EncodeToString src) = .ok src := by
  simp only [base64DecodeString, base64EncodeToString]
  rw [decodeLoop_encodeChars src hsrc 0 []]
  rfl

/-- A first segment that is the encoding of bytes that deserialise to a header
decodes to that header. -/
theorem decodeHeaders_of_encoding (x : Collaborators) (b : List Nat) (h : Headers)
    (hb : ∀ v ∈ b, v < 256) (hu : x.jsonUnmarshalHeaders b = .ok h) :
    decodeHeaders x (base64EncodeToString b) = .ok h := by
  simp only [decodeHeaders, base64_roundtrip b hb, hu]

/-- A second segment that is the encoding of bytes that deserialise to claims decodes
to these claims. -/
theorem decodeClaims_of_encoding (x : Collaborators) (b : List Nat) (c : Claims)
    (hb : ∀ v ∈ b, v < 256) (hu : x.jsonUnmarshalClaims b = .ok c) :
    decodeClaims x (base64EncodeToString b) = .ok c := by
  simp only [decodeClaims, base64_roundtrip b hb, hu]

/-! ### C4 -/

/-- A string that the base64 decoder accepts has no `.`. -/
theorem decodeLoop_ok_no_dot (l : List Char) (si : Nat) (dbuf dst : List Nat) (r : List Nat)
    (h : decodeLoop l si dbuf dst = .ok r) : '.' ∉ l := by
  induction l generalizing si dbuf dst with
  | nil => simp
  | cons c cs ih =>
    intro hm
    rw [decodeLoop] at h
    by_cases hc : c = '.'
    · subst hc
      have : decodeMap '.' = none := by decide
      rw [this] at h
      simp at h
    · have hcs : '.' ∈ cs := by
        rcases List.mem_cons.1 hm with e | e
        · exact absurd e.symm hc
        · exact e
      cases hd : decodeMap c with
      | some v =>
        rw [hd] at h
        simp only at h
        split at h
        · exact ih _ _ _ h hcs
        · exact ih _ _ _ h hcs
      | none =>
        rw [hd] at h
        simp only at h
        split at h
        · exact ih _ _ _ h hcs
        · cases h

theorem decodeHeaders_ok_no_dot {x : Collaborators} {p0 : String} {h : Headers}
    (hh : decodeHeaders x p0 = .ok h) : '.' ∉ p0.data := by
  unfold decodeHeaders at hh
  cases hb : base64DecodeString p0 with
  | error e => rw [hb] at hh; cases hh
  | ok b => exact decodeLoop_ok_no_dot _ _ _ _ _ hb

theorem decodeClaims_ok_no_dot {x : Collaborators} {p1 : String} {c : Claims}
    (hc : decodeClaims x p1 = .ok c) : '.' ∉ p1.data := by
  unfold decodeClaims at hc
  cases hb : base64DecodeString p1 with
  | error e => rw [hb] at hc; cases hc
  | ok b => exact decodeLoop_ok_no_dot _ _ _ _ _ hb

/-- Three strings without `.` joined by `.` split into themselves. -/
theorem stringsSplit_join {seg0 seg1 sig : String} (h0 : '.' ∉ seg0.data)
    (h1 : '.' ∉ seg1.data) (h2 : '.' ∉ sig.data) :
    stringsSplit (seg0 ++ "." ++ seg1 ++ "." ++ sig) '.' = [seg0, seg1, sig] := by
  have e : (seg0 ++ "." ++ seg1 ++ "." ++ sig).data =
      seg0.data ++ '.' :: (seg1.data ++ '.' :: sig.data) := by
    simp [String.data_append]
  simp only [stringsSplit, e, splitChars_append_sep h0, splitChars_append_sep h1,
    splitChars_of_not_mem h2, List.map_cons, List.map_nil]

/-- C4, as stated, fails.  The first segment is the base64url encoding of a JSON text
with a space after the colon, which deserialises to `plainHeaders`; the third segment
is what the sample signer gives for the text of the first two segments; the claims
are valid at clock 50 and no field is required.  `Parse` signs the re-serialised header
and claims instead, finds another signature and returns `SignatureInvalid`. -/
theorem C4_counterexample :
    base64EncodeToString (stringBytes "\x7b\"alg\": \"HS256\"\x7d") = "eyJhbGciOiAiSFMyNTYifQ" ∧
    sampleCollaborators.jsonUnmarshalHeaders (stringBytes "\x7b\"alg\": \"HS256\"\x7d") =
      .ok plainHeaders ∧
    base64EncodeToString (stringBytes "\x7b\"exp\":99\x7d") = "eyJleHAiOjk5fQ" ∧
    sampleCollaborators.jsonUnmarshalClaims (stringBytes "\x7b\"exp\":99\x7d") = .ok plainClaims ∧
    sampleCollaborators.makeSignature ("eyJhbGciOiAiSFMyNTYifQ" ++ "." ++ "eyJleHAiOjk5fQ")
      plainHeaders.SignatureAlgorithm sampleJwt.config.Key = .ok "5Q0p" ∧
    TemporallyValid ⟨50, by decide⟩ plainClaims ∧
    (Parse sampleCollaborators sampleJwt ⟨50, by decide⟩
      ("eyJhbGciOiAiSFMyNTYifQ" ++ "." ++ "eyJleHAiOjk5fQ" ++ "." ++ "5Q0p") [noOptions]).2.1 =
        ValidationErrorSignatureInvalid := by
  refine ⟨by decide, by decide, by decide, by decide, by decide, by decide, by decide⟩

/-- C4, amended.  Let the first two segments decode (unpadded base64url, then JSON) to
a header `h` and claims `c` (as they do when they are the encodings of JSON texts that
deserialise to `h` and `c`, by `decodeHeaders_of_encoding` and
`decodeClaims_of_encoding`), let `sig` have no `.` and be the signature that the signer
gives for `makeHeaderPart(h) + "." + makeClaimsPart(c)` with `h.SignatureAlgorithm` and
the configured key, and let the claims be valid at `now`.  With no field required,
`Parse` of `seg0 + "." + seg1 + "." + sig` succeeds and returns `h`, `c` and `sig`. -/
theorem C4_accepts_amended (x : Collaborators) (t : jwt) (now : GoInt64)
    (options : List ParseOptions) (seg0 seg1 sig : String) (h : Headers) (c : Claims)
    (hh : decodeHeaders x seg0 = .ok h) (hc : decodeClaims x seg1 = .ok c)
    (hdot : '.' ∉ sig.data)
    (hsig : SignerGives x t.config.Key h c sig)
    (htime : TemporallyValid now c)
    (h1 : (effectiveOptions t options).RequiredHeaderContentType = false)
    (h2 : (effectiveOptions t options).RequiredHeaderKeyId = false)
    (h3 : (effectiveOptions t options).RequiredHeaderCritical = false)
    (h4 : (effectiveOptions t options).RequiredClaimIssuer = false)
    (h5 : (effectiveOptions t options).RequiredClaimSubject = false)
    (h6 : (effectiveOptions t options).RequiredClaimAudience = false)
    (h7 : (effectiveOptions t options).RequiredClaimJwtId = false)
    (h8 : (effectiveOptions t options).RequiredClaimData = false) :
    Parse x t now (seg0 ++ "." ++ seg1 ++ "." ++ sig) options = (⟨h, c, sig⟩, "", none) := by
  have hs := stringsSplit_join (decodeHeaders_ok_no_dot hh) (decodeClaims_ok_no_dot hc) hdot
  rw [Parse_of_decoded hs hh hc]
  have hv : validationFailure x t now (seg0 ++ "." ++ seg1 ++ "." ++ sig)
      (effectiveOptions t options) ⟨h, c, sig⟩ = none := by
    rw [validationFailure_eq_none_iff]
    refine ⟨Or.inr ((recomputedSignature_ok_iff _ _ _ _ _).2 hsig), ?_, Or.inr htime⟩
    simp [RequiredFieldsPresent, h1, h2, h3, h4, h5, h6, h7, h8]
  rw [hv]
  rfl

/-- C4 at the sample token `plainToken`, clock 50. -/
theorem C4_accepts_amended_witness :
    Parse sampleCollaborators sampleJwt ⟨50, by decide⟩
      ("eyJhbGciOiJIUzI1NiJ9" ++ "." ++ "eyJleHAiOjk5fQ" ++ "." ++ "q8lb") [] =
      (⟨plainHeaders, plainClaims, "q8lb"⟩, "", none) :=
  C4_accepts_amended sampleCollaborators sampleJwt ⟨50, by decide⟩ []
    "eyJhbGciOiJIUzI1NiJ9" "eyJleHAiOjk5fQ" "q8lb" plainHeaders plainClaims
    (by decide) (by decide) (by decide)
    ⟨"eyJhbGciOiJIUzI1NiJ9", "eyJleHAiOjk5fQ", by decide, by decide, by decide⟩
    (by decide) (by decide) (by decide) (by decide) (by decide) (by decide) (by decide)
    (by decide) (by decide)

/-! ### C5 -/

theorem validationFailure_of_passes_later {x : Collaborators} {t : jwt} {now : GoInt64}
    {jwtStr : String} {o : ParseOptions} {token : Token}
    (hp : SignatureStagePasses x t.config.Key o token) :
    validationFailure x t now jwtStr o token = laterFailure x now o token :=
  validationFailure_of_passes hp

/-- The stages after the signature block do not read the signature. -/
theorem laterFailure_signature (x : Collaborators) (now : GoInt64) (o : ParseOptions)
    (h : Headers) (c : Claims) (sig sig' : String) :
    laterFailure x now o ⟨h, c, sig⟩ = laterFailure x now o ⟨h, c, sig'⟩ := rfl

/-- They do not read the switch of the signature either. -/
theorem laterFailure_skip (x : Collaborators) (now : GoInt64) (o : ParseOptions) (token : Token)
    (b : Bool) :
    laterFailure x now { o with SkipSignatureValidation := b } token =
      laterFailure x now o token := rfl

theorem effectiveOptions_key (po : ParseOptions) (k1 k2 : String) (options : List ParseOptions) :
    effectiveOptions ⟨⟨po, k1⟩⟩ options = effectiveOptions ⟨⟨po, k2⟩⟩ options := by
  cases options <;> rfl

/-- `Parse` with the signature skipped. -/
theorem Parse_of_skip {x : Collaborators} {t : jwt} {now : GoInt64} {jwtStr : String}
    {options : List ParseOptions} {p0 p1 p2 : String}
    (hskip : (effectiveOptions t options).SkipSignatureValidation = true)
    (hs : stringsSplit jwtStr '.' = [p0, p1, p2]) :
    Parse x t now jwtStr options =
      match decodeHeaders x p0 with
      | .error err => (Token.zero, ValidationErrorHeadersMalformed, some err)
      | .ok h =>
        match decodeClaims x p1 with
        | .error err => (Token.zero, ValidationErrorClaimsMalformed, some err)
        | .ok c => finish ⟨h, c, p2⟩ (laterFailure x now (effectiveOptions t options) ⟨h, c, ""⟩) := by
  cases hh : decodeHeaders x p0 with
  | error e => exact Parse_of_headers_error hs hh
  | ok h =>
    cases hc : decodeClaims x p1 with
    | error e => exact Parse_of_claims_error hs hh hc
    | ok c =>
      rw [Parse_of_decoded hs hh hc, validationFailure_of_passes_later (Or.inl hskip)]
      rfl

/-- The kinds of the stages after the signature block. -/
theorem laterFailure_kind {x : Collaborators} {now : GoInt64} {o : ParseOptions} {token : Token}
    {k : String} {e : GoError} (h : laterFailure x now o token = some (k, e)) :
    k ≠ "" ∧ k ≠ ValidationErrorUnverifiable ∧ k ≠ ValidationErrorSignatureInvalid := by
  unfold laterFailure at h
  rw [structuralFailure_eq] at h
  cases hf : firstFailingCheck o token.Headers token.Claims with
  | some k' =>
    rw [hf] at h
    simp only [Option.map_some', Option.some.injEq, Prod.mk.injEq] at h
    obtain ⟨rfl, _⟩ := h
    obtain ⟨h0, _, _, _, h5, h6, _⟩ := structuralKinds_ne (firstFailingCheck_mem hf)
    exact ⟨h0, h5, h6⟩
  | none =>
    rw [hf] at h
    simp only [Option.map_none'] at h
    split at h
    · obtain ⟨hk, _⟩ := temporalFailure_kind h
      rcases hk with rfl | rfl | rfl <;> decide
    · cases h

/-- C5: skipping the signature is non-interfering.  With `SkipSignatureValidation` true,
two keys and two tokens with the same first and second segments and any third segments
give the same kind and the same error; on success the two tokens have equal headers and
claims and each carries its own third segment; the kind is never `Unverifiable` or
`SignatureInvalid`; and whenever the same call with `SkipSignatureValidation` false
returns neither of these two kinds (the signature matches), it returns the same result
as the call that skips. -/
theorem C5_signature_bypass (x : Collaborators) (po : ParseOptions) (k1 k2 : String)
    (now : GoInt64) (options : List ParseOptions) (s1 s2 a b c1 c2 : String)
    (hskip : (effectiveOptions ⟨⟨po, k1⟩⟩ options).SkipSignatureValidation = true)
    (hs1 : stringsSplit s1 '.' = [a, b, c1]) (hs2 : stringsSplit s2 '.' = [a, b, c2]) :
    (Parse x ⟨⟨po, k1⟩⟩ now s1 options).2.1 = (Parse x ⟨⟨po, k2⟩⟩ now s2 options).2.1 ∧
    (Parse x ⟨⟨po, k1⟩⟩ now s1 options).2.2 = (Parse x ⟨⟨po, k2⟩⟩ now s2 options).2.2 ∧
    ((Parse x ⟨⟨po, k1⟩⟩ now s1 options).2.1 = "" →
      (Parse x ⟨⟨po, k1⟩⟩ now s1 options).1.Headers =
        (Parse x ⟨⟨po, k2⟩⟩ now s2 options).1.Headers ∧
      (Parse x ⟨⟨po, k1⟩⟩ now s1 options).1.Claims =
        (Parse x ⟨⟨po, k2⟩⟩ now s2 options).1.Claims ∧
      (Parse x ⟨⟨po, k1⟩⟩ now s1 options).1.Signature = c1 ∧
      (Parse x ⟨⟨po, k2⟩⟩ now s2 options).1.Signature = c2) ∧
    (Parse x ⟨⟨po, k1⟩⟩ now s1 options).2.1 ≠ ValidationErrorUnverifiable ∧
    (Parse x ⟨⟨po, k1⟩⟩ now s1 options).2.1 ≠ ValidationErrorSignatureInvalid ∧
    ((Parse x ⟨⟨po, k1⟩⟩ now s1
          [{ effectiveOptions ⟨⟨po, k1⟩⟩ options with SkipSignatureValidation := false }]).2.1 ≠
        ValidationErrorUnverifiable →
      (Parse x ⟨⟨po, k1⟩⟩ now s1
          [{ effectiveOptions ⟨⟨po, k1⟩⟩ options with SkipSignatureValidation := false }]).2.1 ≠
        ValidationErrorSignatureInvalid →
      Parse x ⟨⟨po, k1⟩⟩ now s1
          [{ effectiveOptions ⟨⟨po, k1⟩⟩ options with SkipSignatureValidation := false }] =
        Parse x ⟨⟨po, k1⟩⟩ now s1 options) := by
  have hskip2 : (effectiveOptions ⟨⟨po, k2⟩⟩ options).SkipSignatureValidation = true := by
    rw [← effectiveOptions_key po k1 k2]; exact hskip
  have e1 := @Parse_of_skip x _ now _ _ _ _ _ hskip hs1
  have e2 := @Parse_of_skip x _ now _ _ _ _ _ hskip2 hs2
  rw [← effectiveOptions_key po k1 k2] at e2
  generalize effectiveOptions ⟨⟨po, k1⟩⟩ options = o at *
  have d1 : ValidationErrorHeadersMalformed ≠ ValidationErrorUnverifiable := by decide
  have d2 : ValidationErrorHeadersMalformed ≠ ValidationErrorSignatureInvalid := by decide
  have d3 : ValidationErrorClaimsMalformed ≠ ValidationErrorUnverifiable := by decide
  have d4 : ValidationErrorClaimsMalformed ≠ ValidationErrorSignatureInvalid := by decide
  have d5 : "" ≠ ValidationErrorUnverifiable := by decide
  have d6 : "" ≠ ValidationErrorSignatureInvalid := by decide
  cases hh : decodeHeaders x a with
  | error e =>
    rw [hh] at e1 e2
    simp only at e1 e2
    rw [e1, e2]
    refine ⟨rfl, rfl, ?_, d1, d2, fun _ _ => Parse_of_headers_error hs1 hh⟩
    intro h; simp only at h; exact absurd h (by decide)
  | ok h =>
    cases hc : decodeClaims x b with
    | error e =>
      rw [hh, hc] at e1 e2
      simp only at e1 e2
      rw [e1, e2]
      refine ⟨rfl, rfl, ?_, d3, d4, fun _ _ => Parse_of_claims_error hs1 hh hc⟩
      intro h; simp only at h; exact absurd h (by decide)
    | ok c =>
      rw [hh, hc] at e1 e2
      simp only at e1 e2
      rw [e1, e2]
      have h6 : ∀ r : ParseResult, r = finish ⟨h, c, c1⟩ (laterFailure x now o ⟨h, c, ""⟩) →
          (Parse x ⟨⟨po, k1⟩⟩ now s1 [{ o with SkipSignatureValidation := false }]).2.1 ≠
            ValidationErrorUnverifiable →
          (Parse x ⟨⟨po, k1⟩⟩ now s1 [{ o with SkipSignatureValidation := false }]).2.1 ≠
            ValidationErrorSignatureInvalid →
          Parse x ⟨⟨po, k1⟩⟩ now s1 [{ o with SkipSignatureValidation := false }] = r := by
        intro r hr
        rw [Parse_of_decoded hs1 hh hc, hr]
        intro hU hS
        rcases validationFailure_outcome x ⟨⟨po, k1⟩⟩ now s1
            (effectiveOptions ⟨⟨po, k1⟩⟩ [{ o with SkipSignatureValidation := false }])
            ⟨h, c, c1⟩ with
          ⟨_, e, _, hv⟩ | ⟨_, sg, e, _, _, hv⟩ | ⟨hp, _⟩ | ⟨hp, _⟩ | ⟨hp, _⟩
        · rw [hv] at hU; exact absurd rfl hU
        · rw [hv] at hS; exact absurd rfl hS
        all_goals
          rw [validationFailure_of_passes_later hp]
          rfl
      cases hl : laterFailure x now o ⟨h, c, ""⟩ with
      | some f =>
        obtain ⟨k, e⟩ := f
        obtain ⟨n0, n1, n2⟩ := laterFailure_kind hl
        rw [hl] at h6
        exact ⟨rfl, rfl, fun h => absurd h n0, n1, n2, h6 _ rfl⟩
      | none =>
        rw [hl] at h6
        exact ⟨rfl, rfl, fun _ => ⟨rfl, rfl, rfl, rfl⟩, d5, d6, h6 _ rfl⟩

/-- C5 at two sample tokens: the first two segments of `plainToken` with the third
segments `x` and the empty string, the keys `secret` and `other`, clock 50. -/
theorem C5_signature_bypass_witness :
    (Parse sampleCollaborators ⟨⟨⟨true, false, false, false, false, false, false, false, false,
        false⟩, "secret"⟩⟩ ⟨50, by decide⟩ "eyJhbGciOiJIUzI1NiJ9.eyJleHAiOjk5fQ.x" []).2.1 = "" ∧
    (Parse sampleCollaborators ⟨⟨⟨true, false, false, false, false, false, false, false, false,
        false⟩, "other"⟩⟩ ⟨50, by decide⟩ "eyJhbGciOiJIUzI1NiJ9.eyJleHAiOjk5fQ." []).2.1 = "" := by
  have h := C5_signature_bypass sampleCollaborators
    ⟨true, false, false, false, false, false, false, false, false, false⟩ "secret" "other"
    ⟨50, by decide⟩ [] "eyJhbGciOiJIUzI1NiJ9.eyJleHAiOjk5fQ.x"
    "eyJhbGciOiJIUzI1NiJ9.eyJleHAiOjk5fQ." "eyJhbGciOiJIUzI1NiJ9" "eyJleHAiOjk5fQ" "x" ""
    (by decide) (by decide) (by decide)
  have h1 : (Parse sampleCollaborators ⟨⟨⟨true, false, false, false, false, false, false, false,
      false, false⟩, "secret"⟩⟩ ⟨50, by decide⟩ "eyJhbGciOiJIUzI1NiJ9.eyJleHAiOjk5fQ.x" []).2.1 =
      "" := by decide
  exact ⟨h1, h.1 ▸ h1⟩

/-! ### C6 and C7 -/

/-- The stages after decoding return none of the kinds of splitting and decoding. -/
theorem validationFailure_kind_ne {x : Collaborators} {t : jwt} {now : GoInt64}
    {jwtStr : String} {o : ParseOptions} {token : Token} {k : String} {e : GoError}
    (h : validationFailure x t now jwtStr o token = some (k, e)) :
    k ≠ "" ∧ k ≠ ValidationErrorMalformed ∧ k ≠ ValidationErrorHeadersMalformed ∧
      k ≠ ValidationErrorClaimsMalformed := by
  rcases validationFailure_outcome x t now jwtStr o token with
    ⟨_, e', _, hv⟩ | ⟨_, sg, e', _, _, hv⟩ | ⟨_, k', hk, hv⟩ | ⟨_, _, _, k', hk, _, hv⟩ |
    ⟨_, _, _, hv⟩
  · rw [hv] at h; cases h; decide
  · rw [hv] at h; cases h; decide
  · rw [hv] at h; cases h
    obtain ⟨h0, h1, h2, h3, _⟩ := structuralKinds_ne (firstFailingCheck_mem hk)
    exact ⟨h0, h1, h2, h3⟩
  · rw [hv] at h; cases h
    rcases hk with rfl | rfl | rfl <;> decide
  · rw [hv] at h; cases h

theorem finish_kind_ne {x : Collaborators} {t : jwt} {now : GoInt64} {jwtStr : String}
    {o : ParseOptions} {token : Token} :
    (finish token (validationFailure x t now jwtStr o token)).2.1 ≠ ValidationErrorMalformed ∧
    (finish token (validationFailure x t now jwtStr o token)).2.1 ≠
      ValidationErrorHeadersMalformed ∧
    (finish token (validationFailure x t now jwtStr o token)).2.1 ≠
      ValidationErrorClaimsMalformed := by
  cases hv : validationFailure x t now jwtStr o token with
  | none =>
    exact ⟨(by decide : "" ≠ ValidationErrorMalformed),
      (by decide : "" ≠ ValidationErrorHeadersMalformed),
      (by decide : "" ≠ ValidationErrorClaimsMalformed)⟩
  | some f =>
    obtain ⟨k, e⟩ := f
    obtain ⟨_, h1, h2, h3⟩ := validationFailure_kind_ne hv
    exact ⟨h1, h2, h3⟩

/-- C6: `Parse` returns the kind `Malformed` if and only if splitting the string on
`.` does not give exactly three parts, that is if and only if the string does not
contain exactly two `.`; the result is then `Token{}` with a non-nil error.  In
particular the empty string and every string of two segments give `Malformed`. -/
theorem C6_malformed_iff (x : Collaborators) (t : jwt) (now : GoInt64) (jwtStr : String)
    (options : List ParseOptions) :
    ((Parse x t now jwtStr options).2.1 = ValidationErrorMalformed ↔
      (stringsSplit jwtStr '.').length ≠ 3) ∧
    ((stringsSplit jwtStr '.').length ≠ 3 ↔ jwtStr.data.count '.' ≠ 2) ∧
    ((Parse x t now jwtStr options).2.1 = ValidationErrorMalformed →
      (Parse x t now jwtStr options).1 = Token.zero ∧
        (Parse x t now jwtStr options).2.2 ≠ none) ∧
    (Parse x t now "" options).2.1 = ValidationErrorMalformed ∧
    ((stringsSplit jwtStr '.').length = 2 →
      (Parse x t now jwtStr options).2.1 = ValidationErrorMalformed) := by
  have hlen : (stringsSplit jwtStr '.').length = jwtStr.data.count '.' + 1 := by
    simp [stringsSplit, splitChars_length]
  have hmal : ∀ s : String, (stringsSplit s '.').length ≠ 3 →
      (Parse x t now s options).2.1 = ValidationErrorMalformed := by
    intro s hs
    rw [Parse_of_not_three hs]
  refine ⟨⟨?_, hmal jwtStr⟩, ?_, ?_, hmal "" (by decide), ?_⟩
  · intro hk hl
    obtain ⟨p0, p1, p2, hs⟩ := length_three hl
    rcases Parse_outcome x t now jwtStr options with ⟨hl', _⟩ | ⟨q0, q1, q2, _, hP⟩
    · exact hl' hl
    rcases hP with ⟨e, _, hP⟩ | ⟨h, _, hP⟩
    · rw [hP] at hk; simp only at hk; exact absurd hk (by decide)
    rcases hP with ⟨e, _, hP⟩ | ⟨c, _, hP⟩
    · rw [hP] at hk; simp only at hk; exact absurd hk (by decide)
    · rw [hP] at hk; exact finish_kind_ne.1 hk
  · rw [hlen]; omega
  · intro hk
    rcases Parse_shape x t now jwtStr options with ⟨tok, hP⟩ | ⟨k, e, _, hP⟩
    · rw [hP] at hk; simp only at hk; exact absurd hk (by decide)
    · rw [hP]; exact ⟨rfl, by simp⟩
  · intro h2
    exact hmal jwtStr (by omega)

/-- C7, as stated, fails.  The first segment of the first string holds a line feed,
which is not in the base64url alphabet, so the segment is not valid unpadded
base64url; the codec skips the byte, the segment decodes to `plainHeaders`, and `Parse`
accepts the token instead of returning `HeadersMalformed`.  Likewise the second string,
whose second segment holds a line feed, is accepted instead of `ClaimsMalformed`. -/
theorem C7_counterexample :
    stringsSplit "eyJhbGci\nOiJIUzI1NiJ9.eyJleHAiOjk5fQ.q8lb" '.' =
      ["eyJhbGci\nOiJIUzI1NiJ9", "eyJleHAiOjk5fQ", "q8lb"] ∧
    '\n' ∉ encodeURL.data ∧
    ¬ ValidUnpaddedBase64URL "eyJhbGci\nOiJIUzI1NiJ9".data ∧
    Parse sampleCollaborators sampleJwt ⟨50, by decide⟩
        "eyJhbGci\nOiJIUzI1NiJ9.eyJleHAiOjk5fQ.q8lb" [] =
      (⟨plainHeaders, plainClaims, "q8lb"⟩, "", none) ∧
    stringsSplit "eyJhbGciOiJIUzI1NiJ9.eyJleHAi\nOjk5fQ.q8lb" '.' =
      ["eyJhbGciOiJIUzI1NiJ9", "eyJleHAi\nOjk5fQ", "q8lb"] ∧
    ¬ ValidUnpaddedBase64URL "eyJleHAi\nOjk5fQ".data ∧
    Parse sampleCollaborators sampleJwt ⟨50, by decide⟩
        "eyJhbGciOiJIUzI1NiJ9.eyJleHAi\nOjk5fQ.q8lb" [] =
      (⟨plainHeaders, plainClaims, "q8lb"⟩, "", none) := by
  refine ⟨by decide, by decide, by decide, by decide, by decide, by decide, by decide⟩

/-- C7, amended.  `Parse` returns the kind `HeadersMalformed` exactly when the string
has three segments and the first, once its CR and LF bytes are dropped, is not valid
unpadded base64url (a byte outside the alphabet, or a length of 1 modulo 4), or the
bytes it decodes to do not deserialise into a header; it returns `ClaimsMalformed`
exactly when the string has three segments, the first decodes, and the second, once
its CR and LF bytes are dropped, is not valid unpadded base64url or the bytes it
decodes to do not deserialise into claims.  So when both segments are undecodable the
kind is `HeadersMalformed`.  No switch of the configuration occurs in these
conditions, and the error returned is the error of the codec or of the deserialiser. -/
theorem C7_decode_failures_amended (x : Collaborators) (t : jwt) (now : GoInt64) (jwtStr : String)
    (options : List ParseOptions) :
    ((Parse x t now jwtStr options).2.1 = ValidationErrorHeadersMalformed ↔
      ∃ p0 p1 p2, stringsSplit jwtStr '.' = [p0, p1, p2] ∧ HeaderUndecodable x p0) ∧
    ((Parse x t now jwtStr options).2.1 = ValidationErrorClaimsMalformed ↔
      ∃ p0 p1 p2, stringsSplit jwtStr '.' = [p0, p1, p2] ∧ ¬ HeaderUndecodable x p0 ∧
        ClaimsUndecodable x p1) ∧
    (∀ p0 p1 p2, stringsSplit jwtStr '.' = [p0, p1, p2] → HeaderUndecodable x p0 →
      ClaimsUndecodable x p1 →
      (Parse x t now jwtStr options).2.1 = ValidationErrorHeadersMalformed) ∧
    (∀ p0 p1 p2 err, stringsSplit jwtStr '.' = [p0, p1, p2] → decodeHeaders x p0 = .error err →
      Parse x t now jwtStr options = (Token.zero, ValidationErrorHeadersMalformed, some err)) ∧
    (∀ p0 p1 p2 h err, stringsSplit jwtStr '.' = [p0, p1, p2] → decodeHeaders x p0 = .ok h →
      decodeClaims x p1 = .error err →
      Parse x t now jwtStr options = (Token.zero, ValidationErrorClaimsMalformed, some err)) := by
  have hH : ∀ p0 p1 p2, stringsSplit jwtStr '.' = [p0, p1, p2] → HeaderUndecodable x p0 →
      (Parse x t now jwtStr options).2.1 = ValidationErrorHeadersMalformed := by
    intro p0 p1 p2 hs hu
    obtain ⟨e, he⟩ := (decodeHeaders_error_iff x p0).2 hu
    rw [Parse_of_headers_error hs he]
  refine ⟨⟨?_, fun ⟨p0, p1, p2, hs, hu⟩ => hH p0 p1 p2 hs hu⟩, ⟨?_, ?_⟩,
    fun p0 p1 p2 hs hu _ => hH p0 p1 p2 hs hu,
    fun p0 p1 p2 err hs hh => Parse_of_headers_error hs hh,
    fun p0 p1 p2 h err hs hh hc => Parse_of_claims_error hs hh hc⟩
  · intro hk
    rcases Parse_outcome x t now jwtStr options with ⟨_, hP⟩ | ⟨p0, p1, p2, hs, hP⟩
    · rw [hP] at hk; simp only at hk; exact absurd hk (by decide)
    rcases hP with ⟨e, he, hP⟩ | ⟨h, _, hP⟩
    · exact ⟨p0, p1, p2, hs, (decodeHeaders_error_iff x p0).1 ⟨e, he⟩⟩
    rcases hP with ⟨e, _, hP⟩ | ⟨c, _, hP⟩
    · rw [hP] at hk; simp only at hk; exact absurd hk (by decide)
    · rw [hP] at hk; exact absurd hk finish_kind_ne.2.1
  · intro hk
    rcases Parse_outcome x t now jwtStr options with ⟨_, hP⟩ | ⟨p0, p1, p2, hs, hP⟩
    · rw [hP] at hk; simp only at hk; exact absurd hk (by decide)
    rcases hP with ⟨e, he, hP⟩ | ⟨h, hh, hP⟩
    · rw [hP] at hk; simp only at hk; exact absurd hk (by decide)
    rcases hP with ⟨e, he, hP⟩ | ⟨c, _, hP⟩
    · refine ⟨p0, p1, p2, hs, ?_, (decodeClaims_error_iff x p1).1 ⟨e, he⟩⟩
      intro hu
      obtain ⟨e', he'⟩ := (decodeHeaders_error_iff x p0).2 hu
      rw [hh] at he'; cases he'
    · rw [hP] at hk; exact absurd hk finish_kind_ne.2.2
  · rintro ⟨p0, p1, p2, hs, hnu, hu⟩
    cases hh : decodeHeaders x p0 with
    | error e => exact absurd ((decodeHeaders_error_iff x p0).1 ⟨e, hh⟩) hnu
    | ok h =>
      obtain ⟨e, he⟩ := (decodeClaims_error_iff x p1).2 hu
      rw [Parse_of_claims_error hs hh he]

/-! ### C8, C9 and C10 -/

/-- `Parse` once the signature stage has passed. -/
theorem Parse_of_passes {x : Collaborators} {t : jwt} {now : GoInt64} {jwtStr : String}
    {options : List ParseOptions} {p0 p1 p2 : String} {h : Headers} {c : Claims}
    (hs : stringsSplit jwtStr '.' = [p0, p1, p2]) (hh : decodeHeaders x p0 = .ok h)
    (hc : decodeClaims x p1 = .ok c)
    (hsig : SignatureStagePasses x t.config.Key (effectiveOptions t options) ⟨h, c, p2⟩) :
    Parse x t now jwtStr options =
      finish ⟨h, c, p2⟩ (laterFailure x now (effectiveOptions t options) ⟨h, c, p2⟩) := by
  rw [Parse_of_decoded hs hh hc, validationFailure_of_passes_later hsig]

/-- C8: order and short-circuit of the required-field checks.  For a token that passes
splitting, decoding and the signature stage (skipped or verified): if a check of the
fixed list has its switch on and its field empty, `Parse` fails with the kind of the
first such check, with `Token{}` and `errTokenIsInvalid`, whatever the times, the clock
and the claims switch are; if there is no such check, `Parse` returns none of the
eight kinds of these checks. -/
theorem C8_structural_order (x : Collaborators) (t : jwt) (now : GoInt64) (jwtStr : String)
    (options : List ParseOptions) (p0 p1 p2 : String) (h : Headers) (c : Claims)
    (hs : stringsSplit jwtStr '.' = [p0, p1, p2]) (hh : decodeHeaders x p0 = .ok h)
    (hc : decodeClaims x p1 = .ok c)
    (hsig : SignatureStagePasses x t.config.Key (effectiveOptions t options) ⟨h, c, p2⟩) :
    (∀ k, firstFailingCheck (effectiveOptions t options) h c = some k →
      Parse x t now jwtStr options = (Token.zero, k, some x.errTokenIsInvalid)) ∧
    (firstFailingCheck (effectiveOptions t options) h c = none →
      (Parse x t now jwtStr options).2.1 ∉ structuralKinds) := by
  rw [Parse_of_passes hs hh hc hsig]
  unfold laterFailure
  rw [structuralFailure_eq]
  constructor
  · intro k hk
    simp only [hk, Option.map_some', finish]
  · intro hk
    simp only [hk, Option.map_none']
    split
    · cases ht : temporalFailure x now ⟨h, c, p2⟩ with
      | none => simp only [finish]; decide
      | some f =>
        obtain ⟨k, e⟩ := f
        obtain ⟨hk', _⟩ := temporalFailure_kind ht
        simp only [finish]
        rcases hk' with rfl | rfl | rfl <;> decide
    · simp only [finish]; decide

/-- C8 at the sample token `plainToken` with the key id, the issuer and the data
required: the first failing check is the one of the key id. -/
theorem C8_structural_order_witness :
    Parse sampleCollaborators sampleJwt ⟨50, by decide⟩ plainToken [someRequired] =
      (Token.zero, ValidationErrorHeadersKeyId, some sampleCollaborators.errTokenIsInvalid) :=
  (C8_structural_order sampleCollaborators sampleJwt ⟨50, by decide⟩ plainToken [someRequired]
    "eyJhbGciOiJIUzI1NiJ9" "eyJleHAiOjk5fQ" "q8lb" plainHeaders plainClaims
    (by decide) (by decide) (by decide) (by decide)).1 ValidationErrorHeadersKeyId (by decide)

/-- C9: the checks of the times.  For a token that passes splitting, decoding, the
signature stage (skipped or verified) and every enabled required-field check, with
`SkipClaimsValidation` false, the result is `ClaimsExpired` if `now > ExpirationTime`;
otherwise `ClaimsNotValidYet` if `NotBefore != 0` and `now < NotBefore`; otherwise
`ClaimsIssuedAt` if `now < IssuedAt`; otherwise success.  So `now = ExpirationTime`,
`now = NotBefore` and `now = IssuedAt` are accepted by their checks, and a token with
`ExpirationTime = 0` is `ClaimsExpired` for every `now > 0`. -/
theorem C9_temporal_reference (x : Collaborators) (t : jwt) (now : GoInt64) (jwtStr : String)
    (options : List ParseOptions) (p0 p1 p2 : String) (h : Headers) (c : Claims)
    (hs : stringsSplit jwtStr '.' = [p0, p1, p2]) (hh : decodeHeaders x p0 = .ok h)
    (hc : decodeClaims x p1 = .ok c)
    (hsig : SignatureStagePasses x t.config.Key (effectiveOptions t options) ⟨h, c, p2⟩)
    (hreq : RequiredFieldsPresent (effectiveOptions t options) h c)
    (hsc : (effectiveOptions t options).SkipClaimsValidation = false) :
    Parse x t now jwtStr options =
      (if now.val > c.ExpirationTime.val then
        (Token.zero, ValidationErrorClaimsExpired, some x.errTokenIsInvalid)
      else if c.NotBefore.val ≠ 0 ∧ now.val < c.NotBefore.val then
        (Token.zero, ValidationErrorClaimsNotValidYet, some x.errTokenIsInvalid)
      else if now.val < c.IssuedAt.val then
        (Token.zero, ValidationErrorClaimsIssuedAt, some x.errTokenIsInvalid)
      else (⟨h, c, p2⟩, "", none)) ∧
    (now.val = c.ExpirationTime.val →
      (Parse x t now jwtStr options).2.1 ≠ ValidationErrorClaimsExpired) ∧
    (now.val = c.NotBefore.val →
      (Parse x t now jwtStr options).2.1 ≠ ValidationErrorClaimsNotValidYet) ∧
    (now.val = c.IssuedAt.val →
      (Parse x t now jwtStr options).2.1 ≠ ValidationErrorClaimsIssuedAt) ∧
    (now.val = c.ExpirationTime.val → now.val = c.NotBefore.val → now.val = c.IssuedAt.val →
      Parse x t now jwtStr options = (⟨h, c, p2⟩, "", none)) ∧
    (c.ExpirationTime.val = 0 → now.val > 0 →
      Parse x t now jwtStr options =
        (Token.zero, ValidationErrorClaimsExpired, some x.errTokenIsInvalid)) := by
  have hP : Parse x t now jwtStr options =
      (if now.val > c.ExpirationTime.val then
        (Token.zero, ValidationErrorClaimsExpired, some x.errTokenIsInvalid)
      else if c.NotBefore.val ≠ 0 ∧ now.val < c.NotBefore.val then
        (Token.zero, ValidationErrorClaimsNotValidYet, some x.errTokenIsInvalid)
      else if now.val < c.IssuedAt.val then
        (Token.zero, ValidationErrorClaimsIssuedAt, some x.errTokenIsInvalid)
      else (⟨h, c, p2⟩, "", none)) := by
    rw [Parse_of_passes hs hh hc hsig]
    unfold laterFailure
    rw [(structuralFailure_eq_none_iff x _ ⟨h, c, p2⟩).2 hreq]
    simp only [hsc, if_true, temporalFailure]
    split_ifs <;> rfl
  refine ⟨hP, ?_, ?_, ?_, ?_, ?_⟩
  · intro he
    rw [hP]
    have n1 : ¬ now.val > c.ExpirationTime.val := by omega
    simp only [if_neg n1]
    split_ifs <;> simp only [] <;> decide
  · intro he
    rw [hP]
    have n2 : ¬ (c.NotBefore.val ≠ 0 ∧ now.val < c.NotBefore.val) := by
      intro hh'; omega
    simp only [if_neg n2]
    split_ifs <;> simp only [] <;> decide
  · intro he
    rw [hP]
    have n3 : ¬ now.val < c.IssuedAt.val := by omega
    simp only [if_neg n3]
    split_ifs <;> simp only [] <;> decide
  · intro e1 e2 e3
    rw [hP]
    have n1 : ¬ now.val > c.ExpirationTime.val := by omega
    have n2 : ¬ (c.NotBefore.val ≠ 0 ∧ now.val < c.NotBefore.val) := by
      intro hh'; omega
    have n3 : ¬ now.val < c.IssuedAt.val := by omega
    simp only [if_neg n1, if_neg n2, if_neg n3]
  · intro e0 hpos
    rw [hP]
    have p1 : now.val > c.ExpirationTime.val := by omega
    simp only [if_pos p1]

/-- C9 at the sample token `fullToken` (issued at 10, valid from 20 to 99), clock 15:
not expired, but not valid yet. -/
theorem C9_temporal_reference_witness :
    Parse sampleCollaborators sampleJwt ⟨15, by decide⟩ fullToken [allRequired] =
      (Token.zero, ValidationErrorClaimsNotValidYet, some sampleCollaborators.errTokenIsInvalid) :=
  (C9_temporal_reference sampleCollaborators sampleJwt ⟨15, by decide⟩ fullToken [allRequired]
    "eyJhbGciOiJIUzI1NiIsImN0eSI6IkpXVCIsImtpZCI6ImsxIiwiY3JpdCI6ImV4cCJ9"
    ("eyJpc3MiOiJpc3N1ZXIiLCJzdWIiOiJzdWJqZWN0IiwiYXVkIjoiYXVkaWVuY2UiLCJqdGkiOiJpZDEiLCJpYXQiOjEw" ++
      "LCJuYmYiOjIwLCJleHAiOjk5LCJkYXRhIjp7InJvbGUiOiJhZG1pbiJ9fQ")
    "ODCc" fullHeaders fullClaims
    (by decide) (by decide) (by decide) (by decide) (by decide) (by decide)).1

/-- C10, as stated, fails.  `plainToken` is well formed and correctly signed (it is
accepted at clock 50) and expires at 99.  At clock 100, with `SkipClaimsValidation`
false and the issuer required, `Parse` returns `ClaimsIssuer`, not `ClaimsExpired`:
the required-field checks come before the checks of the times. -/
theorem C10_counterexample :
    Parse sampleCollaborators sampleJwt ⟨50, by decide⟩ plainToken [] =
      (⟨plainHeaders, plainClaims, "q8lb"⟩, "", none) ∧
    plainClaims.ExpirationTime.val < 100 ∧
    issuerRequired.SkipClaimsValidation = false ∧
    Parse sampleCollaborators sampleJwt ⟨100, by decide⟩ plainToken [issuerRequired] =
      (Token.zero, ValidationErrorClaimsIssuer, some sampleCollaborators.errTokenIsInvalid) ∧
    ValidationErrorClaimsIssuer ≠ ValidationErrorClaimsExpired := by
  refine ⟨by decide, by decide, by decide, by decide, by decide⟩

/-- C10, amended.  For a token that decodes and passes the signature stage (skipped or
verified) and whose `ExpirationTime` is less than `now`, and for every configuration
with `SkipClaimsValidation` false in which every required field is present in the
token, `Parse` fails with `ClaimsExpired`. -/
theorem C10_expired_amended (x : Collaborators) (t : jwt) (now : GoInt64) (jwtStr : String)
    (options : List ParseOptions) (p0 p1 p2 : String) (h : Headers) (c : Claims)
    (hs : stringsSplit jwtStr '.' = [p0, p1, p2]) (hh : decodeHeaders x p0 = .ok h)
    (hc : decodeClaims x p1 = .ok c)
    (hsig : SignatureStagePasses x t.config.Key (effectiveOptions t options) ⟨h, c, p2⟩)
    (hreq : RequiredFieldsPresent (effectiveOptions t options) h c)
    (hsc : (effectiveOptions t options).SkipClaimsValidation = false)
    (hexp : c.ExpirationTime.val < now.val) :
    Parse x t now jwtStr options =
      (Token.zero, ValidationErrorClaimsExpired, some x.errTokenIsInvalid) := by
  rw [Parse_of_passes hs hh hc hsig]
  unfold laterFailure
  rw [(structuralFailure_eq_none_iff x _ ⟨h, c, p2⟩).2 hreq]
  have p1 : now.val > c.ExpirationTime.val := hexp
  simp only [hsc, if_true, temporalFailure, if_pos p1, finish]

/-- C10 at the sample token `fullToken`, which expires at 99, at clock 100 with every
field required. -/
theorem C10_expired_amended_witness :
    Parse sampleCollaborators sampleJwt ⟨100, by decide⟩ fullToken [allRequired] =
      (Token.zero, ValidationErrorClaimsExpired, some sampleCollaborators.errTokenIsInvalid) :=
  C10_expired_amended sampleCollaborators sampleJwt ⟨100, by decide⟩ fullToken [allRequired]
    "eyJhbGciOiJIUzI1NiIsImN0eSI6IkpXVCIsImtpZCI6ImsxIiwiY3JpdCI6ImV4cCJ9"
    ("eyJpc3MiOiJpc3N1ZXIiLCJzdWIiOiJzdWJqZWN0IiwiYXVkIjoiYXVkaWVuY2UiLCJqdGkiOiJpZDEiLCJpYXQiOjEw" ++
      "LCJuYmYiOjIwLCJleHAiOjk5LCJkYXRhIjp7InJvbGUiOiJhZG1pbiJ9fQ")
    "ODCc" fullHeaders fullClaims
    (by decide) (by decide) (by decide) (by decide) (by decide) (by decide) (by decide)

/-! ### The kinds of C2, C6 and C7 on sample strings -/

/-- C2 at a sample token whose header names the algorithm `XS256`, which the sample
signer does not know: the kind is `Unverifiable`. -/
theorem C2_signature_stage_witness :
    (Parse sampleCollaborators sampleJwt ⟨50, by decide⟩
      "eyJhbGciOiJYUzI1NiJ9.eyJleHAiOjk5fQ.q8lb" []).2.1 = ValidationErrorUnverifiable :=
  (C2_signature_stage sampleCollaborators sampleJwt ⟨50, by decide⟩
    "eyJhbGciOiJYUzI1NiJ9.eyJleHAiOjk5fQ.q8lb" []).1.2
    ⟨"eyJhbGciOiJYUzI1NiJ9", "eyJleHAiOjk5fQ", "q8lb", ⟨"XS256", "", "", ""⟩, plainClaims,
      by decide, by decide, by decide, by decide,
      Or.inr (Or.inr ⟨"eyJhbGciOiJYUzI1NiJ9", "eyJleHAiOjk5fQ", ⟨"unknown algorithm"⟩,
        by decide, by decide, by decide⟩)⟩

/-- C6 at the two-segment string `a.b`: the kind is `Malformed`. -/
theorem C6_malformed_iff_witness :
    (Parse sampleCollaborators sampleJwt ⟨50, by decide⟩ "a.b" []).2.1 =
      ValidationErrorMalformed :=
  (C6_malformed_iff sampleCollaborators sampleJwt ⟨50, by decide⟩ "a.b" []).2.2.2.2 (by decide)

/-- C7 at a sample string whose first segment `!` is outside the alphabet: the kind is
`HeadersMalformed`, although the second segment `?` is outside the alphabet too. -/
theorem C7_decode_failures_amended_witness :
    (Parse sampleCollaborators sampleJwt ⟨50, by decide⟩ "!.?.q8lb" []).2.1 =
      ValidationErrorHeadersMalformed :=
  (C7_decode_failures_amended sampleCollaborators sampleJwt ⟨50, by decide⟩ "!.?.q8lb"
    []).2.2.1 "!" "?" "q8lb" (by decide) (Or.inl (by decide)) (Or.inl (by decide))

/-! ### C11, C12 and C13 -/

/-- `Parse` once the signature stage and the required-field checks have passed. -/
theorem Parse_of_required {x : Collaborators} {t : jwt} {now : GoInt64} {jwtStr : String}
    {options : List ParseOptions} {p0 p1 p2 : String} {h : Headers} {c : Claims}
    (hs : stringsSplit jwtStr '.' = [p0, p1, p2]) (hh : decodeHeaders x p0 = .ok h)
    (hc : decodeClaims x p1 = .ok c)
    (hsig : SignatureStagePasses x t.config.Key (effectiveOptions t options) ⟨h, c, p2⟩)
    (hreq : RequiredFieldsPresent (effectiveOptions t options) h c) :
    Parse x t now jwtStr options =
      finish ⟨h, c, p2⟩
        (if (effectiveOptions t options).SkipClaimsValidation = false then
          temporalFailure x now ⟨h, c, p2⟩ else none) := by
  rw [Parse_of_passes hs hh hc hsig]
  unfold laterFailure
  rw [(structuralFailure_eq_none_iff x _ ⟨h, c, p2⟩).2 hreq]

/-- C11, as stated, fails.  `lateToken` is correctly signed, requires nothing and has
`NotBefore = 200` and `ExpirationTime = 99`: at clock 150 its `NotBefore` is greater
than `now`, and `Parse` returns `ClaimsExpired`, because the expiration is checked
first.  `plainToken` has `NotBefore = 0`, which is greater than the clock -5, and
`Parse` returns `ClaimsIssuedAt`: a zero `NotBefore` is never checked. -/
theorem C11_counterexample :
    decodeClaims wideCollaborators "eyJuYmYiOjIwMCwiZXhwIjo5OX0" = .ok lateClaims ∧
    recomputedSignature wideCollaborators "secret" plainHeaders lateClaims = .ok "o9st" ∧
    lateClaims.NotBefore.val > 150 ∧
    (effectiveOptions sampleJwt []).SkipClaimsValidation = false ∧
    Parse wideCollaborators sampleJwt ⟨150, by decide⟩ lateToken [] =
      (Token.zero, ValidationErrorClaimsExpired, some wideCollaborators.errTokenIsInvalid) ∧
    decodeClaims wideCollaborators "eyJleHAiOjk5fQ" = .ok plainClaims ∧
    recomputedSignature wideCollaborators "secret" plainHeaders plainClaims = .ok "q8lb" ∧
    plainClaims.NotBefore.val > -5 ∧
    Parse wideCollaborators sampleJwt ⟨-5, by decide⟩ plainToken [] =
      (Token.zero, ValidationErrorClaimsIssuedAt, some wideCollaborators.errTokenIsInvalid) := by
  refine ⟨by decide, by decide, by decide, by decide, by decide, by decide, by decide,
    by decide, by decide⟩

/-- C11, amended.  For a token that decodes, passes the signature stage (skipped or
verified) and every enabled required-field check, and has `NotBefore > now` with
`NotBefore != 0` and `now <= ExpirationTime`, with `SkipClaimsValidation` false, `Parse`
fails with `ClaimsNotValidYet`, for every value of `IssuedAt`. -/
theorem C11_not_valid_yet_amended (x : Collaborators) (t : jwt) (now : GoInt64)
    (jwtStr : String) (options : List ParseOptions) (p0 p1 p2 : String) (h : Headers)
    (c : Claims)
    (hs : stringsSplit jwtStr '.' = [p0, p1, p2]) (hh : decodeHeaders x p0 = .ok h)
    (hc : decodeClaims x p1 = .ok c)
    (hsig : SignatureStagePasses x t.config.Key (effectiveOptions t options) ⟨h, c, p2⟩)
    (hreq : RequiredFieldsPresent (effectiveOptions t options) h c)
    (hsc : (effectiveOptions t options).SkipClaimsValidation = false)
    (hnbf : c.NotBefore.val > now.val) (hnz : c.NotBefore.val ≠ 0)
    (hexp : now.val ≤ c.ExpirationTime.val) :
    Parse x t now jwtStr options =
      (Token.zero, ValidationErrorClaimsNotValidYet, some x.errTokenIsInvalid) := by
  rw [Parse_of_required hs hh hc hsig hreq]
  have n1 : ¬ now.val > c.ExpirationTime.val := by omega
  have p2' : c.NotBefore.val ≠ 0 ∧ now.val < c.NotBefore.val := ⟨hnz, hnbf⟩
  simp only [hsc, if_true, temporalFailure, if_neg n1, if_pos p2', finish]

/-- C11 at the sample token `lateToken` (not valid before 200, expiring at 99), clock 50. -/
theorem C11_not_valid_yet_amended_witness :
    Parse wideCollaborators sampleJwt ⟨50, by decide⟩ lateToken [] =
      (Token.zero, ValidationErrorClaimsNotValidYet, some wideCollaborators.errTokenIsInvalid) :=
  C11_not_valid_yet_amended wideCollaborators sampleJwt ⟨50, by decide⟩ lateToken []
    "eyJhbGciOiJIUzI1NiJ9" "eyJuYmYiOjIwMCwiZXhwIjo5OX0" "o9st" plainHeaders lateClaims
    (by decide) (by decide) (by decide) (by decide) (by decide) (by decide) (by decide)
    (by decide) (by decide)

/-- With `NotBefore = 0` the check of `NotBefore` does nothing. -/
theorem temporalFailure_of_notBefore_zero (x : Collaborators) (now : GoInt64) (token : Token)
    (hz : token.Claims.NotBefore.val = 0) :
    temporalFailure x now token = temporalFailureWithoutNotBefore x now token := by
  have n : ¬ (token.Claims.NotBefore.val ≠ 0 ∧ now.val < token.Claims.NotBefore.val) :=
    fun hh => hh.1 hz
  simp only [temporalFailure, temporalFailureWithoutNotBefore, if_neg n]

/-- C12: `NotBefore = 0` is an unset sentinel.  For a token whose second segment
decodes to claims with `NotBefore = 0`, for every configuration, key and clock value
(negative ones included), `Parse` does not return `ClaimsNotValidYet`, and its result
is the result of the same pipeline with the check of `NotBefore` removed. -/
theorem C12_not_before_sentinel (x : Collaborators) (t : jwt) (now : GoInt64) (jwtStr : String)
    (options : List ParseOptions) (p0 p1 p2 : String) (c : Claims)
    (hs : stringsSplit jwtStr '.' = [p0, p1, p2]) (hc : decodeClaims x p1 = .ok c)
    (hz : c.NotBefore.val = 0) :
    (Parse x t now jwtStr options).2.1 ≠ ValidationErrorClaimsNotValidYet ∧
    Parse x t now jwtStr options = ParseWithoutNotBefore x t now jwtStr options := by
  have hEq : Parse x t now jwtStr options = ParseWithoutNotBefore x t now jwtStr options := by
    rw [Parse_eq]
    unfold ParseWithoutNotBefore
    simp only [hs, hc]
    cases hh : decodeHeaders x p0 with
    | error e => rfl
    | ok h =>
      simp only [validationFailure]
      rw [temporalFailure_of_notBefore_zero x now ⟨h, c, p2⟩ hz]
  refine ⟨?_, hEq⟩
  rcases Parse_outcome x t now jwtStr options with ⟨_, hP⟩ | ⟨q0, q1, q2, hs', hP⟩
  · rw [hP]; decide
  rw [hs] at hs'
  simp only [List.cons.injEq, and_true] at hs'
  obtain ⟨rfl, rfl, rfl⟩ := hs'
  rcases hP with ⟨e, _, hP⟩ | ⟨h, hh, hP⟩
  · rw [hP]; simp only []; decide
  rcases hP with ⟨e, _, hP⟩ | ⟨c', hc', hP⟩
  · rw [hP]; simp only []; decide
  rw [hc] at hc'
  cases hc'
  rw [hP]
  rcases validationFailure_outcome x t now jwtStr (effectiveOptions t options) ⟨h, c, p2⟩ with
    ⟨_, e, _, hv⟩ | ⟨_, sg, e, _, _, hv⟩ | ⟨_, k, hk, hv⟩ | ⟨_, _, _, k, hk, ht, hv⟩ |
    ⟨_, _, _, hv⟩
  · rw [hv]; simp only [finish]; decide
  · rw [hv]; simp only [finish]; decide
  · rw [hv]
    exact (structuralKinds_ne (firstFailingCheck_mem hk)).2.2.2.2.2.2.2.1
  · rw [hv]
    rw [temporalFailure_of_notBefore_zero x now ⟨h, c, p2⟩ hz] at ht
    unfold temporalFailureWithoutNotBefore at ht
    split_ifs at ht <;> cases ht <;> simp only [finish] <;> decide
  · rw [hv]; simp only [finish]; decide

/-- C12 at the sample token `plainToken`, whose `NotBefore` is 0, at the clock -5. -/
theorem C12_not_before_sentinel_witness :
    (Parse sampleCollaborators sampleJwt ⟨-5, by decide⟩ plainToken []).2.1 ≠
      ValidationErrorClaimsNotValidYet ∧
    Parse sampleCollaborators sampleJwt ⟨-5, by decide⟩ plainToken [] =
      ParseWithoutNotBefore sampleCollaborators sampleJwt ⟨-5, by decide⟩ plainToken [] :=
  C12_not_before_sentinel sampleCollaborators sampleJwt ⟨-5, by decide⟩ plainToken []
    "eyJhbGciOiJIUzI1NiJ9" "eyJleHAiOjk5fQ" "q8lb" plainClaims (by decide) (by decide)
    (by decide)

/-- The stages after the signature block with the checks of the times skipped. -/
theorem laterFailure_of_skipClaims {x : Collaborators} {now : GoInt64} {o : ParseOptions}
    {token : Token} (hsc : o.SkipClaimsValidation = true) :
    laterFailure x now o token =
      (firstFailingCheck o token.Headers token.Claims).map (fun k => (k, x.errTokenIsInvalid)) := by
  unfold laterFailure
  rw [structuralFailure_eq]
  cases firstFailingCheck o token.Headers token.Claims with
  | some k => rfl
  | none => simp [hsc]

/-- With the checks of the times skipped no stage reads the clock. -/
theorem validationFailure_of_skipClaims {x : Collaborators} {t : jwt} (now now' : GoInt64)
    {jwtStr : String} {o : ParseOptions} {token : Token}
    (hsc : o.SkipClaimsValidation = true) :
    validationFailure x t now jwtStr o token = validationFailure x t now' jwtStr o token := by
  simp [validationFailure, hsc]

/-- C13: `SkipClaimsValidation` skips the checks of the times and nothing else.  With
`SkipClaimsValidation` true, `Parse` returns none of `ClaimsExpired`,
`ClaimsNotValidYet`, `ClaimsIssuedAt`; its result is the same for every clock value; a
token that decodes and passes the signature stage (skipped or verified) and every
enabled required-field check is returned as success, whatever its three times are;
and a token that fails an enabled required-field check fails with the kind of the
first such check. -/
theorem C13_skip_claims (x : Collaborators) (t : jwt) (now : GoInt64) (jwtStr : String)
    (options : List ParseOptions)
    (hsc : (effectiveOptions t options).SkipClaimsValidation = true) :
    (Parse x t now jwtStr options).2.1 ∉
      [ValidationErrorClaimsExpired, ValidationErrorClaimsNotValidYet,
        ValidationErrorClaimsIssuedAt] ∧
    (∀ now' : GoInt64, Parse x t now' jwtStr options = Parse x t now jwtStr options) ∧
    (∀ p0 p1 p2 h c, stringsSplit jwtStr '.' = [p0, p1, p2] → decodeHeaders x p0 = .ok h →
      decodeClaims x p1 = .ok c →
      SignatureStagePasses x t.config.Key (effectiveOptions t options) ⟨h, c, p2⟩ →
      RequiredFieldsPresent (effectiveOptions t options) h c →
      Parse x t now jwtStr options = (⟨h, c, p2⟩, "", none)) ∧
    (∀ p0 p1 p2 h c k, stringsSplit jwtStr '.' = [p0, p1, p2] → decodeHeaders x p0 = .ok h →
      decodeClaims x p1 = .ok c →
      SignatureStagePasses x t.config.Key (effectiveOptions t options) ⟨h, c, p2⟩ →
      firstFailingCheck (effectiveOptions t options) h c = some k →
      Parse x t now jwtStr options = (Token.zero, k, some x.errTokenIsInvalid)) := by
  refine ⟨?_, ?_, ?_, ?_⟩
  · rcases Parse_outcome x t now jwtStr options with ⟨_, hP⟩ | ⟨p0, p1, p2, hs, hP⟩
    · rw [hP]; decide
    rcases hP with ⟨e, _, hP⟩ | ⟨h, hh, hP⟩
    · rw [hP]; simp only []; decide
    rcases hP with ⟨e, _, hP⟩ | ⟨c, hc, hP⟩
    · rw [hP]; simp only []; decide
    rw [hP]
    rcases validationFailure_outcome x t now jwtStr (effectiveOptions t options) ⟨h, c, p2⟩ with
      ⟨_, e, _, hv⟩ | ⟨_, sg, e, _, _, hv⟩ | ⟨_, k, hk, hv⟩ | ⟨_, _, hf, _⟩ | ⟨_, _, _, hv⟩
    · rw [hv]; simp only [finish]; decide
    · rw [hv]; simp only [finish]; decide
    · rw [hv]
      obtain ⟨_, _, _, _, _, _, h7, h8, h9⟩ := structuralKinds_ne (firstFailingCheck_mem hk)
      simp only [finish, List.mem_cons, List.mem_singleton, List.not_mem_nil, or_false]
      rintro (h | h | h)
      · exact h7 h
      · exact h8 h
      · exact h9 h
    · rw [hsc] at hf; cases hf
    · rw [hv]; simp only [finish]; decide
  · intro now'
    rw [Parse_eq, Parse_eq]
    split
    · rename_i p0 p1 p2 hs
      cases decodeHeaders x p0 with
      | error e => rfl
      | ok h =>
        cases decodeClaims x p1 with
        | error e => rfl
        | ok c =>
          simp only []
          rw [validationFailure_of_skipClaims now' now hsc]
    · rfl
  · intro p0 p1 p2 h c hs hh hc hsig hreq
    rw [Parse_of_required hs hh hc hsig hreq]
    simp [hsc, finish]
  · intro p0 p1 p2 h c k hs hh hc hsig hk
    rw [Parse_of_passes hs hh hc hsig, laterFailure_of_skipClaims hsc]
    simp only [hk, Option.map_some', finish]

/-- C13 at the sample token `plainToken`, which expires at 99, with the checks of the
times skipped, at clock 1000: the same success as at clock 50. -/
theorem C13_skip_claims_witness :
    Parse sampleCollaborators sampleJwt ⟨1000, by decide⟩ plainToken
        [⟨false, true, false, false, false, false, false, false, false, false⟩] =
      (⟨plainHeaders, plainClaims, "q8lb"⟩, "", none) :=
  (C13_skip_claims sampleCollaborators sampleJwt ⟨1000, by decide⟩ plainToken
    [⟨false, true, false, false, false, false, false, false, false, false⟩]
    (by decide)).2.2.1 "eyJhbGciOiJIUzI1NiJ9" "eyJleHAiOjk5fQ" "q8lb" plainHeaders plainClaims
    (by decide) (by decide) (by decide) (by decide) (by decide)

/-! ### C14, C15 and C16 -/

/-- Every failure of `Parse`: the kind, which is one of the sixteen, and the error
that comes with it. -/
theorem Parse_failure_cases (x : Collaborators) (t : jwt) (now : GoInt64) (jwtStr : String)
    (options : List ParseOptions) :
    (∃ token, Parse x t now jwtStr options = (token, "", none)) ∨
    Parse x t now jwtStr options =
      (Token.zero, ValidationErrorMalformed, some (errorfSplit ValidationErrorMalformed)) ∨
    (∃ p0 p1 p2 e, stringsSplit jwtStr '.' = [p0, p1, p2] ∧ decodeHeaders x p0 = .error e ∧
      Parse x t now jwtStr options = (Token.zero, ValidationErrorHeadersMalformed, some e)) ∨
    (∃ p0 p1 p2 e, stringsSplit jwtStr '.' = [p0, p1, p2] ∧ decodeClaims x p1 = .error e ∧
      Parse x t now jwtStr options = (Token.zero, ValidationErrorClaimsMalformed, some e)) ∨
    (∃ e, Parse x t now jwtStr options =
        (Token.zero, ValidationErrorUnverifiable, some (errorfHeadersPart e)) ∨
      Parse x t now jwtStr options =
        (Token.zero, ValidationErrorUnverifiable, some (errorfClaimsPart e)) ∨
      Parse x t now jwtStr options =
        (Token.zero, ValidationErrorUnverifiable, some (errorfSignature e))) ∨
    (∃ sample, Parse x t now jwtStr options =
      (Token.zero, ValidationErrorSignatureInvalid, some (errorfValidate sample jwtStr))) ∨
    (∃ k, (k ∈ structuralKinds ∨ k = ValidationErrorClaimsExpired ∨
        k = ValidationErrorClaimsNotValidYet ∨ k = ValidationErrorClaimsIssuedAt) ∧
      Parse x t now jwtStr options = (Token.zero, k, some x.errTokenIsInvalid)) := by
  rcases Parse_outcome x t now jwtStr options with ⟨_, hP⟩ | ⟨p0, p1, p2, hs, hP⟩
  · exact Or.inr (Or.inl hP)
  rcases hP with ⟨e, he, hP⟩ | ⟨h, hh, hP⟩
  · exact Or.inr (Or.inr (Or.inl ⟨p0, p1, p2, e, hs, he, hP⟩))
  rcases hP with ⟨e, he, hP⟩ | ⟨c, hc, hP⟩
  · exact Or.inr (Or.inr (Or.inr (Or.inl ⟨p0, p1, p2, e, hs, he, hP⟩)))
  rw [hP]
  by_cases hp : SignatureStagePasses x t.config.Key (effectiveOptions t options) ⟨h, c, p2⟩
  · rcases validationFailure_outcome x t now jwtStr (effectiveOptions t options) ⟨h, c, p2⟩ with
      ⟨hsk, e, hr, _⟩ | ⟨hsk, sg, e, hr, hne, _⟩ | ⟨_, k, hk, hv⟩ | ⟨_, _, _, k, hk, _, hv⟩ |
      ⟨_, _, _, hv⟩
    · rcases hp with hp | hp
      · rw [hsk] at hp; cases hp
      · rw [hp] at hr; cases hr
    · rcases hp with hp | hp
      · rw [hsk] at hp; cases hp
      · rw [hp] at hr; cases hr; exact absurd rfl hne
    · rw [hv]
      exact Or.inr (Or.inr (Or.inr (Or.inr (Or.inr (Or.inr
        ⟨k, Or.inl (firstFailingCheck_mem hk), rfl⟩)))))
    · rw [hv]
      exact Or.inr (Or.inr (Or.inr (Or.inr (Or.inr (Or.inr ⟨k, Or.inr hk, rfl⟩)))))
    · rw [hv]; exact Or.inl ⟨_, rfl⟩
  · have hsk : (effectiveOptions t options).SkipSignatureValidation = false := by
      cases h' : (effectiveOptions t options).SkipSignatureValidation with
      | false => rfl
      | true => exact absurd (Or.inl h') hp
    have hv : validationFailure x t now jwtStr (effectiveOptions t options) ⟨h, c, p2⟩ =
        signatureFailure x t jwtStr ⟨h, c, p2⟩ := by
      cases hf : signatureFailure x t jwtStr ⟨h, c, p2⟩ with
      | some f => exact validationFailure_of_signature hsk hf
      | none =>
        exfalso
        rcases signatureFailure_cases x t jwtStr ⟨h, c, p2⟩ with
          ⟨e, _, h2⟩ | ⟨sg, e, _, _, h3⟩ | ⟨h1, _⟩
        · rw [hf] at h2; cases h2
        · rw [hf] at h3; cases h3
        · exact hp (Or.inr h1)
    rw [hv]
    unfold signatureFailure
    cases x.makeHeaderPart h with
    | error e => exact Or.inr (Or.inr (Or.inr (Or.inr (Or.inl ⟨e, Or.inl rfl⟩))))
    | ok hp' =>
      cases x.makeClaimsPart c with
      | error e => exact Or.inr (Or.inr (Or.inr (Or.inr (Or.inl ⟨e, Or.inr (Or.inl rfl)⟩))))
      | ok cp =>
        cases hm : x.makeSignature (hp' ++ "." ++ cp) h.SignatureAlgorithm t.config.Key with
        | error e =>
          simp only [hm]
          exact Or.inr (Or.inr (Or.inr (Or.inr (Or.inl ⟨e, Or.inr (Or.inr rfl)⟩))))
        | ok sg =>
          simp only [hm]
          by_cases hsg : sg = p2
          · simp only [hsg, ne_eq, not_true_eq_false, if_false]
            exact Or.inl ⟨_, rfl⟩
          · simp only [ne_eq, hsg, not_false_eq_true, if_true]
            exact Or.inr (Or.inr (Or.inr (Or.inr (Or.inr (Or.inl ⟨_, rfl⟩)))))

theorem failureKinds_ne_empty : ∀ k ∈ failureKinds, k ≠ "" := by decide

theorem structuralKinds_subset : ∀ k ∈ structuralKinds, k ∈ failureKinds := by decide

/-- C14: exit shape and closed taxonomy.  The result of `Parse` has exactly one of two
shapes: a token with the kind `""` and a `nil` error, or `Token{}` with a non-empty
kind of the sixteen and a non-nil error.  So no token other than `Token{}` comes with
an error, and the kind is empty if and only if the error is `nil`. -/
theorem C14_exit_shape (x : Collaborators) (t : jwt) (now : GoInt64) (jwtStr : String)
    (options : List ParseOptions) :
    ((∃ token, Parse x t now jwtStr options = (token, "", none)) ∨
      (∃ k e, k ∈ failureKinds ∧ k ≠ "" ∧
        Parse x t now jwtStr options = (Token.zero, k, some e))) ∧
    ¬ ((∃ token, Parse x t now jwtStr options = (token, "", none)) ∧
      (∃ k e, Parse x t now jwtStr options = (Token.zero, k, some e))) ∧
    ((Parse x t now jwtStr options).2.2 ≠ none →
      (Parse x t now jwtStr options).1 = Token.zero) ∧
    ((Parse x t now jwtStr options).2.1 = "" ↔ (Parse x t now jwtStr options).2.2 = none) := by
  have hshape : (∃ token, Parse x t now jwtStr options = (token, "", none)) ∨
      (∃ k e, k ∈ failureKinds ∧ k ≠ "" ∧
        Parse x t now jwtStr options = (Token.zero, k, some e)) := by
    have mk : ∀ k e, k ∈ failureKinds →
        Parse x t now jwtStr options = (Token.zero, k, some e) →
        ∃ k e, k ∈ failureKinds ∧ k ≠ "" ∧
          Parse x t now jwtStr options = (Token.zero, k, some e) :=
      fun k e hk hP => ⟨k, e, hk, failureKinds_ne_empty k hk, hP⟩
    rcases Parse_failure_cases x t now jwtStr options with
      h | hP | ⟨_, _, _, e, _, _, hP⟩ | ⟨_, _, _, e, _, _, hP⟩ | ⟨e, hP | hP | hP⟩ | ⟨sm, hP⟩ |
      ⟨k, hk, hP⟩
    · exact Or.inl h
    · exact Or.inr (mk _ _ (by decide) hP)
    · exact Or.inr (mk _ _ (by decide) hP)
    · exact Or.inr (mk _ _ (by decide) hP)
    · exact Or.inr (mk _ _ (by decide) hP)
    · exact Or.inr (mk _ _ (by decide) hP)
    · exact Or.inr (mk _ _ (by decide) hP)
    · exact Or.inr (mk _ _ (by decide) hP)
    · refine Or.inr (mk _ _ ?_ hP)
      rcases hk with hk | rfl | rfl | rfl
      · exact structuralKinds_subset k hk
      · decide
      · decide
      · decide
  refine ⟨hshape, ?_, ?_, ?_⟩
  · rintro ⟨⟨tok, h1⟩, ⟨k, e, h2⟩⟩
    rw [h1] at h2
    cases h2
  · rcases hshape with ⟨tok, hP⟩ | ⟨k, e, _, _, hP⟩
    · rw [hP]; intro h; exact absurd rfl h
    · rw [hP]; intro _; rfl
  · rcases hshape with ⟨tok, hP⟩ | ⟨k, e, _, hk, hP⟩
    · rw [hP]; exact ⟨fun _ => rfl, fun _ => rfl⟩
    · rw [hP]
      constructor
      · intro h; exact absurd h hk
      · intro h; cases h

/-- C14 at the two-segment string `a.b`: the error is not `nil` and the token is
`Token{}`. -/
theorem C14_exit_shape_witness :
    (Parse sampleCollaborators sampleJwt ⟨50, by decide⟩ "a.b" []).1 = Token.zero :=
  (C14_exit_shape sampleCollaborators sampleJwt ⟨50, by decide⟩ "a.b" []).2.2.1 (by decide)

/-- The kinds of the required-field checks and of the checks of the times are none of
the five kinds of splitting, decoding and the signature. -/
theorem later_kind_ne {k : String}
    (hk : k ∈ structuralKinds ∨ k = ValidationErrorClaimsExpired ∨
      k = ValidationErrorClaimsNotValidYet ∨ k = ValidationErrorClaimsIssuedAt) :
    k ≠ ValidationErrorMalformed ∧ k ≠ ValidationErrorHeadersMalformed ∧
    k ≠ ValidationErrorClaimsMalformed ∧ k ≠ ValidationErrorUnverifiable ∧
    k ≠ ValidationErrorSignatureInvalid := by
  rcases hk with hk | rfl | rfl | rfl
  · obtain ⟨_, h1, h2, h3, h4, h5, _⟩ := structuralKinds_ne hk
    exact ⟨h1, h2, h3, h4, h5⟩
  · decide
  · decide
  · decide

/-- C15, as stated, fails.  On the string `!.?.q8lb` `Parse` returns the kind
`HeadersMalformed` with the error of the base64 codec, whose text does not contain the
kind; on `plainToken` with its third segment replaced by `x` it returns
`SignatureInvalid` with a text that shows the expected and the received token and does
not contain the kind. -/
theorem C15_counterexample :
    Parse sampleCollaborators sampleJwt ⟨50, by decide⟩ "!.?.q8lb" [] =
      (Token.zero, ValidationErrorHeadersMalformed,
        some ⟨"illegal base64 data at input byte 0"⟩) ∧
    ¬ KindEmbedded ValidationErrorHeadersMalformed ⟨"illegal base64 data at input byte 0"⟩ ∧
    Parse sampleCollaborators sampleJwt ⟨50, by decide⟩
        "eyJhbGciOiJIUzI1NiJ9.eyJleHAiOjk5fQ.x" [] =
      (Token.zero, ValidationErrorSignatureInvalid,
        some ⟨"failed to validate signature: jwtSample " ++
          "eyJhbGciOiJIUzI1NiJ9.eyJleHAiOjk5fQ.q8lb, jwt " ++
          "eyJhbGciOiJIUzI1NiJ9.eyJleHAiOjk5fQ.x"⟩) ∧
    ¬ KindEmbedded ValidationErrorSignatureInvalid
      ⟨"failed to validate signature: jwtSample " ++
        "eyJhbGciOiJIUzI1NiJ9.eyJleHAiOjk5fQ.q8lb, jwt " ++
        "eyJhbGciOiJIUzI1NiJ9.eyJleHAiOjk5fQ.x"⟩ := by
  refine ⟨by decide, by decide, by decide, by decide⟩

/-- The error of line 29 begins with the kind, whatever the text of the kind is. -/
theorem kindEmbedded_errorfSplit (kind : String) : KindEmbedded kind (errorfSplit kind) := by
  unfold KindEmbedded errorfSplit
  rw [String.data_append]
  exact (List.prefix_append _ _).isInfix

/-- C15, amended.  When `Parse` fails with `Malformed`, the text of the error contains
the kind.  With every other kind the error is not built from the kind: it is the error
of the codec or of the deserialiser for `HeadersMalformed` and `ClaimsMalformed`; the
cause after `failed to make the headersPart: `, `failed to make the claimsPart: ` or
`failed to make the signature: ` for `Unverifiable`; the text
`failed to validate signature: jwtSample ..., jwt ...` for `SignatureInvalid`; and the
one package error `errTokenIsInvalid` for the eight kinds of the required-field checks
and the three kinds of the checks of the times. -/
theorem C15_error_embedding_amended (x : Collaborators) (t : jwt) (now : GoInt64)
    (jwtStr : String) (options : List ParseOptions) :
    ((Parse x t now jwtStr options).2.1 = ValidationErrorMalformed →
      ∃ e, (Parse x t now jwtStr options).2.2 = some e ∧
        KindEmbedded (Parse x t now jwtStr options).2.1 e) ∧
    ((Parse x t now jwtStr options).2.1 = ValidationErrorHeadersMalformed →
      ∃ p0 p1 p2 e, stringsSplit jwtStr '.' = [p0, p1, p2] ∧ decodeHeaders x p0 = .error e ∧
        (Parse x t now jwtStr options).2.2 = some e) ∧
    ((Parse x t now jwtStr options).2.1 = ValidationErrorClaimsMalformed →
      ∃ p0 p1 p2 e, stringsSplit jwtStr '.' = [p0, p1, p2] ∧ decodeClaims x p1 = .error e ∧
        (Parse x t now jwtStr options).2.2 = some e) ∧
    ((Parse x t now jwtStr options).2.1 = ValidationErrorUnverifiable →
      ∃ e, (Parse x t now jwtStr options).2.2 = some (errorfHeadersPart e) ∨
        (Parse x t now jwtStr options).2.2 = some (errorfClaimsPart e) ∨
        (Parse x t now jwtStr options).2.2 = some (errorfSignature e)) ∧
    ((Parse x t now jwtStr options).2.1 = ValidationErrorSignatureInvalid →
      ∃ sample, (Parse x t now jwtStr options).2.2 = some (errorfValidate sample jwtStr)) ∧
    ((Parse x t now jwtStr options).2.1 ∈ structuralKinds ∨
        (Parse x t now jwtStr options).2.1 = ValidationErrorClaimsExpired ∨
        (Parse x t now jwtStr options).2.1 = ValidationErrorClaimsNotValidYet ∨
        (Parse x t now jwtStr options).2.1 = ValidationErrorClaimsIssuedAt →
      (Parse x t now jwtStr options).2.2 = some x.errTokenIsInvalid) := by
  have hemb : KindEmbedded ValidationErrorMalformed (errorfSplit ValidationErrorMalformed) :=
    kindEmbedded_errorfSplit ValidationErrorMalformed
  have hlater : ∀ k : String, k ∈ structuralKinds ∨ k = ValidationErrorClaimsExpired ∨
      k = ValidationErrorClaimsNotValidYet ∨ k = ValidationErrorClaimsIssuedAt →
      k ≠ "" ∧ k ≠ ValidationErrorMalformed ∧ k ≠ ValidationErrorHeadersMalformed ∧
      k ≠ ValidationErrorClaimsMalformed ∧ k ≠ ValidationErrorUnverifiable ∧
      k ≠ ValidationErrorSignatureInvalid := by
    intro k hk
    obtain ⟨h1, h2, h3, h4, h5⟩ := later_kind_ne hk
    refine ⟨?_, h1, h2, h3, h4, h5⟩
    rcases hk with hk | rfl | rfl | rfl
    · exact (structuralKinds_ne hk).1
    · decide
    · decide
    · decide
  rcases Parse_failure_cases x t now jwtStr options with
    ⟨tok, hP⟩ | hP | ⟨p0, p1, p2, e, hs, hd, hP⟩ | ⟨p0, p1, p2, e, hs, hd, hP⟩ |
    ⟨e, hP | hP | hP⟩ | ⟨sm, hP⟩ | ⟨k, hk, hP⟩
  · rw [hP]
    refine ⟨?_, ?_, ?_, ?_, ?_, ?_⟩
    · intro h; simp only at h; exact absurd h (by decide)
    · intro h; simp only at h; exact absurd h (by decide)
    · intro h; simp only at h; exact absurd h (by decide)
    · intro h; simp only at h; exact absurd h (by decide)
    · intro h; simp only at h; exact absurd h (by decide)
    · intro h; simp only at h; exact absurd rfl (hlater "" h).1
  · rw [hP]
    refine ⟨fun _ => ⟨_, rfl, hemb⟩, ?_, ?_, ?_, ?_, ?_⟩
    · intro h; simp only at h; exact absurd h (by decide)
    · intro h; simp only at h; exact absurd h (by decide)
    · intro h; simp only at h; exact absurd h (by decide)
    · intro h; simp only at h; exact absurd h (by decide)
    · intro h; simp only at h; exact absurd rfl (hlater _ h).2.1
  · rw [hP]
    refine ⟨?_, fun _ => ⟨p0, p1, p2, e, hs, hd, rfl⟩, ?_, ?_, ?_, ?_⟩
    · intro h; simp only at h; exact absurd h (by decide)
    · intro h; simp only at h; exact absurd h (by decide)
    · intro h; simp only at h; exact absurd h (by decide)
    · intro h; simp only at h; exact absurd h (by decide)
    · intro h; simp only at h; exact absurd rfl (hlater _ h).2.2.1
  · rw [hP]
    refine ⟨?_, ?_, fun _ => ⟨p0, p1, p2, e, hs, hd, rfl⟩, ?_, ?_, ?_⟩
    · intro h; simp only at h; exact absurd h (by decide)
    · intro h; simp only at h; exact absurd h (by decide)
    · intro h; simp only at h; exact absurd h (by decide)
    · intro h; simp only at h; exact absurd h (by decide)
    · intro h; simp only at h; exact absurd rfl (hlater _ h).2.2.2.1
  · rw [hP]
    refine ⟨?_, ?_, ?_, fun _ => ⟨e, Or.inl rfl⟩, ?_, ?_⟩
    · intro h; simp only at h; exact absurd h (by decide)
    · intro h; simp only at h; exact absurd h (by decide)
    · intro h; simp only at h; exact absurd h (by decide)
    · intro h; simp only at h; exact absurd h (by decide)
    · intro h; simp only at h; exact absurd rfl (hlater _ h).2.2.2.2.1
  · rw [hP]
    refine ⟨?_, ?_, ?_, fun _ => ⟨e, Or.inr (Or.inl rfl)⟩, ?_, ?_⟩
    · intro h; simp only at h; exact absurd h (by decide)
    · intro h; simp only at h; exact absurd h (by decide)
    · intro h; simp only at h; exact absurd h (by decide)
    · intro h; simp only at h; exact absurd h (by decide)
    · intro h; simp only at h; exact absurd rfl (hlater _ h).2.2.2.2.1
  · rw [hP]
    refine ⟨?_, ?_, ?_, fun _ => ⟨e, Or.inr (Or.inr rfl)⟩, ?_, ?_⟩
    · intro h; simp only at h; exact absurd h (by decide)
    · intro h; simp only at h; exact absurd h (by decide)
    · intro h; simp only at h; exact absurd h (by decide)
    · intro h; simp only at h; exact absurd h (by decide)
    · intro h; simp only at h; exact absurd rfl (hlater _ h).2.2.2.2.1
  · rw [hP]
    refine ⟨?_, ?_, ?_, ?_, fun _ => ⟨sm, rfl⟩, ?_⟩
    · intro h; simp only at h; exact absurd h (by decide)
    · intro h; simp only at h; exact absurd h (by decide)
    · intro h; simp only at h; exact absurd h (by decide)
    · intro h; simp only at h; exact absurd h (by decide)
    · intro h; simp only at h; exact absurd rfl (hlater _ h).2.2.2.2.2
  · rw [hP]
    obtain ⟨_, h1, h2, h3, h4, h5⟩ := hlater k hk
    exact ⟨fun h => absurd h h1, fun h => absurd h h2, fun h => absurd h h3,
      fun h => absurd h h4, fun h => absurd h h5, fun _ => rfl⟩

/-- C15 at the empty string, which `Parse` rejects as `Malformed`: the text of the error
contains the kind. -/
theorem C15_error_embedding_amended_witness :
    ∃ e, (Parse sampleCollaborators sampleJwt ⟨50, by decide⟩ "" []).2.2 = some e ∧
      KindEmbedded (Parse sampleCollaborators sampleJwt ⟨50, by decide⟩ "" []).2.1 e :=
  (C15_error_embedding_amended sampleCollaborators sampleJwt ⟨50, by decide⟩ "" []).1
    (by decide)

/-- C16, as stated, fails.  With the signature skipped, `plainToken` with an empty third
segment is accepted and the returned signature is the empty string; with the checks of
the times skipped as well, the string `e30.e30.`, whose first two segments encode the
empty JSON object, is accepted and the returned token is `Token{}`. -/
theorem C16_counterexample :
    Parse sampleCollaborators sampleJwt ⟨50, by decide⟩ "eyJhbGciOiJIUzI1NiJ9.eyJleHAiOjk5fQ."
        [⟨true, false, false, false, false, false, false, false, false, false⟩] =
      (⟨plainHeaders, plainClaims, ""⟩, "", none) ∧
    base64EncodeToString (stringBytes "\x7b\x7d") = "e30" ∧
    Parse wideCollaborators sampleJwt ⟨50, by decide⟩ "e30.e30." [skipBoth] =
      (⟨Headers.zero, Claims.zero, ""⟩, "", none) := by
  refine ⟨by decide, by decide, by decide⟩

/-- C16, amended.  When `Parse` succeeds, the string has three segments, the returned
header and claims are what the first and the second segment decode to, and the returned
signature is the third segment; when the signature is not skipped, it is moreover the
signature that the signer gives for the returned header and claims.  Each of the three
may be a zero value. -/
theorem C16_token_populated_amended (x : Collaborators) (t : jwt) (now : GoInt64)
    (jwtStr : String) (options : List ParseOptions)
    (hk : (Parse x t now jwtStr options).2.1 = "") :
    ∃ p0 p1 p2 h c, stringsSplit jwtStr '.' = [p0, p1, p2] ∧ decodeHeaders x p0 = .ok h ∧
      decodeClaims x p1 = .ok c ∧ (Parse x t now jwtStr options).1 = ⟨h, c, p2⟩ ∧
      ((effectiveOptions t options).SkipSignatureValidation = false →
        SignerGives x t.config.Key h c p2) := by
  obtain ⟨p0, p1, p2, h, c, hs, hh, hc, hv, hP⟩ := accepted_decoded hk
  refine ⟨p0, p1, p2, h, c, hs, hh, hc, by rw [hP], ?_⟩
  intro hsk
  obtain ⟨hsig, _, _⟩ := (validationFailure_eq_none_iff _ _ _ _ _ _).1 hv
  rcases hsig with hsig | hsig
  · rw [hsk] at hsig; cases hsig
  · exact (recomputedSignature_ok_iff _ _ _ _ _).1 hsig

/-- C16 at the sample token `plainToken`, clock 50. -/
theorem C16_token_populated_amended_witness :
    ∃ p0 p1 p2 h c, stringsSplit plainToken '.' = [p0, p1, p2] ∧
      decodeHeaders sampleCollaborators p0 = .ok h ∧
      decodeClaims sampleCollaborators p1 = .ok c ∧
      (Parse sampleCollaborators sampleJwt ⟨50, by decide⟩ plainToken []).1 = ⟨h, c, p2⟩ ∧
      ((effectiveOptions sampleJwt []).SkipSignatureValidation = false →
        SignerGives sampleCollaborators sampleJwt.config.Key h c p2) :=
  C16_token_populated_amended sampleCollaborators sampleJwt ⟨50, by decide⟩ plainToken []
    (by decide)

/-! ### C17, C18 and C19 -/

/-- `Parse` reads its receiver and its options through the effective options and the
key only. -/
theorem Parse_congr (x : Collaborators) (t t' : jwt) (now : GoInt64) (jwtStr : String)
    (options options' : List ParseOptions) (hkey : t.config.Key = t'.config.Key)
    (ho : effectiveOptions t options = effectiveOptions t' options') :
    Parse x t now jwtStr options = Parse x t' now jwtStr options' := by
  rw [Parse_eq, Parse_eq, ho]
  have hv : ∀ token : Token,
      validationFailure x t now jwtStr (effectiveOptions t' options') token =
        validationFailure x t' now jwtStr (effectiveOptions t' options') token := by
    intro token
    simp only [validationFailure, signatureFailure, hkey]
  split
  · rename_i p0 p1 p2 hs
    cases decodeHeaders x p0 with
    | error e => rfl
    | ok h =>
      cases decodeClaims x p1 with
      | error e => rfl
      | ok c =>
        simp only []
        rw [hv]
  · rfl

/-- C17: the effective configuration.  A call without options returns what the call
with the default options passed explicitly returns; a call with options returns the
same for every default `ParseOptions` and for every choice of the second and later
options; and in every case the key is the key of the default configuration: two calls
with the same effective options and the same key return the same. -/
theorem C17_effective_configuration (x : Collaborators) (t : jwt) (now : GoInt64)
    (jwtStr : String) :
    Parse x t now jwtStr [] = Parse x t now jwtStr [t.config.ParseOptions] ∧
    (∀ (o po po' : ParseOptions) (key : String) (rest rest' : List ParseOptions),
      Parse x ⟨⟨po, key⟩⟩ now jwtStr (o :: rest) =
        Parse x ⟨⟨po', key⟩⟩ now jwtStr (o :: rest')) ∧
    (∀ (t' : jwt) (options options' : List ParseOptions), t.config.Key = t'.config.Key →
      effectiveOptions t options = effectiveOptions t' options' →
      Parse x t now jwtStr options = Parse x t' now jwtStr options') :=
  ⟨Parse_congr x t t now jwtStr [] [t.config.ParseOptions] rfl rfl,
    fun o po po' key rest rest' =>
      Parse_congr x ⟨⟨po, key⟩⟩ ⟨⟨po', key⟩⟩ now jwtStr (o :: rest) (o :: rest') rfl rfl,
    fun t' options options' hkey ho => Parse_congr x t t' now jwtStr options options' hkey ho⟩

/-- C17 at the sample token `plainToken`: with the issuer required by the first option,
the default options of `sampleJwt`, which require nothing, and a second option do not
count. -/
theorem C17_effective_configuration_witness :
    Parse sampleCollaborators sampleJwt ⟨50, by decide⟩ plainToken [issuerRequired, noOptions] =
      (Token.zero, ValidationErrorClaimsIssuer, some sampleCollaborators.errTokenIsInvalid) := by
  have h := (C17_effective_configuration sampleCollaborators sampleJwt ⟨50, by decide⟩
    plainToken).2.1 issuerRequired noOptions allRequired "secret" [noOptions] []
  have h2 : Parse sampleCollaborators ⟨⟨allRequired, "secret"⟩⟩ ⟨50, by decide⟩ plainToken
      [issuerRequired] =
      (Token.zero, ValidationErrorClaimsIssuer, some sampleCollaborators.errTokenIsInvalid) := by
    decide
  exact h.trans h2

/-- The checks of the times read the clock through three comparisons. -/
theorem temporalFailure_congr (x : Collaborators) (now1 now2 : GoInt64) (token : Token)
    (h1 : now1.val > token.Claims.ExpirationTime.val ↔
      now2.val > token.Claims.ExpirationTime.val)
    (h2 : now1.val < token.Claims.NotBefore.val ↔ now2.val < token.Claims.NotBefore.val)
    (h3 : now1.val < token.Claims.IssuedAt.val ↔ now2.val < token.Claims.IssuedAt.val) :
    temporalFailure x now1 token = temporalFailure x now2 token := by
  simp only [temporalFailure, h1, h2, h3]

/-- C18: determinism and dependence on the clock.  `Parse` is a function of the token
string, the effective options, the key and `now`: two calls that agree on them return
the same result.  And two clock values that stand on the same side of the three times
of the decoded claims (`now > ExpirationTime`, `now < NotBefore`, `now < IssuedAt`)
give the same result. -/
theorem C18_determinism_and_clock (x : Collaborators) (t t' : jwt) (now1 now2 : GoInt64)
    (jwtStr : String) (options options' : List ParseOptions) :
    (t.config.Key = t'.config.Key →
      effectiveOptions t options = effectiveOptions t' options' →
      Parse x t now1 jwtStr options = Parse x t' now1 jwtStr options') ∧
    ((∀ p0 p1 p2 c, stringsSplit jwtStr '.' = [p0, p1, p2] → decodeClaims x p1 = .ok c →
        (now1.val > c.ExpirationTime.val ↔ now2.val > c.ExpirationTime.val) ∧
        (now1.val < c.NotBefore.val ↔ now2.val < c.NotBefore.val) ∧
        (now1.val < c.IssuedAt.val ↔ now2.val < c.IssuedAt.val)) →
      Parse x t now1 jwtStr options = Parse x t now2 jwtStr options) := by
  refine ⟨Parse_congr x t t' now1 jwtStr options options', ?_⟩
  intro hclock
  rw [Parse_eq, Parse_eq]
  split
  · rename_i p0 p1 p2 hs
    cases hh : decodeHeaders x p0 with
    | error e => rfl
    | ok h =>
      cases hc : decodeClaims x p1 with
      | error e => rfl
      | ok c =>
        obtain ⟨h1, h2, h3⟩ := hclock p0 p1 p2 c hs hc
        simp only [validationFailure]
        rw [temporalFailure_congr x now1 now2 ⟨h, c, p2⟩ h1 h2 h3]
  · rfl

/-- C18 at the sample token `fullToken` (issued at 10, valid from 20 to 99): the clock
values 30 and 50 give the same result. -/
theorem C18_determinism_and_clock_witness :
    Parse sampleCollaborators sampleJwt ⟨30, by decide⟩ fullToken [allRequired] =
      Parse sampleCollaborators sampleJwt ⟨50, by decide⟩ fullToken [allRequired] := by
  refine (C18_determinism_and_clock sampleCollaborators sampleJwt sampleJwt ⟨30, by decide⟩
    ⟨50, by decide⟩ fullToken [allRequired] [allRequired]).2 ?_
  intro p0 p1 p2 c hs hc
  have hs' : stringsSplit fullToken '.' =
      ["eyJhbGciOiJIUzI1NiIsImN0eSI6IkpXVCIsImtpZCI6ImsxIiwiY3JpdCI6ImV4cCJ9",
        "eyJpc3MiOiJpc3N1ZXIiLCJzdWIiOiJzdWJqZWN0IiwiYXVkIjoiYXVkaWVuY2UiLCJqdGkiOiJpZDEiLCJpYXQiOjEw" ++
          "LCJuYmYiOjIwLCJleHAiOjk5LCJkYXRhIjp7InJvbGUiOiJhZG1pbiJ9fQ", "ODCc"] := by decide
  rw [hs'] at hs
  simp only [List.cons.injEq, and_true] at hs
  obtain ⟨_, rfl, _⟩ := hs
  have hc' : decodeClaims sampleCollaborators
      ("eyJpc3MiOiJpc3N1ZXIiLCJzdWIiOiJzdWJqZWN0IiwiYXVkIjoiYXVkaWVuY2UiLCJqdGkiOiJpZDEiLCJpYXQiOjEw" ++
        "LCJuYmYiOjIwLCJleHAiOjk5LCJkYXRhIjp7InJvbGUiOiJhZG1pbiJ9fQ") = .ok fullClaims := by
    decide
  rw [hc'] at hc
  cases hc
  decide

/-- The kind of a failure of the validation stages does not depend on the text of the
token: the text only occurs in the error of `SignatureInvalid`. -/
theorem validationFailure_kind_text (x : Collaborators) (t : jwt) (now : GoInt64)
    (jwtStr jwtStr' : String) (o : ParseOptions) (token : Token) :
    (validationFailure x t now jwtStr o token).map Prod.fst =
      (validationFailure x t now jwtStr' o token).map Prod.fst := by
  unfold validationFailure signatureFailure
  cases o.SkipSignatureValidation with
  | true => rfl
  | false =>
    simp only [if_true]
    cases x.makeHeaderPart token.Headers with
    | error e => rfl
    | ok hp =>
      cases x.makeClaimsPart token.Claims with
      | error e => rfl
      | ok cp =>
        simp only []
        cases x.makeSignature (hp ++ "." ++ cp) token.Headers.SignatureAlgorithm
            t.config.Key with
        | error e => rfl
        | ok sg =>
          by_cases hsg : sg = token.Signature
          · simp only [hsg, ne_eq, not_true_eq_false, if_false]
          · simp only [ne_eq, hsg, not_false_eq_true, if_true, Option.map_some']

theorem finish_of_kind_eq (token : Token) (v v' : Option (String × GoError))
    (h : v.map Prod.fst = v'.map Prod.fst) :
    (finish token v).2.1 = (finish token v').2.1 ∧ (finish token v).1 = (finish token v').1 := by
  cases v with
  | none =>
    cases v' with
    | none => exact ⟨rfl, rfl⟩
    | some f' => cases h
  | some f =>
    cases v' with
    | none => cases h
    | some f' =>
      obtain ⟨k, e⟩ := f
      obtain ⟨k', e'⟩ := f'
      simp only [Option.map_some', Option.some.injEq] at h
      subst h
      exact ⟨rfl, rfl⟩

/-- C19: the signing input is derived from the decoded header and claims, not from the
text received.  Two strings of three segments whose first segments decode to the same
header, whose second segments decode to the same claims and whose third segments are
equal give, with the same configuration, key and clock, the same kind and the same
token, and on success the same result.  With the signature not skipped, the signature
block passes (`Parse` returns neither `Unverifiable` nor `SignatureInvalid`) if and
only if `makeSignature(makeHeaderPart(h) + "." + makeClaimsPart(c), h.SignatureAlgorithm,
key)` succeeds and equals the third segment. -/
theorem C19_signing_input_rederived (x : Collaborators) (t : jwt) (now : GoInt64)
    (options : List ParseOptions) (s1 s2 a1 b1 a2 b2 p2 : String) (h : Headers) (c : Claims)
    (hs1 : stringsSplit s1 '.' = [a1, b1, p2]) (hs2 : stringsSplit s2 '.' = [a2, b2, p2])
    (hh1 : decodeHeaders x a1 = .ok h) (hh2 : decodeHeaders x a2 = .ok h)
    (hc1 : decodeClaims x b1 = .ok c) (hc2 : decodeClaims x b2 = .ok c) :
    (Parse x t now s1 options).2.1 = (Parse x t now s2 options).2.1 ∧
    (Parse x t now s1 options).1 = (Parse x t now s2 options).1 ∧
    ((Parse x t now s1 options).2.1 = "" →
      Parse x t now s1 options = Parse x t now s2 options) ∧
    ((effectiveOptions t options).SkipSignatureValidation = false →
      (((Parse x t now s1 options).2.1 ≠ ValidationErrorUnverifiable ∧
          (Parse x t now s1 options).2.1 ≠ ValidationErrorSignatureInvalid) ↔
        SignerGives x t.config.Key h c p2)) := by
  have hP1 := @Parse_of_decoded x t now s1 options a1 b1 p2 h c hs1 hh1 hc1
  have hP2 := @Parse_of_decoded x t now s2 options a2 b2 p2 h c hs2 hh2 hc2
  have hkind := finish_of_kind_eq ⟨h, c, p2⟩ _ _
    (validationFailure_kind_text x t now s1 s2 (effectiveOptions t options) ⟨h, c, p2⟩)
  refine ⟨by rw [hP1, hP2]; exact hkind.1, by rw [hP1, hP2]; exact hkind.2, ?_, ?_⟩
  · intro hk
    obtain ⟨q0, q1, q2, h', c', hs, hh, hc, hv, hP⟩ := accepted_decoded hk
    rw [hs1] at hs
    simp only [List.cons.injEq, and_true] at hs
    obtain ⟨rfl, rfl, rfl⟩ := hs
    rw [hh1] at hh
    rw [hc1] at hc
    cases hh
    cases hc
    have hv2 : validationFailure x t now s2 (effectiveOptions t options) ⟨h, c, p2⟩ = none :=
      (validationFailure_eq_none_iff _ _ _ _ _ _).2
        ((validationFailure_eq_none_iff _ _ _ _ _ _).1 hv)
    rw [hP, hP2, hv2]
    rfl
  · intro hsk
    rw [hP1, ← recomputedSignature_ok_iff]
    rcases validationFailure_outcome x t now s1 (effectiveOptions t options) ⟨h, c, p2⟩ with
      ⟨_, e, hr, hv⟩ | ⟨_, sg, e, hr, hne, hv⟩ | ⟨hp, k, hk, hv⟩ | ⟨hp, _, _, k, hk, _, hv⟩ |
      ⟨hp, _, _, hv⟩
    · rw [hv]
      simp only at hr
      constructor
      · intro hn; exact absurd rfl hn.1
      · intro hg; rw [hr] at hg; cases hg
    · rw [hv]
      simp only at hr hne
      constructor
      · intro hn; exact absurd rfl hn.2
      · intro hg; rw [hr] at hg; cases hg; exact absurd rfl hne
    · rw [hv]
      have hrec : recomputedSignature x t.config.Key h c = .ok p2 := by
        rcases hp with hp | hp
        · rw [hsk] at hp; cases hp
        · exact hp
      obtain ⟨_, _, _, _, h5, h6, _⟩ := structuralKinds_ne (firstFailingCheck_mem hk)
      exact ⟨fun _ => hrec, fun _ => ⟨h5, h6⟩⟩
    · rw [hv]
      have hrec : recomputedSignature x t.config.Key h c = .ok p2 := by
        rcases hp with hp | hp
        · rw [hsk] at hp; cases hp
        · exact hp
      refine ⟨fun _ => hrec, fun _ => ?_⟩
      rcases hk with rfl | rfl | rfl <;> simp only [finish] <;> decide
    · rw [hv]
      have hrec : recomputedSignature x t.config.Key h c = .ok p2 := by
        rcases hp with hp | hp
        · rw [hsk] at hp; cases hp
        · exact hp
      refine ⟨fun _ => hrec, fun _ => ?_⟩
      simp only [finish]
      decide

/-- C19 at two sample tokens with the claims and the signature of `plainToken`: the
first segment of the one encodes the header text without a space, the first segment
of the other the text with a space after the colon.  Both are accepted. -/
theorem C19_signing_input_rederived_witness :
    Parse sampleCollaborators sampleJwt ⟨50, by decide⟩
        "eyJhbGciOiJIUzI1NiJ9.eyJleHAiOjk5fQ.q8lb" [] =
      Parse sampleCollaborators sampleJwt ⟨50, by decide⟩
        "eyJhbGciOiAiSFMyNTYifQ.eyJleHAiOjk5fQ.q8lb" [] :=
  (C19_signing_input_rederived sampleCollaborators sampleJwt ⟨50, by decide⟩ []
    "eyJhbGciOiJIUzI1NiJ9.eyJleHAiOjk5fQ.q8lb" "eyJhbGciOiAiSFMyNTYifQ.eyJleHAiOjk5fQ.q8lb"
    "eyJhbGciOiJIUzI1NiJ9" "eyJleHAiOjk5fQ" "eyJhbGciOiAiSFMyNTYifQ" "eyJleHAiOjk5fQ" "q8lb"
    plainHeaders plainClaims (by decide) (by decide) (by decide) (by decide) (by decide)
    (by decide)).2.2.1 (by decide)

end Jwt
